import Mathlib

/-!
# justup SSH proxy: host key container, authentication callback, session set-up

A shallow embedding of `pkg/sshproxy/keygen.go`, `pkg/sshproxy/server.go`,
and of the parts of `pkg/database/database.go` and
`pkg/kubernetes/workspace.go` the proxy calls.

Conventions.
* A Go `[]byte` is a `List Nat`; every byte the code computes with `byte(..)`
  is reduced `% 256` explicitly.
* A Go `string` is a `String`; `[]byte(s)` is its UTF-8 encoding `stringBytes s`.
* Code with effects (random source, file system, credential store, cluster,
  network) is a function from an explicit state to a result and a new state;
  every call that matters for a property is recorded in a trace of events.
-/

namespace Justup

/-! ## Results, bytes and strings -/

/-- Equality of Go results (`value, err`) is decidable. -/
instance instDecidableEqExcept {ε α : Type} [DecidableEq ε] [DecidableEq α] :
    DecidableEq (Except ε α)
  | .ok a, .ok b =>
    if h : a = b then isTrue (by rw [h]) else isFalse (fun h1 => h (Except.ok.inj h1))
  | .error a, .error b =>
    if h : a = b then isTrue (by rw [h]) else isFalse (fun h1 => h (Except.error.inj h1))
  | .ok _, .error _ => isFalse (fun h => Except.noConfusion h)
  | .error _, .ok _ => isFalse (fun h => Except.noConfusion h)

/-- UTF-8 encoding of one code point, as Go stores it in a `string`. -/
def utf8EncodeChar (c : Char) : List Nat :=
  let v := c.toNat
  if v < 0x80 then [v]
  else if v < 0x800 then [0xC0 + v / 64, 0x80 + v % 64]
  else if v < 0x10000 then [0xE0 + v / 4096, 0x80 + (v / 64) % 64, 0x80 + v % 64]
  else [0xF0 + v / 262144, 0x80 + (v / 4096) % 64, 0x80 + (v / 64) % 64, 0x80 + v % 64]

/-- Go conversion `[]byte(s)`. -/
def stringBytes (s : String) : List Nat := s.toList.flatMap utf8EncodeChar

/-- Go idiom `buf := make([]byte, n); copy(buf, src)`: the first `n` bytes of
`src`, zero-filled up to `n` when `src` is shorter. -/
def copyInto (n : Nat) (src : List Nat) : List Nat :=
  src.take n ++ List.replicate (n - src.length) 0

/-- Value of a byte string read as a big-endian number. -/
def beValue (l : List Nat) : Nat := l.foldl (fun acc x => acc * 256 + x) 0

/-! ## keygen.go: length-prefixed fields -/

/-- Source `marshalBytes` (keygen.go:107): a buffer of `4 + len(b)` bytes, the
first four set from `len(b)` by shifts and `byte(..)` truncation, then `b`. -/
def marshalBytes (b : List Nat) : List Nat :=
  [(b.length >>> 24) % 256, (b.length >>> 16) % 256, (b.length >>> 8) % 256, b.length % 256] ++ b

/-- Source `marshalString` (keygen.go:103). -/
def marshalString (s : String) : List Nat := marshalBytes (stringBytes s)

/-- Source `marshalUint32` (keygen.go:117); `n` is a `uint32`. -/
def marshalUint32 (n : Nat) : List Nat :=
  [(n >>> 24) % 256, (n >>> 16) % 256, (n >>> 8) % 256, n % 256]

/-! ## keygen.go: the openssh-key-v1 container -/

/-- Go `ed25519.PrivateKey.Public`: a fresh 32-byte buffer receiving `priv[32:]`.
Keys come from `GenerateKey` and have 64 bytes; on a key shorter than 32 bytes
Go would panic, which the list model does not show. -/
def ed25519Public (key : List Nat) : List Nat := copyInto 32 (key.drop 32)

/-- Go `rand.Read(buf)` on a buffer made by `make([]byte, n)`, the returned error
ignored as in the source: `rnd` is what the random source can still deliver. -/
def randRead (n : Nat) (rnd : List Nat) : List Nat := copyInto n (rnd.map (· % 256))

/-- The padding loop of keygen.go:87,
`for i := 1; len(privSection)%8 != 0; i++ { privSection = append(privSection, byte(i)) }`,
started at counter `i`, running at most `fuel` iterations. -/
def padLoop : Nat → List Nat → Nat → List Nat
  | 0, privSection, _ => privSection
  | fuel + 1, privSection, i =>
    if privSection.length % 8 ≠ 0 then padLoop fuel (privSection ++ [i % 256]) (i + 1)
    else privSection

/-- The private section built at keygen.go:75-89 (the local `privSection`),
padding included. Eight iterations are always enough for the loop to stop by its
own test (`padLoop_fuel`). -/
def privSection (rnd : List Nat) (key : List Nat) : List Nat :=
  let pubKey := ed25519Public key
  let pubKeyType := "ssh-ed25519"
  let checkInt := randRead 4 rnd
  let privSection := checkInt ++ checkInt
  let privSection := privSection ++ marshalString pubKeyType
  let privSection := privSection ++ marshalBytes pubKey
  let privSection := privSection ++ marshalBytes key
  let privSection := privSection ++ marshalString ""
  padLoop 8 privSection 1

/-- Source `marshalED25519PrivateKey` (keygen.go:52). `rnd` is the state of the
random source that `rand.Read(checkInt)` draws from. -/
def marshalED25519PrivateKey (rnd : List Nat) (key : List Nat) : List Nat :=
  let pubKey := ed25519Public key
  let magic := stringBytes "openssh-key-v1\x00"
  let cipher := "none"
  let kdf := "none"
  let kdfOptions : List Nat := []
  let numKeys := 1
  let pubKeyType := "ssh-ed25519"
  let pubKeyBlob := marshalString pubKeyType
  let pubKeyBlob := pubKeyBlob ++ marshalBytes pubKey
  let privSection := privSection rnd key
  let blob := magic
  let blob := blob ++ marshalString cipher
  let blob := blob ++ marshalString kdf
  let blob := blob ++ marshalBytes kdfOptions
  let blob := blob ++ marshalUint32 numKeys
  let blob := blob ++ marshalBytes pubKeyBlob
  let blob := blob ++ marshalBytes privSection
  blob

/-! ## The container format in the words of the specification -/

/-- The 4-byte big-endian encoding of a number below `2^32`. -/
def be32 (n : Nat) : List Nat :=
  [n / 16777216 % 256, n / 65536 % 256, n / 256 % 256, n % 256]

/-- A length-prefixed field: 4-byte big-endian length, then the bytes. -/
def lengthPrefixed (b : List Nat) : List Nat := be32 b.length ++ b

/-- ASCII codes of a text. -/
def ascii (s : String) : List Nat := s.toList.map Char.toNat

/-- Reads a 4-byte big-endian integer off the front of the input. -/
def readUint32 (inp : List Nat) : Option (Nat × List Nat) :=
  match inp with
  | a :: b :: c :: d :: rest => some (beValue [a, b, c, d], rest)
  | _ => none

/-- Reads a length-prefixed field off the front of the input. -/
def readString (inp : List Nat) : Option (List Nat × List Nat) :=
  match readUint32 inp with
  | none => none
  | some (n, rest) => if n ≤ rest.length then some (rest.take n, rest.drop n) else none

/-- Removes a fixed leading marker, failing when the input does not start with it. -/
def expectLeading (marker inp : List Nat) : Option (List Nat) :=
  if marker.isPrefixOf inp then some (inp.drop marker.length) else none

/-- Padding check of the private section: the bytes are `1, 2, 3, ...`. -/
def paddingOk (pad : List Nat) : Bool := pad == List.range' 1 pad.length

/-- Decoder of the private section of an unencrypted openssh-key-v1 container
holding one Ed25519 key, given the public key announced in the public section:
two equal check integers, key type `ssh-ed25519`, the public key again, the
64-byte private key whose last 32 bytes are the public key, a comment, and
padding `1, 2, 3, ...` up to a multiple of 8. Returns the private key. -/
def decodePrivSection (pub : List Nat) (sec : List Nat) : Option (List Nat) :=
  match readUint32 sec with
  | none => none
  | some (check1, r1) =>
  match readUint32 r1 with
  | none => none
  | some (check2, r2) =>
  match readString r2 with
  | none => none
  | some (keyType, r3) =>
  match readString r3 with
  | none => none
  | some (pub2, r4) =>
  match readString r4 with
  | none => none
  | some (priv, r5) =>
  match readString r5 with
  | none => none
  | some (_comment, pad) =>
    if check1 = check2 ∧ keyType = ascii "ssh-ed25519" ∧ pub2 = pub ∧ priv.length = 64
        ∧ priv.drop 32 = pub ∧ sec.length % 8 = 0 ∧ paddingOk pad = true
    then some priv else none

/-- A standard decoder of the unencrypted openssh-key-v1 container with one
Ed25519 key, written from the format's description: magic, cipher `none`, KDF
`none`, KDF options, key count 1, public section (key type and 32-byte public
key), private section, and nothing after it. Returns the 64-byte private key. -/
def decodeOpenSSHKeyV1 (blob : List Nat) : Option (List Nat) :=
  match expectLeading (ascii "openssh-key-v1" ++ [0]) blob with
  | none => none
  | some r0 =>
  match readString r0 with
  | none => none
  | some (cipher, r1) =>
  match readString r1 with
  | none => none
  | some (kdf, r2) =>
  match readString r2 with
  | none => none
  | some (_kdfOptions, r3) =>
  match readUint32 r3 with
  | none => none
  | some (numKeys, r4) =>
  match readString r4 with
  | none => none
  | some (pubSection, r5) =>
  match readString r5 with
  | none => none
  | some (privSec, r6) =>
  match readString pubSection with
  | none => none
  | some (keyType, p1) =>
  match readString p1 with
  | none => none
  | some (pub, p2) =>
    if cipher = ascii "none" ∧ kdf = ascii "none" ∧ numKeys = 1 ∧ r6 = []
        ∧ keyType = ascii "ssh-ed25519" ∧ pub.length = 32 ∧ p2 = []
    then decodePrivSection pub privSec else none

/-! ## Library model: base64 and PEM (Go `encoding/base64`, `encoding/pem`) -/

/-- The standard base64 alphabet. -/
def b64Table : List Nat :=
  ascii "ABCDEFGHIJKLMNOPQRSTUVWXYZabcdefghijklmnopqrstuvwxyz0123456789+/"

/-- The character for a 6-bit value. -/
def b64Char (v : Nat) : Nat := b64Table.getD v 0

/-- The 6-bit value of a base64 character. -/
def b64Value (ch : Nat) : Option Nat :=
  if 65 ≤ ch ∧ ch ≤ 90 then some (ch - 65)
  else if 97 ≤ ch ∧ ch ≤ 122 then some (ch - 71)
  else if 48 ≤ ch ∧ ch ≤ 57 then some (ch + 4)
  else if ch = 43 then some 62
  else if ch = 47 then some 63
  else none

/-- Go `base64.StdEncoding` encoding, `=` padded. -/
def b64Encode : List Nat → List Nat
  | a :: b :: c :: rest =>
    b64Char (a / 4) :: b64Char (a % 4 * 16 + b / 16) :: b64Char (b % 16 * 4 + c / 64)
      :: b64Char (c % 64) :: b64Encode rest
  | [a, b] => [b64Char (a / 4), b64Char (a % 4 * 16 + b / 16), b64Char (b % 16 * 4), 61]
  | [a] => [b64Char (a / 4), b64Char (a % 4 * 16), 61, 61]
  | [] => []

/-- Go `base64.StdEncoding` decoding of text without line breaks. -/
def b64Decode : List Nat → Option (List Nat)
  | [] => some []
  | w :: x :: y :: z :: rest =>
    match b64Value w, b64Value x with
    | some p, some q =>
      if y = 61 ∧ z = 61 ∧ rest = [] then some [p * 4 + q / 16]
      else
        match b64Value y with
        | none => none
        | some r =>
          if z = 61 ∧ rest = [] then some [p * 4 + q / 16, q % 16 * 16 + r / 4]
          else
            match b64Value z with
            | none => none
            | some s =>
              (b64Decode rest).map
                (fun t => (p * 4 + q / 16) :: (q % 16 * 16 + r / 4) :: (r % 4 * 64 + s) :: t)
    | _, _ => none
  | _ => none

/-- Go `pem` line breaker: a newline after every 64 characters and after a last
shorter line; `used` is the number of characters already on the current line. -/
def lineBreak : Nat → List Nat → List Nat
  | used, [] => if used > 0 then [10] else []
  | used, c :: cs =>
    if used = 64 then 10 :: c :: lineBreak 1 cs else c :: lineBreak (used + 1) cs

/-- Go `pem.EncodeToMemory` for a block without headers. -/
def pemEncode (blockType : List Nat) (bytes : List Nat) : List Nat :=
  ascii "-----BEGIN " ++ blockType ++ ascii "-----\n"
    ++ lineBreak 0 (b64Encode bytes)
    ++ ascii "-----END " ++ blockType ++ ascii "-----\n"

/-- Space, tab, carriage return or line feed. -/
def isBlank (c : Nat) : Bool := c = 32 ∨ c = 9 ∨ c = 13 ∨ c = 10

/-- Go `pem.Decode` for data that starts with one block without headers: the
block's type and its decoded bytes. -/
def pemDecode (data : List Nat) : Option (List Nat × List Nat) :=
  match expectLeading (ascii "-----BEGIN ") data with
  | none => none
  | some r =>
    let typeLine := r.takeWhile (· ≠ 10)
    let rest := (r.dropWhile (· ≠ 10)).drop 1
    if (ascii "-----").isSuffixOf typeLine then
      let blockType := typeLine.take (typeLine.length - 5)
      let body := rest.takeWhile (· ≠ 45)
      let trailer := rest.dropWhile (· ≠ 45)
      match expectLeading (ascii "-----END " ++ blockType ++ ascii "-----") trailer with
      | none => none
      | some tail =>
        if tail.all isBlank then
          (b64Decode (body.filter (fun c => !isBlank c))).map (fun b => (blockType, b))
        else none
    else none

/-! ## Library model: keys and signers (Go `crypto/ed25519`, `x/crypto/ssh`) -/

/-- An `ssh.Signer` over an Ed25519 private key. -/
structure Signer where
  key : List Nat
deriving DecidableEq, Repr

/-- The signer's public key (`Signer.PublicKey`), as raw Ed25519 bytes. -/
def Signer.PublicKey (s : Signer) : List Nat := ed25519Public s.key

/-- Go `ssh.NewSignerFromKey` on an `ed25519.PrivateKey`: it fails only when the
public half does not have 32 bytes. -/
def NewSignerFromKey (key : List Nat) : Except String Signer :=
  if (ed25519Public key).length = 32 then .ok ⟨key⟩ else .error "ssh: invalid size for ed25519 public key"

/-- Go `ed25519.GenerateKey(rand.Reader)`: 32 random bytes of seed, the private
key being the seed followed by the 32-byte public key derived from it by
`derive`; fails when the random source cannot deliver the seed. Returns the
private key and what is left of the random source. -/
def GenerateKey (derive : List Nat → List Nat) (rnd : List Nat) :
    Except String (List Nat × List Nat) :=
  if rnd.length < 32 then .error "unexpected EOF"
  else
    let seed := (rnd.take 32).map (· % 256)
    .ok (seed ++ copyInto 32 ((derive seed).map (· % 256)), rnd.drop 32)

/-- Go `ssh.ParsePrivateKey` restricted to what the relay writes: a PEM block of
type `OPENSSH PRIVATE KEY` holding an unencrypted container with one Ed25519
key. -/
def ParsePrivateKey (pemBytes : List Nat) : Except String Signer :=
  match pemDecode pemBytes with
  | none => .error "ssh: no key found"
  | some (blockType, bytes) =>
    if blockType = stringBytes "OPENSSH PRIVATE KEY" then
      match decodeOpenSSHKeyV1 bytes with
      | none => .error "ssh: invalid openssh private key format"
      | some key => NewSignerFromKey key
    else .error "ssh: unsupported key type"

/-! ## Environment of the host identity manager: files and randomness -/

/-- A regular file: content and permission bits. -/
structure File where
  content : List Nat
  perm : Nat
deriving DecidableEq, Repr

/-- The file system as the relay sees it. The three fault lists name the paths on
which the operating system refuses the operation (access rights, I/O error,
read-only medium). -/
structure FS where
  files : List (String × File)
  dirs : List String
  umask : Nat
  readFault : List String
  mkdirFault : List String
  writeFault : List String
deriving DecidableEq, Repr

/-- A call leaving the process that the host identity manager makes. -/
inductive Call where
  | readFile (path : String)
  | generateKey
  | mkdirAll (dir : String) (perm : Nat)
  | writeFile (path : String) (data : List Nat) (perm : Nat)
deriving DecidableEq, Repr

/-- State of the environment: file system, random source, calls made so far. -/
structure World where
  fs : FS
  rnd : List Nat
  calls : List Call
deriving DecidableEq, Repr

/-- The file at a path, if there is one. -/
def FS.file (fs : FS) (path : String) : Option File :=
  (fs.files.find? (fun e => e.1 == path)).map (·.2)

/-- Go `os.ReadFile`. -/
def readFile (w : World) (path : String) : Except String (List Nat) × World :=
  let w := { w with calls := w.calls ++ [Call.readFile path] }
  if path ∈ w.fs.readFault then (.error "permission denied", w)
  else
    match w.fs.file path with
    | none => (.error "no such file or directory", w)
    | some f => (.ok f.content, w)

/-- Go `os.MkdirAll`: nothing to do when the directory exists. -/
def mkdirAll (w : World) (dir : String) (perm : Nat) : Except String Unit × World :=
  let w := { w with calls := w.calls ++ [Call.mkdirAll dir perm] }
  if dir ∈ w.fs.dirs then (.ok (), w)
  else if dir ∈ w.fs.mkdirFault ∨ (w.fs.file dir).isSome then (.error "mkdir failed", w)
  else (.ok (), { w with fs := { w.fs with dirs := w.fs.dirs ++ [dir] } })

/-- Replaces the content of the first entry for `path`, keeping its permissions. -/
def overwrite (path : String) (data : List Nat) : List (String × File) → List (String × File)
  | [] => []
  | e :: es =>
    if e.1 == path then (e.1, { e.2 with content := data }) :: es
    else e :: overwrite path data es

/-- Go `os.WriteFile(name, data, perm)`: "If the file does not exist, WriteFile
creates it with permissions perm (before umask); otherwise WriteFile truncates it
before writing, without changing permissions." -/
def writeFile (w : World) (path : String) (data : List Nat) (perm : Nat) :
    Except String Unit × World :=
  let w := { w with calls := w.calls ++ [Call.writeFile path data perm] }
  if path ∈ w.fs.writeFault then (.error "write failed", w)
  else
    match w.fs.file path with
    | some _ => (.ok (), { w with fs := { w.fs with files := overwrite path data w.fs.files } })
    | none =>
      let f : File := { content := data, perm := perm - (perm &&& w.fs.umask) }
      (.ok (), { w with fs := { w.fs with files := w.fs.files ++ [(path, f)] } })

/-! ## keygen.go and server.go: the host identity manager -/

/-- Source `generateHostKey` (keygen.go:15). `dirOf` is `filepath.Dir`, `derive`
the Ed25519 public-key derivation. -/
def generateHostKey (dirOf : String → String) (derive : List Nat → List Nat)
    (w : World) (path : String) : Except String Signer × World :=
  let w := { w with calls := w.calls ++ [Call.generateKey] }
  match GenerateKey derive w.rnd with
  | .error e => (.error ("failed to generate key: " ++ e), w)
  | .ok (privateKey, rnd1) =>
    let w := { w with rnd := rnd1 }
    let pemBytes :=
      pemEncode (stringBytes "OPENSSH PRIVATE KEY") (marshalED25519PrivateKey w.rnd privateKey)
    let w := { w with rnd := w.rnd.drop 4 }
    let dir := dirOf path
    match mkdirAll w dir 0o755 with
    | (.error e, w) => (.error ("failed to create directory: " ++ e), w)
    | (.ok _, w) =>
      match writeFile w path pemBytes 0o600 with
      | (.error e, w) => (.error ("failed to write key file: " ++ e), w)
      | (.ok _, w) =>
        match NewSignerFromKey privateKey with
        | .error e => (.error ("failed to create signer: " ++ e), w)
        | .ok signer => (.ok signer, w)

/-- Source `loadOrGenerateHostKey` (server.go:298). `parse` is
`ssh.ParsePrivateKey`. -/
def loadOrGenerateHostKey (parse : List Nat → Except String Signer)
    (dirOf : String → String) (derive : List Nat → List Nat)
    (w : World) (path : String) : Except String Signer × World :=
  match readFile w path with
  | (.ok keyBytes, w) =>
    match parse keyBytes with
    | .ok signer => (.ok signer, w)
    | .error _ => generateHostKey dirOf derive w path
  | (.error _, w) => generateHostKey dirOf derive w path

/-! ## Environment of a session: credential store, cluster, network -/

/-- Source `database.SSHKey` (database.go:19); times are seconds. -/
structure SSHKey where
  ID : String
  UserID : String
  Name : String
  PublicKey : String
  Fingerprint : String
  CreatedAt : Nat
  LastUsedAt : Option Nat
deriving DecidableEq, Repr

/-- Source `kubernetes.Workspace` (workspace.go:28). -/
structure Workspace where
  Name : String
  Status : String
  Age : String
  GitURL : String
  PodIP : String
deriving DecidableEq, Repr

/-- The fields of a `corev1.Pod` that the relay reads. -/
structure Pod where
  Name : String
  Labels : List (String × String)
  Annotations : List (String × String)
  CreationTimestamp : Nat
  Phase : String
  PodIP : String
deriving DecidableEq, Repr

/-- Library type `ssh.Permissions`: the extensions map, as a list of entries. -/
structure Permissions where
  Extensions : List (String × String)
deriving DecidableEq, Repr

/-- The two legs of a session. -/
inductive Leg where
  | client
  | target
deriving DecidableEq, Repr

/-- The four connection objects `handleConnection` closes on return. -/
inductive Conn where
  | netConn
  | sshConn
  | targetConn
  | targetSSHConn
deriving DecidableEq, Repr

/-- What a session does that is visible outside `handleConnection`, in the order
it happens. Calls on collaborators carry their outcome. -/
inductive Event where
  | log (msg : String)
  | getSSHKeyByFingerprint (fingerprint : String) (found : Option SSHKey)
  | updateSSHKeyLastUsed (id : String) (ok : Bool)
  | newServerConn (ok : Bool)
  | getWorkspace (name : String) (found : Option Workspace)
  | dial (network : String) (address : String) (ok : Bool)
  | newClientConn (address : String) (user : String) (signer : Signer) (ok : Bool)
  | goProxyRequests (src : Leg) (dst : Leg)
  | goProxyChannels (src : Leg) (dst : Leg)
  | wait
  | close (c : Conn)
deriving DecidableEq, Repr

/-- Everything outside the process a session touches: the rows of table
`ssh_keys`, the pods of the workspace namespace, the addresses that refuse a TCP
connection or fail the outbound handshake, the clock, and the faults the store
and the cluster API answer with; `trace` collects the events. -/
structure Env where
  ssh_keys : List SSHKey
  queryFault : Option String
  execFault : Option String
  pods : List Pod
  apiFault : Option String
  dialFault : List String
  sshFault : List String
  now : Nat
  trace : List Event
deriving DecidableEq, Repr

/-- Appends an event to the trace. -/
def Env.emit (env : Env) (e : Event) : Env := { env with trace := env.trace ++ [e] }

/-- Go `log.Printf`. -/
def Env.logf (env : Env) (msg : String) : Env := env.emit (Event.log msg)

/-! ## database.go -/

/-- Source `DB.GetSSHKeyByFingerprint` (database.go:186): the first row of
`SELECT .. FROM ssh_keys WHERE fingerprint = ?`; an error when the query fails
or has no row. -/
def GetSSHKeyByFingerprint (env : Env) (fingerprint : String) : Except String SSHKey × Env :=
  match env.queryFault with
  | some e => (.error e, env.emit (Event.getSSHKeyByFingerprint fingerprint none))
  | none =>
    match env.ssh_keys.find? (fun k => k.Fingerprint == fingerprint) with
    | none =>
      (.error "sql: no rows in result set", env.emit (Event.getSSHKeyByFingerprint fingerprint none))
    | some key => (.ok key, env.emit (Event.getSSHKeyByFingerprint fingerprint (some key)))

/-- Source `DB.UpdateSSHKeyLastUsed` (database.go:272):
`UPDATE ssh_keys SET last_used_at = CURRENT_TIMESTAMP WHERE id = ?`. -/
def UpdateSSHKeyLastUsed (env : Env) (id : String) : Option String × Env :=
  match env.execFault with
  | some e => (some e, env.emit (Event.updateSSHKeyLastUsed id false))
  | none =>
    let rows := env.ssh_keys.map
      (fun k => if k.ID == id then { k with LastUsedAt := some env.now } else k)
    (none, { env with ssh_keys := rows }.emit (Event.updateSSHKeyLastUsed id true))

/-! ## kubernetes/workspace.go -/

/-- Source constant `WorkspaceLabel` (client.go:22). -/
def WorkspaceLabel : String := "justup.io/workspace"

/-- Source constant `GitURLAnnotation` (client.go:24). -/
def GitURLAnnotation : String := "justup.io/git-url"

/-- Go map read `m[k]` on a `map[string]string`: the empty string when absent. -/
def mapGet (m : List (String × String)) (k : String) : String :=
  ((m.find? (fun e => e.1 == k)).map (·.2)).getD ""

/-- Source `formatAge` (workspace.go:238), on a duration in whole seconds. -/
def formatAge (now : Nat) (t : Nat) : String :=
  let d : Int := (now : Int) - (t : Int)
  if d < 60 then toString d ++ "s"
  else if d < 3600 then toString (d / 60) ++ "m"
  else if d < 86400 then toString (d / 3600) ++ "h"
  else toString (d / 86400) ++ "d"

/-- Source `podToWorkspace` (workspace.go:216). Pod names are DNS labels, hence
ASCII, so that dropping three bytes is dropping three characters. -/
def podToWorkspace (now : Nat) (pod : Pod) : Workspace :=
  let name := mapGet pod.Labels WorkspaceLabel
  let name :=
    if name == "" then
      if pod.Name.utf8ByteSize > 3 then String.mk (pod.Name.toList.drop 3) else name
    else name
  let age := formatAge now pod.CreationTimestamp
  let gitURL := mapGet pod.Annotations GitURLAnnotation
  { Name := name, Status := pod.Phase, Age := age, GitURL := gitURL, PodIP := pod.PodIP }

/-- Source `Client.GetWorkspace` (workspace.go:87). `cancelled` is the state of
the context handed to the API call. -/
def GetWorkspace (env : Env) (cancelled : Bool) (name : String) : Except String Workspace × Env :=
  let podName := "ws-" ++ name
  if cancelled then (.error "context canceled", env.emit (Event.getWorkspace name none))
  else
    match env.apiFault with
    | some e => (.error e, env.emit (Event.getWorkspace name none))
    | none =>
      match env.pods.find? (fun p => p.Name == podName) with
      | none =>
        (.error ("workspace '" ++ name ++ "' not found"), env.emit (Event.getWorkspace name none))
      | some pod =>
        let ws := podToWorkspace env.now pod
        (.ok ws, env.emit (Event.getWorkspace name (some ws)))

/-! ## sshproxy/server.go: authentication and session set-up -/

/-- Source `Config` (server.go:18). -/
structure Config where
  ListenAddr : String
  HostKeyPath : String
  DatabasePath : String
deriving DecidableEq, Repr

/-- Go `ssh.ServerConfig` as `NewServer` fills it: the version string and the
host keys added with `AddHostKey`. Its `PublicKeyCallback` is always the
server's own `publicKeyCallback`, defined below. -/
structure ServerConfig where
  ServerVersion : String
  hostKeys : List Signer
deriving DecidableEq, Repr

/-- The relay process (source `Server`, server.go:25): its configuration, its
SSH server configuration and its host signer. The fields `db` and `k8sClient`
are handles on the store and the cluster, which are in `Env`. -/
structure Server where
  config : Config
  sshConfig : ServerConfig
  hostSigner : Signer
deriving DecidableEq, Repr

/-- Source `Server.publicKeyCallback` (server.go:182). `fingerprintSHA256` is
`ssh.FingerprintSHA256`, `user` is `conn.User()`, `key` the offered public key.
The result is the Go pair of permissions and error. -/
def publicKeyCallback (fingerprintSHA256 : List Nat → String) (env : Env) (user : String)
    (key : List Nat) : (Option Permissions × Option String) × Env :=
  let fingerprint := fingerprintSHA256 key
  let workspaceName := user
  let env := env.logf ("Auth attempt for workspace '" ++ workspaceName ++ "' with key " ++ fingerprint)
  match GetSSHKeyByFingerprint env fingerprint with
  | (.error _, env) =>
    let env := env.logf ("Key not found: " ++ fingerprint)
    ((none, some "unknown public key"), env)
  | (.ok sshKey, env) =>
    let env := (UpdateSSHKeyLastUsed env sshKey.ID).2
    let env := env.logf ("Auth successful for workspace '" ++ workspaceName ++ "' (user: "
      ++ sshKey.UserID ++ ", key: " ++ sshKey.Name ++ ")")
    ((some { Extensions := [("user-id", sshKey.UserID), ("key-id", sshKey.ID),
        ("fingerprint", fingerprint)] }, none), env)

/-- One public key a client offers; `signs` tells whether the client goes on to
prove possession of the private key. -/
structure Offer where
  key : List Nat
  signs : Bool
deriving DecidableEq, Repr

/-- An inbound connection as the relay meets it. -/
structure Client where
  remoteAddr : String
  transportOk : Bool
  user : String
  offers : List Offer
deriving DecidableEq, Repr

/-- The server side of an established inbound connection (`ssh.ServerConn`). -/
structure ServerConn where
  user : String
  remoteAddr : String
  permissions : Permissions
deriving DecidableEq, Repr

/-- Public-key authentication inside the library's handshake: the callback is
asked about each offered key in turn; the first key it accepts and the client
signs for authenticates the connection. -/
def authenticate (fingerprintSHA256 : List Nat → String) (user : String) :
    List Offer → Env → Option Permissions × Env
  | [], env => (none, env)
  | o :: os, env =>
    match publicKeyCallback fingerprintSHA256 env user o.key with
    | ((some perms, none), env) =>
      if o.signs then (some perms, env) else authenticate fingerprintSHA256 user os env
    | (_, env) => authenticate fingerprintSHA256 user os env

/-- Library `ssh.NewServerConn` with the configuration `NewServer` installs:
public key is the only authentication method, `publicKeyCallback` decides. -/
def NewServerConn (fingerprintSHA256 : List Nat → String) (env : Env) (client : Client) :
    Except String ServerConn × Env :=
  if client.transportOk then
    match authenticate fingerprintSHA256 client.user client.offers env with
    | (some perms, env) =>
      (.ok { user := client.user, remoteAddr := client.remoteAddr, permissions := perms },
        env.emit (Event.newServerConn true))
    | (none, env) =>
      (.error "ssh: unable to authenticate", env.emit (Event.newServerConn false))
  else (.error "ssh: handshake failed", env.emit (Event.newServerConn false))

/-- Go `net.Dial`. -/
def Dial (env : Env) (network : String) (address : String) : Except String Unit × Env :=
  if address ∈ env.dialFault then
    (.error "connection refused", env.emit (Event.dial network address false))
  else (.ok (), env.emit (Event.dial network address true))

/-- Library `ssh.NewClientConn` towards the backend, with the user, the one
signer offered for authentication; every host key is accepted. -/
def NewClientConn (env : Env) (address : String) (user : String) (signer : Signer) :
    Except String Unit × Env :=
  if address ∈ env.sshFault then
    (.error "ssh: handshake failed", env.emit (Event.newClientConn address user signer false))
  else (.ok (), env.emit (Event.newClientConn address user signer true))

/-- Source `Server.handleConnection` (server.go:101), up to and including the
start of the four forwarders and the wait for the two request forwarders; the
deferred closes run last, in reverse order of their `defer`. What the forwarders
themselves do is the subject of `proxyRequests` and `proxyChannels`. The result
is the environment, its trace extended by the session's events. -/
def handleConnection (fingerprintSHA256 : List Nat → String) (s : Server) (cancelled : Bool)
    (env : Env) (client : Client) : Env :=
  match NewServerConn fingerprintSHA256 env client with
  | (.error e, env) =>
    let env := env.logf ("SSH handshake failed: " ++ e)
    env.emit (Event.close Conn.netConn)
  | (.ok sshConn, env) =>
    let workspaceName := sshConn.user
    let env := env.logf ("Connection from " ++ sshConn.remoteAddr ++ " for workspace '"
      ++ workspaceName ++ "'")
    match GetWorkspace env cancelled workspaceName with
    | (.error e, env) =>
      let env := env.logf ("Failed to get workspace '" ++ workspaceName ++ "': " ++ e)
      (env.emit (Event.close Conn.sshConn)).emit (Event.close Conn.netConn)
    | (.ok ws, env) =>
      if ws.Status != "Running" then
        let env := env.logf ("Workspace '" ++ workspaceName ++ "' is not running (status: "
          ++ ws.Status ++ ")")
        (env.emit (Event.close Conn.sshConn)).emit (Event.close Conn.netConn)
      else if ws.PodIP == "" then
        let env := env.logf ("Workspace '" ++ workspaceName ++ "' has no IP address")
        (env.emit (Event.close Conn.sshConn)).emit (Event.close Conn.netConn)
      else
        let targetAddr := ws.PodIP ++ ":22"
        match Dial env "tcp" targetAddr with
        | (.error e, env) =>
          let env := env.logf ("Failed to connect to workspace '" ++ workspaceName ++ "' at "
            ++ targetAddr ++ ": " ++ e)
          (env.emit (Event.close Conn.sshConn)).emit (Event.close Conn.netConn)
        | (.ok _, env) =>
          match NewClientConn env targetAddr "dev" s.hostSigner with
          | (.error e, env) =>
            let env := env.logf ("Failed to establish SSH connection to workspace '"
              ++ workspaceName ++ "': " ++ e)
            ((env.emit (Event.close Conn.targetConn)).emit (Event.close Conn.sshConn)).emit
              (Event.close Conn.netConn)
          | (.ok _, env) =>
            let env := env.emit (Event.goProxyRequests Leg.client Leg.target)
            let env := env.emit (Event.goProxyRequests Leg.target Leg.client)
            let env := env.emit (Event.goProxyChannels Leg.client Leg.target)
            let env := env.emit (Event.goProxyChannels Leg.target Leg.client)
            let env := env.emit Event.wait
            let env := env.logf ("Connection closed for workspace '" ++ workspaceName ++ "'")
            (((env.emit (Event.close Conn.targetSSHConn)).emit (Event.close Conn.targetConn)).emit
              (Event.close Conn.sshConn)).emit (Event.close Conn.netConn)

/-! ## Reading a trace -/

/-- The credential IDs of the `UpdateSSHKeyLastUsed` calls in a trace, in order. -/
def updateCalls : List Event → List String
  | [] => []
  | Event.updateSSHKeyLastUsed id _ :: es => id :: updateCalls es
  | _ :: es => updateCalls es

/-- The event is the start of a forwarding function (`proxyRequests` or
`proxyChannels`). -/
def Event.isForward : Event → Bool
  | Event.goProxyRequests _ _ => true
  | Event.goProxyChannels _ _ => true
  | _ => false

/-- The event is a call of `net.Dial`. -/
def Event.isDial : Event → Bool
  | Event.dial _ _ _ => true
  | _ => false

/-- The event is a call of `GetWorkspace`. -/
def Event.isLookup : Event → Bool
  | Event.getWorkspace _ _ => true
  | _ => false

/-- The event belongs to an authentication attempt: a log line or a call on the
credential store. -/
def Event.isAuth : Event → Bool
  | Event.log _ => true
  | Event.getSSHKeyByFingerprint _ _ => true
  | Event.updateSSHKeyLastUsed _ _ => true
  | _ => false

/-- The events one run of `handleConnection` adds to the trace. -/
def sessionEvents (fingerprintSHA256 : List Nat → String) (s : Server) (cancelled : Bool)
    (env : Env) (client : Client) : List Event :=
  (handleConnection fingerprintSHA256 s cancelled env client).trace.drop env.trace.length

/-- The environment `env1` is `env` after some authentication attempts: only the
credential rows and the trace may differ, and the trace gained the
authentication events `added` only. -/
def AuthStep (env env1 : Env) (added : List Event) : Prop :=
  env1.queryFault = env.queryFault ∧ env1.execFault = env.execFault ∧ env1.pods = env.pods
    ∧ env1.apiFault = env.apiFault ∧ env1.dialFault = env.dialFault
    ∧ env1.sshFault = env.sshFault ∧ env1.now = env.now
    ∧ env1.trace = env.trace ++ added ∧ ∀ x ∈ added, x.isAuth = true

/-- The result of a lookup as the trace records it. -/
def foundWorkspace : Except String Workspace → Option Workspace
  | .ok ws => some ws
  | .error _ => none

/-! ## Sample inputs -/

/-- A host key file as `generateHostKey` writes it for the key `0, 1, ..., 63`. -/
def sampleKeyFile : List Nat :=
  pemEncode (stringBytes "OPENSSH PRIVATE KEY")
    (marshalED25519PrivateKey [9, 8, 7, 6] (List.range 64))

/-- A world whose host key path holds `sampleKeyFile`. -/
def sampleWorld : World :=
  { fs := { files := [("/etc/justup/ssh_host_ed25519_key", { content := sampleKeyFile, perm := 0o600 })],
            dirs := ["/etc/justup"], umask := 0o022,
            readFault := [], mkdirFault := [], writeFault := [] },
    rnd := List.range 40, calls := [] }

/-- A world whose host key path holds a file that is not a key and that group
and others may read (mode 0644). -/
def staleWorld : World :=
  { fs := { files := [("/etc/justup/ssh_host_ed25519_key", { content := ascii "not a key\n", perm := 0o644 })],
            dirs := ["/etc/justup"], umask := 0o022,
            readFault := [], mkdirFault := [], writeFault := [] },
    rnd := List.range 40, calls := [] }

/-- A stand-in for `ssh.FingerprintSHA256` in the examples. -/
def sampleFingerprint (key : List Nat) : String := "SHA256:" ++ toString (beValue key)

/-- A registered credential; its fingerprint is the one of the key `[1, 2]`. -/
def sampleCredential : SSHKey :=
  { ID := "key-1", UserID := "user-1", Name := "laptop", PublicKey := "ssh-ed25519 AAAA",
    Fingerprint := "SHA256:258", CreatedAt := 5, LastUsedAt := none }

/-- An environment with one credential and one running workspace `alpha` at
`10.0.0.5`, and a workspace `beta` that is not running. -/
def sampleEnv : Env :=
  { ssh_keys := [sampleCredential], queryFault := none, execFault := none,
    pods := [{ Name := "ws-alpha", Labels := [], Annotations := [], CreationTimestamp := 3,
               Phase := "Running", PodIP := "10.0.0.5" },
             { Name := "ws-beta", Labels := [], Annotations := [], CreationTimestamp := 4,
               Phase := "Pending", PodIP := "" }],
    apiFault := none, dialFault := [], sshFault := [], now := 100, trace := [] }

/-- A client asking for workspace `alpha`, offering an unknown key and then the
registered one. -/
def sampleClient : Client :=
  { remoteAddr := "192.0.2.7:50000", transportOk := true, user := "alpha",
    offers := [{ key := [7], signs := true }, { key := [1, 2], signs := true }] }

/-- The relay process of the examples. -/
def sampleServer : Server :=
  { config := Config.mk ":2222" "/etc/justup/ssh_host_ed25519_key" "/var/lib/justup/justup.db",
    sshConfig := ServerConfig.mk "SSH-2.0-JustupProxy" [{ key := List.range 64 }],
    hostSigner := { key := List.range 64 } }

/-! ## sshproxy/server.go: the relay engine, one forwarder at a time -/

/-- Library type `ssh.Request`: the fields the relay reads (`ReqType` is the Go
field `Type`). -/
structure Request where
  ReqType : String
  WantReply : Bool
  Payload : List Nat
deriving DecidableEq, Repr

/-- One element received from a request stream (`<-chan *ssh.Request`): the
pointer, nil or a request, and what the other side returns when the request is
forwarded to it with `SendRequest` (a result `ρ`, or an error). -/
structure Arrival (ρ : Type) where
  req : Option Request
  answer : Except String ρ
deriving Repr

/-- How a forwarding loop stopped: its stream was closed, it read a nil pointer,
or a forward failed. -/
inductive LoopEnd where
  | streamClosed
  | nilRequest
  | sendFailed (err : String)
deriving DecidableEq, Repr

/-- What a request forwarder does: a `SendRequest` on the other side, or a
`Reply` on the original request `req`. -/
inductive RelayEvent where
  | sendRequest (reqType : String) (wantReply : Bool) (payload : List Nat)
  | reply (req : Request) (ok : Bool) (payload : List Nat)
deriving DecidableEq, Repr

/-- Source `proxyRequests` (server.go:210): the events of the loop over the
stream, and how the loop stopped. -/
def proxyRequests : List (Arrival (Bool × List Nat)) → List RelayEvent × LoopEnd
  | [] => ([], LoopEnd.streamClosed)
  | a :: rest =>
    match a.req with
    | none => ([], LoopEnd.nilRequest)
    | some req =>
      match a.answer with
      | .error err =>
        ([RelayEvent.sendRequest req.ReqType req.WantReply req.Payload], LoopEnd.sendFailed err)
      | .ok (ok, payload) =>
        if req.WantReply then
          (RelayEvent.sendRequest req.ReqType req.WantReply req.Payload
            :: RelayEvent.reply req ok payload :: (proxyRequests rest).1, (proxyRequests rest).2)
        else
          (RelayEvent.sendRequest req.ReqType req.WantReply req.Payload
            :: (proxyRequests rest).1, (proxyRequests rest).2)

/-- Source `proxyChannelRequests` (server.go:282): `ch.SendRequest` returns a
boolean only, and the reply to the original is `req.Reply(ok, nil)`. -/
def proxyChannelRequests : List (Arrival Bool) → List RelayEvent × LoopEnd
  | [] => ([], LoopEnd.streamClosed)
  | a :: rest =>
    match a.req with
    | none => ([], LoopEnd.nilRequest)
    | some req =>
      match a.answer with
      | .error err =>
        ([RelayEvent.sendRequest req.ReqType req.WantReply req.Payload], LoopEnd.sendFailed err)
      | .ok ok =>
        if req.WantReply then
          (RelayEvent.sendRequest req.ReqType req.WantReply req.Payload
            :: RelayEvent.reply req ok [] :: (proxyChannelRequests rest).1,
            (proxyChannelRequests rest).2)
        else
          (RelayEvent.sendRequest req.ReqType req.WantReply req.Payload
            :: (proxyChannelRequests rest).1, (proxyChannelRequests rest).2)

/-- Library type `ssh.NewChannel`: what `ChannelType()` and `ExtraData()` return. -/
structure NewChannel where
  ChannelType : String
  ExtraData : List Nat
deriving DecidableEq, Repr

/-- One element received from a new-channel stream (`<-chan ssh.NewChannel`): nil
or a request, what `OpenChannel` on the opposite leg returns for it, and what
`Accept` on the request returns. -/
structure ChannelArrival where
  newChan : Option NewChannel
  openResult : Except String Unit
  acceptResult : Except String Unit
deriving DecidableEq, Repr

/-- Library constant `ssh.ConnectionFailed` (a `RejectionReason`). -/
def ConnectionFailed : Nat := 2

/-- What the new-channel loop does for a request `newChan`: open a channel on the
opposite leg, reject or accept the request, close the opened channel again, or
start the goroutine of the channel-pair, which starts the pair's forwarders. -/
inductive ChannelEvent where
  | openChannel (channelType : String) (extraData : List Nat)
  | reject (newChan : NewChannel) (reason : Nat) (message : String)
  | accept (newChan : NewChannel)
  | closeOpened (newChan : NewChannel)
  | goPair (newChan : NewChannel)
deriving DecidableEq, Repr

/-- Source `proxyChannels` (server.go:226): the events of the loop over the
stream, and how the loop stopped. -/
def proxyChannels : List ChannelArrival → List ChannelEvent × LoopEnd
  | [] => ([], LoopEnd.streamClosed)
  | a :: rest =>
    match a.newChan with
    | none => ([], LoopEnd.nilRequest)
    | some newChan =>
      match a.openResult with
      | .error err =>
        (ChannelEvent.openChannel newChan.ChannelType newChan.ExtraData
          :: ChannelEvent.reject newChan ConnectionFailed err :: (proxyChannels rest).1,
          (proxyChannels rest).2)
      | .ok _ =>
        match a.acceptResult with
        | .error _ =>
          (ChannelEvent.openChannel newChan.ChannelType newChan.ExtraData
            :: ChannelEvent.accept newChan :: ChannelEvent.closeOpened newChan
            :: (proxyChannels rest).1, (proxyChannels rest).2)
        | .ok _ =>
          (ChannelEvent.openChannel newChan.ChannelType newChan.ExtraData
            :: ChannelEvent.accept newChan :: ChannelEvent.goPair newChan
            :: (proxyChannels rest).1, (proxyChannels rest).2)

/-- One turn of the loop inside Go `io.Copy(dst, src)`, as the two channels
decide it: the bytes and the error `src.Read` returns (`"EOF"` is `io.EOF`), and
the count and the error `dst.Write` returns when given those bytes. -/
structure CopyTurn where
  data : List Nat
  readErr : Option String
  nw : Nat
  writeErr : Option String
deriving DecidableEq, Repr

/-- Where `io.Copy` stands after the turns it was given: the arguments of its
`Write` calls, the bytes read from the source, the bytes the destination took,
and the error it returned, if it has returned. -/
structure CopyState where
  writes : List (List Nat)
  bytesRead : List Nat
  delivered : List Nat
  returned : Option (Option String)
deriving DecidableEq, Repr

/-- Go `io.Copy` (the loop of `io.copyBuffer`): read; when bytes were read, write
them and stop on a write error or a short write; stop on a read error, which is
reported unless it is `io.EOF`. With no turn left the copy is blocked in `Read`. -/
def ioCopy : List CopyTurn → CopyState
  | [] => { writes := [], bytesRead := [], delivered := [], returned := none }
  | t :: rest =>
    if t.data.length > 0 then
      let ew : Option String :=
        if t.data.length < t.nw then (if t.writeErr.isNone then some "invalid write result" else t.writeErr)
        else t.writeErr
      let nw := if t.data.length < t.nw then 0 else t.nw
      match ew with
      | some e =>
        { writes := [t.data], bytesRead := t.data, delivered := t.data.take nw,
          returned := some (some e) }
      | none =>
        if t.data.length ≠ nw then
          { writes := [t.data], bytesRead := t.data, delivered := t.data.take nw,
            returned := some (some "short write") }
        else
          match t.readErr with
          | some er =>
            { writes := [t.data], bytesRead := t.data, delivered := t.data.take nw,
              returned := some (if er = "EOF" then none else some er) }
          | none =>
            let r := ioCopy rest
            { writes := t.data :: r.writes, bytesRead := t.data ++ r.bytesRead,
              delivered := t.data.take nw ++ r.delivered, returned := r.returned }
    else
      match t.readErr with
      | some er =>
        { writes := [], bytesRead := [], delivered := [],
          returned := some (if er = "EOF" then none else some er) }
      | none => ioCopy rest

/-- A call of a byte-copy forwarder on its destination channel. -/
inductive ChanCall where
  | write (data : List Nat)
  | closeWrite
  | close
deriving DecidableEq, Repr

/-- The byte-copy forwarder of one direction (server.go:255-259 and 260-264):
`io.Copy(dst, src)`, its result ignored, then `dst.CloseWrite()`. The calls it
has made on the destination after the given turns. -/
def copyForwarder (turns : List CopyTurn) : List ChanCall :=
  match (ioCopy turns).returned with
  | none => (ioCopy turns).writes.map ChanCall.write
  | some _ => (ioCopy turns).writes.map ChanCall.write ++ [ChanCall.closeWrite]

/-- The arguments of the `SendRequest` call, when the event is one. -/
def RelayEvent.sent : RelayEvent → Option (String × Bool × List Nat)
  | RelayEvent.sendRequest t w p => some (t, w, p)
  | _ => none

/-- The request answered and the answer given, when the event is a `Reply`. -/
def RelayEvent.replied : RelayEvent → Option (Request × Bool × List Nat)
  | RelayEvent.reply r ok p => some (r, ok, p)
  | _ => none

/-! ## sshproxy/server.go: goroutines of a channel-pair and of a session

The goroutines of the relay are modelled as a transition system: a state holds
the position of every goroutine and the counter of the `sync.WaitGroup`; an
action names the goroutine that takes its next step. A step out of a blocking
call (`io.Copy`, a request loop reading its stream) can be taken at any time:
when it happens is the environment's choice. `wg.Wait()` can be passed only
when the counter is zero. -/

/-- The four forwarders of a channel-pair (server.go:255-274). -/
inductive Forwarder where
  | copyToTarget
  | copyToClient
  | requestsToTarget
  | requestsToClient
deriving DecidableEq, Repr

/-- Position of a forwarder goroutine: not started; inside its blocking call
(`io.Copy` or `proxyChannelRequests`); the call has returned; `CloseWrite` has
been called on the destination (copy forwarders only); the deferred `wg.Done()`
has run. -/
inductive ForwarderPc where
  | notStarted
  | running
  | returned
  | halfClosed
  | done
deriving DecidableEq, Repr

/-- Position of the goroutine of a channel-pair (server.go:247-277): started; the
two defers registered and `wg.Add(4)` done; one, two, three forwarders started;
all four started and in `wg.Wait()`; `wg.Wait()` returned; the deferred
`targetChan.Close()` done; the deferred `clientChan.Close()` done. -/
inductive PairPc where
  | entry
  | added
  | startedOne
  | startedTwo
  | startedThree
  | waiting
  | woken
  | targetClosed
  | finished
deriving DecidableEq, Repr

/-- What the goroutines of a channel-pair do that others can see. -/
inductive PairEvent where
  | started (f : Forwarder)
  | closeWrite (dst : Leg)
  | finished (f : Forwarder)
  | close (channel : Leg)
deriving DecidableEq, Repr

/-- State of a channel-pair. -/
structure PairState where
  pc : PairPc
  wg : Nat
  copyToTarget : ForwarderPc
  copyToClient : ForwarderPc
  requestsToTarget : ForwarderPc
  requestsToClient : ForwarderPc
  log : List PairEvent
deriving DecidableEq, Repr

/-- The goroutine that takes the next step. -/
inductive PairAction where
  | pair
  | forwarder (f : Forwarder)
deriving DecidableEq, Repr

/-- A channel-pair whose goroutine has just been started by `proxyChannels`. -/
def PairState.init : PairState :=
  { pc := PairPc.entry, wg := 0, copyToTarget := ForwarderPc.notStarted,
    copyToClient := ForwarderPc.notStarted, requestsToTarget := ForwarderPc.notStarted,
    requestsToClient := ForwarderPc.notStarted, log := [] }

/-- Position of a forwarder. -/
def PairState.get (s : PairState) : Forwarder → ForwarderPc
  | Forwarder.copyToTarget => s.copyToTarget
  | Forwarder.copyToClient => s.copyToClient
  | Forwarder.requestsToTarget => s.requestsToTarget
  | Forwarder.requestsToClient => s.requestsToClient

/-- Moves a forwarder to a new position. -/
def PairState.set (s : PairState) (f : Forwarder) (pc : ForwarderPc) : PairState :=
  match f with
  | Forwarder.copyToTarget => { s with copyToTarget := pc }
  | Forwarder.copyToClient => { s with copyToClient := pc }
  | Forwarder.requestsToTarget => { s with requestsToTarget := pc }
  | Forwarder.requestsToClient => { s with requestsToClient := pc }

/-- The destination channel of a byte-copy forwarder; none for a request forwarder. -/
def Forwarder.copyDst : Forwarder → Option Leg
  | Forwarder.copyToTarget => some Leg.target
  | Forwarder.copyToClient => some Leg.client
  | _ => none

/-- Starts a forwarder (`go func() { defer wg.Done(); ... }()`). -/
def PairState.start (s : PairState) (f : Forwarder) (next : PairPc) : PairState :=
  { s.set f ForwarderPc.running with pc := next, log := s.log ++ [PairEvent.started f] }

/-- The deferred `wg.Done()` of a forwarder; decrementing a zero counter panics. -/
def PairState.finish (s : PairState) (f : Forwarder) : Option PairState :=
  if s.wg = 0 then none
  else
    let s1 := s.set f ForwarderPc.done
    some { s1 with wg := s.wg - 1, log := s.log ++ [PairEvent.finished f] }

/-- One step of one goroutine of a channel-pair; `none` when that goroutine
cannot move (it is blocked in `wg.Wait()`, not started, or has ended). -/
def PairState.step (s : PairState) : PairAction → Option PairState
  | PairAction.pair =>
    match s.pc with
    | PairPc.entry => some { s with pc := PairPc.added, wg := s.wg + 4 }
    | PairPc.added => some (s.start Forwarder.copyToTarget PairPc.startedOne)
    | PairPc.startedOne => some (s.start Forwarder.copyToClient PairPc.startedTwo)
    | PairPc.startedTwo => some (s.start Forwarder.requestsToTarget PairPc.startedThree)
    | PairPc.startedThree => some (s.start Forwarder.requestsToClient PairPc.waiting)
    | PairPc.waiting => if s.wg = 0 then some { s with pc := PairPc.woken } else none
    | PairPc.woken =>
      some { s with pc := PairPc.targetClosed, log := s.log ++ [PairEvent.close Leg.target] }
    | PairPc.targetClosed =>
      some { s with pc := PairPc.finished, log := s.log ++ [PairEvent.close Leg.client] }
    | PairPc.finished => none
  | PairAction.forwarder f =>
    match s.get f with
    | ForwarderPc.notStarted => none
    | ForwarderPc.running => some (s.set f ForwarderPc.returned)
    | ForwarderPc.returned =>
      match f.copyDst with
      | some dst =>
        some { s.set f ForwarderPc.halfClosed with log := s.log ++ [PairEvent.closeWrite dst] }
      | none => s.finish f
    | ForwarderPc.halfClosed => s.finish f
    | ForwarderPc.done => none

/-- Runs a schedule: the steps are taken in the order given; `none` when one of
them cannot be taken. -/
def PairState.run (s : PairState) : List PairAction → Option PairState
  | [] => some s
  | a :: rest =>
    match s.step a with
    | none => none
    | some s1 => s1.run rest

/-- All four forwarders have run their `wg.Done()`. -/
def PairState.allDone (s : PairState) : Prop :=
  s.copyToTarget = ForwarderPc.done ∧ s.copyToClient = ForwarderPc.done
    ∧ s.requestsToTarget = ForwarderPc.done ∧ s.requestsToClient = ForwarderPc.done

/-- The start events of forwarders in a log. -/
def startedIn (log : List PairEvent) : List Forwarder :=
  log.filterMap (fun e => match e with
    | PairEvent.started f => some f
    | _ => none)

/-- The event is a `Close` of a channel object. -/
def PairEvent.isClose : PairEvent → Bool
  | PairEvent.close _ => true
  | _ => false

/-- Position of a loop goroutine of a session: not started, in its loop, returned
from it, and (for the two request loops) after the deferred `wg.Done()`. -/
inductive LoopPc where
  | notStarted
  | running
  | returned
  | done
deriving DecidableEq, Repr

/-- Position of `handleConnection` in its relaying phase (server.go:157-179):
before `wg.Add(2)`; after it; after each of the four `go` statements (the two
request loops, then the two channel loops), the last of which takes it into
`wg.Wait()`; after `wg.Wait()`; returned, the four deferred closes done. -/
inductive SessionPc where
  | entry
  | added
  | startedRequestsToTarget
  | startedRequestsToClient
  | startedChannelsFromClient
  | waiting
  | woken
  | returned
deriving DecidableEq, Repr

/-- State of the relaying phase of one session. -/
structure SessionState where
  pc : SessionPc
  wg : Nat
  requestsToTarget : LoopPc
  requestsToClient : LoopPc
  channelsFromClient : LoopPc
  channelsFromTarget : LoopPc
  pairs : List PairState
deriving DecidableEq, Repr

/-- The goroutine of a session that takes the next step: `handleConnection`
itself; a request loop (it returns, or runs its `wg.Done()`); a channel loop
starting the goroutine of a new channel-pair; a channel loop returning; a
goroutine of the `i`-th channel-pair. -/
inductive SessionAction where
  | main
  | requestLoop (src : Leg)
  | newPair (src : Leg)
  | channelLoopReturns (src : Leg)
  | pair (i : Nat) (a : PairAction)
deriving DecidableEq, Repr

/-- The relaying phase about to begin. -/
def SessionState.init : SessionState :=
  { pc := SessionPc.entry, wg := 0, requestsToTarget := LoopPc.notStarted,
    requestsToClient := LoopPc.notStarted, channelsFromClient := LoopPc.notStarted,
    channelsFromTarget := LoopPc.notStarted, pairs := [] }

/-- Next step of a request loop: out of the loop, then the deferred `wg.Done()`. -/
def stepRequestLoop (wg : Nat) : LoopPc → Option (Nat × LoopPc)
  | LoopPc.running => some (wg, LoopPc.returned)
  | LoopPc.returned => if wg = 0 then none else some (wg - 1, LoopPc.done)
  | _ => none

/-- One step of one goroutine of a session. -/
def SessionState.step (s : SessionState) : SessionAction → Option SessionState
  | SessionAction.main =>
    match s.pc with
    | SessionPc.entry => some { s with pc := SessionPc.added, wg := s.wg + 2 }
    | SessionPc.added =>
      some { s with pc := SessionPc.startedRequestsToTarget, requestsToTarget := LoopPc.running }
    | SessionPc.startedRequestsToTarget =>
      some { s with pc := SessionPc.startedRequestsToClient, requestsToClient := LoopPc.running }
    | SessionPc.startedRequestsToClient =>
      some { s with pc := SessionPc.startedChannelsFromClient,
                    channelsFromClient := LoopPc.running }
    | SessionPc.startedChannelsFromClient =>
      some { s with pc := SessionPc.waiting, channelsFromTarget := LoopPc.running }
    | SessionPc.waiting => if s.wg = 0 then some { s with pc := SessionPc.woken } else none
    | SessionPc.woken => some { s with pc := SessionPc.returned }
    | SessionPc.returned => none
  | SessionAction.requestLoop Leg.client =>
    (stepRequestLoop s.wg s.requestsToTarget).map
      (fun r => { s with wg := r.1, requestsToTarget := r.2 })
  | SessionAction.requestLoop Leg.target =>
    (stepRequestLoop s.wg s.requestsToClient).map
      (fun r => { s with wg := r.1, requestsToClient := r.2 })
  | SessionAction.newPair Leg.client =>
    if s.channelsFromClient = LoopPc.running then
      some { s with pairs := s.pairs ++ [PairState.init] }
    else none
  | SessionAction.newPair Leg.target =>
    if s.channelsFromTarget = LoopPc.running then
      some { s with pairs := s.pairs ++ [PairState.init] }
    else none
  | SessionAction.channelLoopReturns Leg.client =>
    if s.channelsFromClient = LoopPc.running then
      some { s with channelsFromClient := LoopPc.returned }
    else none
  | SessionAction.channelLoopReturns Leg.target =>
    if s.channelsFromTarget = LoopPc.running then
      some { s with channelsFromTarget := LoopPc.returned }
    else none
  | SessionAction.pair i a =>
    match s.pairs[i]? with
    | none => none
    | some p =>
      match p.step a with
      | none => none
      | some p1 => some { s with pairs := s.pairs.set i p1 }

/-- Runs a schedule of a session. -/
def SessionState.run (s : SessionState) : List SessionAction → Option SessionState
  | [] => some s
  | a :: rest =>
    match s.step a with
    | none => none
    | some s1 => s1.run rest

/-- What a forwarder still owes the wait group: 1 until its `wg.Done()` has run. -/
def ForwarderPc.owes : ForwarderPc → Nat
  | ForwarderPc.done => 0
  | _ => 1

/-- Position of the pair's goroutine as a number, in program order. -/
def PairPc.rank : PairPc → Nat
  | PairPc.entry => 0
  | PairPc.added => 1
  | PairPc.startedOne => 2
  | PairPc.startedTwo => 3
  | PairPc.startedThree => 4
  | PairPc.waiting => 5
  | PairPc.woken => 6
  | PairPc.targetClosed => 7
  | PairPc.finished => 8

/-- In a log, every `Close` of a channel object comes after the `wg.Done()` of
each of the four forwarders. -/
def closesLate (log : List PairEvent) : Prop :=
  ∀ pre e post, log = pre ++ e :: post → e.isClose = true →
    ∀ f, PairEvent.finished f ∈ pre

/-- Invariant of a channel-pair: the wait-group counter is the number of
forwarders that have not run `wg.Done()`; forwarders are started in program
order; past `wg.Wait()` all four are done; the log shows the starts made so far,
the `wg.Done()` of every finished forwarder, and no `Close` before the pair's
goroutine has got to it. -/
structure PairInv (s : PairState) : Prop where
  wgEntry : s.pc = PairPc.entry → s.wg = 0
  wgCount : s.pc ≠ PairPc.entry →
    s.wg = s.copyToTarget.owes + s.copyToClient.owes + s.requestsToTarget.owes
      + s.requestsToClient.owes
  first : s.copyToTarget = ForwarderPc.notStarted ↔ s.pc.rank ≤ 1
  second : s.copyToClient = ForwarderPc.notStarted ↔ s.pc.rank ≤ 2
  third : s.requestsToTarget = ForwarderPc.notStarted ↔ s.pc.rank ≤ 3
  fourth : s.requestsToClient = ForwarderPc.notStarted ↔ s.pc.rank ≤ 4
  past : 6 ≤ s.pc.rank → s.allDone
  starts : startedIn s.log
    = [Forwarder.copyToTarget, Forwarder.copyToClient, Forwarder.requestsToTarget,
        Forwarder.requestsToClient].take (s.pc.rank - 1)
  dones : ∀ f, s.get f = ForwarderPc.done → PairEvent.finished f ∈ s.log
  closes : ∀ e ∈ s.log, e.isClose = true → 7 ≤ s.pc.rank
  late : closesLate s.log

/-- The channel objects closed in a log, in the order of the `Close` calls. -/
def closedIn (log : List PairEvent) : List Leg :=
  log.filterMap (fun e => match e with
    | PairEvent.close c => some c
    | _ => none)

/-- What a request loop still owes the wait group of its session. -/
def LoopPc.owes : LoopPc → Nat
  | LoopPc.done => 0
  | _ => 1

/-- Position of `handleConnection` as a number, in program order. -/
def SessionPc.rank : SessionPc → Nat
  | SessionPc.entry => 0
  | SessionPc.added => 1
  | SessionPc.startedRequestsToTarget => 2
  | SessionPc.startedRequestsToClient => 3
  | SessionPc.startedChannelsFromClient => 4
  | SessionPc.waiting => 5
  | SessionPc.woken => 6
  | SessionPc.returned => 7

/-- Invariant of a session: before `wg.Add(2)` the counter is zero; after it the
counter is the number of request loops that have not run `wg.Done()`; the request
loops are started in program order; past `wg.Wait()` both have run `wg.Done()`. -/
structure SessionInv (s : SessionState) : Prop where
  wgEntry : s.pc = SessionPc.entry → s.wg = 0
  wgCount : s.pc ≠ SessionPc.entry → s.wg = s.requestsToTarget.owes + s.requestsToClient.owes
  first : s.requestsToTarget = LoopPc.notStarted ↔ s.pc.rank ≤ 1
  second : s.requestsToClient = LoopPc.notStarted ↔ s.pc.rank ≤ 2
  past : 6 ≤ s.pc.rank → s.requestsToTarget = LoopPc.done ∧ s.requestsToClient = LoopPc.done

/-! ## sshproxy/server.go and cmd/sshproxy/main.go: start-up and the accept loop -/

/-- Outcomes of the `database/sql` calls that `database.Open` makes, by database
path: the paths on which `sql.Open`, the `PRAGMA foreign_keys` statement and the
schema creation fail. -/
structure SqlDriver where
  openFault : List String
  pragmaFault : List String
  schemaFault : List String
deriving DecidableEq, Repr

/-- Source `database.Open` (database.go:46); the handle it returns stands for the
store in `Env`. `dirOf` is `filepath.Dir`. -/
def Open (dirOf : String → String) (sql : SqlDriver) (w : World) (path : String) :
    Except String Unit × World :=
  let dir := dirOf path
  match mkdirAll w dir 0o755 with
  | (.error e, w) => (.error ("failed to create database directory: " ++ e), w)
  | (.ok _, w) =>
    if path ∈ sql.openFault then
      (.error ("failed to open database: " ++ "unable to open database file"), w)
    else if path ∈ sql.pragmaFault then
      (.error ("failed to enable foreign keys: " ++ "unable to open database file"), w)
    else if path ∈ sql.schemaFault then
      (.error ("failed to create tables: " ++ "file is not a database"), w)
    else (.ok (), w)

/-- What `kubernetes.NewClient` finds around the process: the result of
`rest.InClusterConfig` (a configuration is named by where it comes from), the
variable `KUBECONFIG`, the result of `os.UserHomeDir`, the kubeconfig paths that
`clientcmd.BuildConfigFromFlags` cannot load and the configurations for which
`kubernetes.NewForConfig` fails. -/
structure KubeEnv where
  inCluster : Except String String
  KUBECONFIG : String
  home : Except String String
  badKubeconfig : List String
  badConfig : List String
deriving DecidableEq, Repr

/-- Go `clientcmd.BuildConfigFromFlags("", kubeconfigPath)`. -/
def BuildConfigFromFlags (kube : KubeEnv) (kubeconfigPath : String) : Except String String :=
  if kubeconfigPath ∈ kube.badKubeconfig then .error "invalid configuration"
  else .ok kubeconfigPath

/-- Source `getKubeConfig` (client.go:55). `joinPath` is `filepath.Join`. -/
def getKubeConfig (joinPath : List String → String) (kube : KubeEnv) : Except String String :=
  match kube.inCluster with
  | .ok config => .ok config
  | .error _ =>
    let kubeconfigPath := kube.KUBECONFIG
    if kubeconfigPath = "" then
      match kube.home with
      | .error e => .error e
      | .ok home => BuildConfigFromFlags kube (joinPath [home, ".kube", "config"])
    else BuildConfigFromFlags kube kubeconfigPath

/-- Source `kubernetes.NewClient` (client.go:37); the client it returns stands
for the cluster in `Env`. -/
def NewClient (joinPath : List String → String) (kube : KubeEnv) : Except String Unit :=
  match getKubeConfig joinPath kube with
  | .error e => .error ("failed to get kubeconfig: " ++ e)
  | .ok config =>
    if config ∈ kube.badConfig then .error ("failed to create clientset: " ++ "invalid host")
    else .ok ()

/-- Source `NewServer` (server.go:34). -/
def NewServer (parse : List Nat → Except String Signer) (dirOf : String → String)
    (derive : List Nat → List Nat) (joinPath : List String → String) (sql : SqlDriver)
    (kube : KubeEnv) (w : World) (config : Config) : Except String Server × World :=
  match loadOrGenerateHostKey parse dirOf derive w config.HostKeyPath with
  | (.error e, w) => (.error ("failed to load host key: " ++ e), w)
  | (.ok hostKey, w) =>
    match Open dirOf sql w config.DatabasePath with
    | (.error e, w) => (.error ("failed to open database: " ++ e), w)
    | (.ok _, w) =>
      match NewClient joinPath kube with
      | .error e => (.error ("failed to create kubernetes client: " ++ e), w)
      | .ok _ =>
        (.ok { config := config, sshConfig := ServerConfig.mk "SSH-2.0-JustupProxy" [hostKey],
               hostSigner := hostKey }, w)

/-- What one call of `listener.Accept()` returns: a connection, or an error
together with whether the context is done at the `select` that follows. -/
inductive AcceptResult where
  | conn (id : Nat)
  | fail (err : String) (cancelled : Bool)
deriving DecidableEq, Repr

/-- What `ListenAndServe` does that others can see. -/
inductive ServeEvent where
  | listen (network : String) (address : String)
  | accept
  | goHandleConnection (conn : Nat)
  | log (msg : String)
  | closeListener
deriving DecidableEq, Repr

/-- The `for` loop of `ListenAndServe` (server.go:84-97) over the results of its
`Accept` calls: the events, and what the loop returned (`some none` is `nil`);
`none` while it is blocked in the next `Accept`. -/
def acceptLoop : List AcceptResult → List ServeEvent × Option (Option String)
  | [] => ([ServeEvent.accept], none)
  | AcceptResult.conn c :: rest =>
    let r := acceptLoop rest
    (ServeEvent.accept :: ServeEvent.goHandleConnection c :: r.1, r.2)
  | AcceptResult.fail err cancelled :: rest =>
    if cancelled then ([ServeEvent.accept], some none)
    else
      let r := acceptLoop rest
      (ServeEvent.accept :: ServeEvent.log ("Failed to accept connection: " ++ err) :: r.1, r.2)

/-- Source `Server.ListenAndServe` (server.go:71). `bind` is the error of
`net.Listen("tcp", addr)`, if any. The goroutine that closes the listener when
the context is done shows in the `Accept` results; the deferred
`listener.Close()` runs when the function returns. -/
def ListenAndServe (s : Server) (bind : String → Option String)
    (accepts : List AcceptResult) : List ServeEvent × Option (Option String) :=
  match bind s.config.ListenAddr with
  | some err =>
    ([ServeEvent.listen "tcp" s.config.ListenAddr], some (some ("failed to listen: " ++ err)))
  | none =>
    let r := acceptLoop accepts
    (ServeEvent.listen "tcp" s.config.ListenAddr :: r.1
      ++ (if r.2.isSome then [ServeEvent.closeListener] else []), r.2)

/-- The command-line flags of the relay (main.go:18-20). -/
structure Flags where
  addr : String
  hostKeyPath : String
  dbPath : String
deriving DecidableEq, Repr

/-- How the process ends: `log.Fatalf` (exit status 1) or `main` returning. -/
inductive ProcessEnd where
  | fatal (msg : String)
  | returned
deriving DecidableEq, Repr

/-- Source `main` (main.go:16): how the process ends (`none` while it serves),
the world after start-up and the events of `ListenAndServe`. The signal handler
that cancels the context shows in the `Accept` results. -/
def main (parse : List Nat → Except String Signer) (dirOf : String → String)
    (derive : List Nat → List Nat) (joinPath : List String → String) (sql : SqlDriver)
    (kube : KubeEnv) (w : World) (flags : Flags) (bind : String → Option String)
    (accepts : List AcceptResult) : Option ProcessEnd × World × List ServeEvent :=
  let config : Config :=
    { ListenAddr := flags.addr, HostKeyPath := flags.hostKeyPath, DatabasePath := flags.dbPath }
  match NewServer parse dirOf derive joinPath sql kube w config with
  | (.error err, w) =>
    (some (ProcessEnd.fatal ("Failed to create SSH proxy server: " ++ err)), w, [])
  | (.ok server, w) =>
    match ListenAndServe server bind accepts with
    | (events, some (some err)) => (some (ProcessEnd.fatal ("Server error: " ++ err)), w, events)
    | (events, some none) => (some ProcessEnd.returned, w, events)
    | (events, none) => (none, w, events)

/-- The events of the accept loop for results none of which ends it. -/
def acceptEvents (accepts : List AcceptResult) : List ServeEvent :=
  accepts.flatMap (fun a => match a with
    | AcceptResult.conn c => [ServeEvent.accept, ServeEvent.goHandleConnection c]
    | AcceptResult.fail err _ =>
      [ServeEvent.accept, ServeEvent.log ("Failed to accept connection: " ++ err)])

/-- The result is an `Accept` failure met when the context is done. -/
def AcceptResult.endsLoop : AcceptResult → Bool
  | AcceptResult.fail _ cancelled => cancelled
  | _ => false

/-! ## Sample schedules and copies -/

/-- A channel-pair from its start to its end: the four forwarders are started,
each ends (the two byte copies half-close their destination), and the goroutine
of the pair closes both channels. -/
def samplePairSchedule : List PairAction :=
  [PairAction.pair, PairAction.pair, PairAction.pair,
   PairAction.forwarder Forwarder.copyToTarget,
   PairAction.pair, PairAction.pair,
   PairAction.forwarder Forwarder.requestsToClient,
   PairAction.forwarder Forwarder.copyToTarget,
   PairAction.forwarder Forwarder.copyToClient,
   PairAction.forwarder Forwarder.copyToTarget,
   PairAction.forwarder Forwarder.requestsToTarget,
   PairAction.forwarder Forwarder.requestsToTarget,
   PairAction.forwarder Forwarder.copyToClient,
   PairAction.forwarder Forwarder.requestsToClient,
   PairAction.forwarder Forwarder.copyToClient,
   PairAction.pair, PairAction.pair, PairAction.pair]

/-- The channel-pair at the end of `samplePairSchedule`. -/
def samplePairEnd : PairState :=
  { pc := PairPc.finished, wg := 0, copyToTarget := ForwarderPc.done,
    copyToClient := ForwarderPc.done, requestsToTarget := ForwarderPc.done,
    requestsToClient := ForwarderPc.done,
    log := [PairEvent.started Forwarder.copyToTarget, PairEvent.started Forwarder.copyToClient,
      PairEvent.started Forwarder.requestsToTarget, PairEvent.started Forwarder.requestsToClient,
      PairEvent.closeWrite Leg.target, PairEvent.finished Forwarder.copyToTarget,
      PairEvent.finished Forwarder.requestsToTarget, PairEvent.closeWrite Leg.client,
      PairEvent.finished Forwarder.requestsToClient, PairEvent.finished Forwarder.copyToClient,
      PairEvent.close Leg.target, PairEvent.close Leg.client] }

/-- A channel-pair whose copy towards the target has returned while the copy
towards the client is still running. -/
def samplePairHalfway : PairState :=
  { pc := PairPc.waiting, wg := 4, copyToTarget := ForwarderPc.returned,
    copyToClient := ForwarderPc.running, requestsToTarget := ForwarderPc.running,
    requestsToClient := ForwarderPc.running,
    log := [PairEvent.started Forwarder.copyToTarget, PairEvent.started Forwarder.copyToClient,
      PairEvent.started Forwarder.requestsToTarget,
      PairEvent.started Forwarder.requestsToClient] }

/-- A copy of three bytes in two reads, every write taken in full, then end of
stream. -/
def sampleCopy : List CopyTurn :=
  [{ data := [1, 2], readErr := none, nw := 2, writeErr := none },
   { data := [3], readErr := none, nw := 1, writeErr := none },
   { data := [], readErr := some "EOF", nw := 0, writeErr := none }]

/-- A copy whose destination refuses the first write: three bytes are read and
`Write` returns `(0, io.EOF)`. -/
def failedWriteCopy : List CopyTurn :=
  [{ data := [1, 2, 3], readErr := none, nw := 0, writeErr := some "EOF" }]

/-- A session in which the client opens one channel, whose forwarders keep
running, while both global-request loops end: `handleConnection` gets through
`wg.Wait()` and returns. -/
def earlyReturnSchedule : List SessionAction :=
  [SessionAction.main, SessionAction.main, SessionAction.main, SessionAction.main,
   SessionAction.main,
   SessionAction.newPair Leg.client,
   SessionAction.pair 0 PairAction.pair, SessionAction.pair 0 PairAction.pair,
   SessionAction.pair 0 PairAction.pair, SessionAction.pair 0 PairAction.pair,
   SessionAction.pair 0 PairAction.pair,
   SessionAction.requestLoop Leg.client, SessionAction.requestLoop Leg.target,
   SessionAction.requestLoop Leg.client, SessionAction.requestLoop Leg.target,
   SessionAction.main, SessionAction.main]

/-- A channel-pair whose four forwarders are running. -/
def samplePairWaiting : PairState :=
  { pc := PairPc.waiting, wg := 4, copyToTarget := ForwarderPc.running,
    copyToClient := ForwarderPc.running, requestsToTarget := ForwarderPc.running,
    requestsToClient := ForwarderPc.running,
    log := [PairEvent.started Forwarder.copyToTarget, PairEvent.started Forwarder.copyToClient,
      PairEvent.started Forwarder.requestsToTarget,
      PairEvent.started Forwarder.requestsToClient] }

/-- The session at the end of `earlyReturnSchedule`. -/
def earlyReturnEnd : SessionState :=
  { pc := SessionPc.returned, wg := 0, requestsToTarget := LoopPc.done,
    requestsToClient := LoopPc.done, channelsFromClient := LoopPc.running,
    channelsFromTarget := LoopPc.running, pairs := [samplePairWaiting] }

/-! ## Sample start-up -/

/-- The flags at their defaults (main.go:18-20). -/
def defaultFlags : Flags :=
  { addr := ":2222", hostKeyPath := "/etc/justup/ssh_host_ed25519_key",
    dbPath := "/var/lib/justup/justup.db" }

/-- A stand-in for `filepath.Dir` on the two default paths. -/
def sampleDir (path : String) : String :=
  if path = "/var/lib/justup/justup.db" then "/var/lib/justup" else "/etc/justup"

/-- A stand-in for `filepath.Join`. -/
def sampleJoin (parts : List String) : String := "/".intercalate parts

/-- A database driver that works. -/
def sampleSql : SqlDriver := { openFault := [], pragmaFault := [], schemaFault := [] }

/-- A database driver whose first statement on the default database file fails. -/
def brokenSql : SqlDriver :=
  { openFault := [], pragmaFault := ["/var/lib/justup/justup.db"], schemaFault := [] }

/-- A process running in the cluster. -/
def sampleKube : KubeEnv :=
  { inCluster := .ok "in-cluster", KUBECONFIG := "", home := .ok "/root", badKubeconfig := [],
    badConfig := [] }

/-- A listen address that is free. -/
def freePort (_ : String) : Option String := none

/-- A listen address that is taken. -/
def takenPort (_ : String) : Option String := some "bind: address already in use"

/-- Two connections, a transient `Accept` failure between them, then the
failure that follows cancellation. -/
def sampleAccepts : List AcceptResult :=
  [AcceptResult.conn 1, AcceptResult.fail "too many open files" false, AcceptResult.conn 2,
   AcceptResult.fail "use of closed network connection" true]

/-! ## sshproxy/server.go: the outbound handshake and the context -/

/-- Library `ssh.AuthMethod`: the methods a client configuration can list. -/
inductive AuthMethod where
  | PublicKeys (signers : List Signer)
  | Password (secret : String)
deriving DecidableEq, Repr

/-- Library `ssh.ClientConfig`: the user, the authentication methods, and the
host key callback, which for a host name and a host key returns an error or
nothing. -/
structure ClientConfig where
  User : String
  Auth : List AuthMethod
  HostKeyCallback : String → List Nat → Option String

/-- Library `ssh.InsecureIgnoreHostKey()`: the callback that returns nil. -/
def InsecureIgnoreHostKey : String → List Nat → Option String := fun _ _ => none

/-- The `ssh.ClientConfig` literal that `handleConnection` hands to
`ssh.NewClientConn` (server.go:142-149). -/
def targetClientConfig (s : Server) : ClientConfig :=
  { User := "dev", Auth := [AuthMethod.PublicKeys [s.hostSigner]],
    HostKeyCallback := InsecureIgnoreHostKey }

/-- The user and the signer of an outbound handshake, when the event is one. -/
def Event.offered : Event → Option (String × Signer)
  | Event.newClientConn _ user signer _ => some (user, signer)
  | _ => none

/-- The event is an outbound handshake (`ssh.NewClientConn`). -/
def Event.isHandshake : Event → Bool
  | Event.newClientConn _ _ _ _ => true
  | _ => false

/-- The event is a call on the credential store. -/
def Event.isStoreCall : Event → Bool
  | Event.getSSHKeyByFingerprint _ _ => true
  | Event.updateSSHKeyLastUsed _ _ => true
  | _ => false

/-- The calls of a session that can block, once the inbound handshake is done:
the workspace lookup, the TCP dial, the outbound handshake, the relaying. -/
inductive Stage where
  | resolve
  | dial
  | handshake
  | relay
deriving DecidableEq, Repr

/-- Source `Server.handleConnection` under a context that may be cancelled while
the session runs: `ctx stage` tells whether `ctx.Done()` is closed when the
session gets to that stage. The context is handed to `GetWorkspace` only
(server.go:116); `net.Dial` (server.go:134), `ssh.NewClientConn`
(server.go:142), `proxyRequests` and `proxyChannels` (server.go:163-175) are
called without it. -/
def handleConnectionCtx (fingerprintSHA256 : List Nat → String) (s : Server)
    (ctx : Stage → Bool) (env : Env) (client : Client) : Env :=
  handleConnection fingerprintSHA256 s (ctx Stage.resolve) env client

/-- A context cancelled right after the workspace lookup has returned. -/
def cancelledAfterLookup : Stage → Bool
  | Stage.resolve => false
  | _ => true

/-- A stream holding a nil pointer followed by a request whose forward would
succeed. -/
def nilThenRequest : List (Arrival (Bool × List Nat)) :=
  [⟨none, .ok (true, [])⟩, ⟨some ⟨"keepalive@openssh.com", true, []⟩, .ok (true, [])⟩]

/-- The stream `nilThenRequest` for a channel. -/
def nilThenChannelRequest : List (Arrival Bool) :=
  [⟨none, .ok true⟩, ⟨some ⟨"shell", true, []⟩, .ok true⟩]

/-- A stream of three requests; the forward of the second fails. -/
def failingStream : List (Arrival (Bool × List Nat)) :=
  [⟨some ⟨"tcpip-forward", true, [1]⟩, .ok (true, [2])⟩,
   ⟨some ⟨"keepalive@openssh.com", true, []⟩, .error "EOF"⟩,
   ⟨some ⟨"cancel-tcpip-forward", false, [3]⟩, .ok (true, [])⟩]

/-! ## sshproxy/server.go: request streams -/

/-- A stream element is a request whose forward succeeds. -/
def Arrival.forwards {ρ : Type} (a : Arrival ρ) : Bool :=
  match a.req, a.answer with
  | some _, .ok _ => true
  | _, _ => false

/-- The arrivals of global requests whose forwards all succeed: each request with
the `(ok, payload)` pair the other side returns for it. -/
def answered (stream : List (Request × Bool × List Nat)) : List (Arrival (Bool × List Nat)) :=
  stream.map (fun p => ⟨some p.1, .ok p.2⟩)

/-- What relaying such requests looks like: each one sent on, and answered when
it asked for a reply. -/
def relayed (stream : List (Request × Bool × List Nat)) : List RelayEvent :=
  stream.flatMap (fun p =>
    RelayEvent.sendRequest p.1.ReqType p.1.WantReply p.1.Payload
      :: (if p.1.WantReply then [RelayEvent.reply p.1 p.2.1 p.2.2] else []))

/-- The arrivals of channel requests whose forwards all succeed. -/
def channelAnswered (stream : List (Request × Bool)) : List (Arrival Bool) :=
  stream.map (fun p => ⟨some p.1, .ok p.2⟩)

/-- What relaying such channel requests looks like. -/
def channelRelayed (stream : List (Request × Bool)) : List RelayEvent :=
  stream.flatMap (fun p =>
    RelayEvent.sendRequest p.1.ReqType p.1.WantReply p.1.Payload
      :: (if p.1.WantReply then [RelayEvent.reply p.1 p.2 []] else []))

/-! ## internal/cli/create.go: workspace names and repository URLs -/

/-- Go `len(s)` of a string: its length in bytes. -/
def byteLen (s : String) : Nat := (stringBytes s).length

/-- Go `for i, c := range s`: the runes of the string, each with the byte offset
at which it starts; `i` is the offset of the first rune of `cs`. The strings of
the model are valid UTF-8; in a Go string that is not, `range` reads each
invalid byte as U+FFFD, a rune outside ASCII like any other. -/
def rangeString : Nat → List Char → List (Nat × Char)
  | _, [] => []
  | i, c :: cs => (i, c) :: rangeString (i + (utf8EncodeChar c).length) cs

/-- The rune is a lowercase ASCII letter (`c >= 'a' && c <= 'z'`). -/
def isLowerLetter (c : Char) : Bool := 'a'.toNat ≤ c.toNat && c.toNat ≤ 'z'.toNat

/-- The rune is an ASCII digit (`c >= '0' && c <= '9'`). -/
def isDigit (c : Char) : Bool := '0'.toNat ≤ c.toNat && c.toNat ≤ '9'.toNat

/-- The loop of `isValidWorkspaceName` (create.go:155-166); `n` is `len(name)`. -/
def validNameLoop (n : Nat) : List (Nat × Char) → Bool
  | [] => true
  | (i, c) :: rest =>
    if isLowerLetter c then validNameLoop n rest
    else if isDigit c then validNameLoop n rest
    else if c = '-' ∧ i > 0 ∧ i < n - 1 then validNameLoop n rest
    else false

/-- Source `isValidWorkspaceName` (create.go:151). -/
def isValidWorkspaceName (name : String) : Bool :=
  if byteLen name = 0 ∨ byteLen name > 63 then false
  else validNameLoop (byteLen name) (rangeString 0 name.toList)

/-- A valid Kubernetes DNS label: between 1 and 63 bytes long, every character a
lowercase ASCII letter, a digit or `-`, and neither the first nor the last
character is `-`. -/
def isDNSLabel (name : String) : Prop :=
  1 ≤ byteLen name ∧ byteLen name ≤ 63
    ∧ (∀ c ∈ name.toList, isLowerLetter c = true ∨ isDigit c = true ∨ c = '-')
    ∧ name.toList.head? ≠ some '-' ∧ name.toList.getLast? ≠ some '-'

/-- Go `strings.HasPrefix`. -/
def HasPrefix (s p : String) : Bool := p.toList.isPrefixOf s.toList

/-- Go `strings.HasSuffix`. -/
def HasSuffix (s p : String) : Bool := p.toList.isSuffixOf s.toList

/-- Go `strings.TrimPrefix`: `s` without the leading `p`, when it starts with it. -/
def TrimPrefix (s p : String) : String :=
  if HasPrefix s p then String.mk (s.toList.drop p.length) else s

/-- Source `normalizeGitHubURL` (create.go:119). -/
def normalizeGitHubURL (url : String) : String :=
  let url := TrimPrefix url "https://"
  let url := TrimPrefix url "http://"
  let url := if !HasPrefix url "https://" then "https://" ++ url else url
  let url := if !HasSuffix url ".git" then url ++ ".git" else url
  url

/-- An argument with the scheme written twice. -/
def doubleSchemeURL : String := "http://http://github.com/user/repo"

/-- The steps of `normalizeGitHubURL` after the two `TrimPrefix` calls
(create.go:125-132), on the characters of the string. -/
def addSchemeAndSuffix (l : List Char) : List Char :=
  let l := if !"https://".toList.isPrefixOf l then "https://".toList ++ l else l
  if !".git".toList.isSuffixOf l then l ++ ".git".toList else l

/-- Source `normalizeGitHubURL` on the characters of the string. -/
def normalizeChars (l : List Char) : List Char :=
  let l := if "https://".toList.isPrefixOf l then l.drop 8 else l
  let l := if "http://".toList.isPrefixOf l then l.drop 7 else l
  addSchemeAndSuffix l

/-- What follows the first eight characters (the length of `https://`). -/
def afterScheme (url : String) : String := String.mk (url.toList.drop 8)

/-! ## kubernetes/workspace.go: the objects of a workspace -/

/-- Source constant `WorkspaceNamespace` (client.go:20). -/
def WorkspaceNamespace : String := "justup-workspaces"

/-- Source constant `BranchAnnotation` (client.go:26). -/
def BranchAnnotation : String := "justup.io/branch"

/-- Source `WorkspaceOptions` (workspace.go:15). -/
structure WorkspaceOptions where
  Name : String
  GitURL : String
  Branch : String
  Image : String
  CPU : String
  Memory : String
  Storage : String
  EnableDinD : Bool
  SSHPubKey : String
deriving DecidableEq, Repr

/-- Library `resource.Quantity`, kept as the text it was parsed from. -/
structure Quantity where
  text : String
deriving DecidableEq, Repr

/-- Library `resource.MustParse`; `validQuantity` tells which texts are
quantities. On any other text the Go function panics: `none`. -/
def MustParse (validQuantity : String → Bool) (s : String) : Option Quantity :=
  if validQuantity s then some { text := s } else none

/-- Library `corev1.ContainerPort`. -/
structure ContainerPort where
  Name : String
  ContainerPort : Nat
  Protocol : String
deriving DecidableEq, Repr

/-- Library `corev1.VolumeMount`. -/
structure VolumeMount where
  Name : String
  MountPath : String
  ReadOnly : Bool
deriving DecidableEq, Repr

/-- Library `corev1.EnvVar`. -/
structure EnvVar where
  Name : String
  Value : String
deriving DecidableEq, Repr

/-- Library `corev1.Container`: the fields `buildPod` sets. `Privileged` is the
`Privileged` field of the security context, when there is one. -/
structure Container where
  Name : String
  Image : String
  ImagePullPolicy : String
  Command : List String
  Args : List String
  Ports : List ContainerPort
  Requests : List (String × Quantity)
  Limits : List (String × Quantity)
  VolumeMounts : List VolumeMount
  Env : List EnvVar
  Privileged : Option Bool
deriving DecidableEq, Repr

/-- Library `corev1.VolumeSource`: the three sources `buildPod` uses. -/
inductive VolumeSource where
  | PersistentVolumeClaim (ClaimName : String)
  | Secret (SecretName : String) (DefaultMode : Nat)
  | EmptyDir
deriving DecidableEq, Repr

/-- Library `corev1.Volume`. -/
structure Volume where
  Name : String
  Source : VolumeSource
deriving DecidableEq, Repr

/-- Library `corev1.Pod` as `buildPod` fills it: metadata and specification. -/
structure PodObject where
  Name : String
  Namespace : String
  Labels : List (String × String)
  Annotations : List (String × String)
  InitContainers : List Container
  Containers : List Container
  Volumes : List Volume
  RestartPolicy : String
  TerminationGracePeriodSeconds : Nat
deriving DecidableEq, Repr

/-- Library `corev1.PersistentVolumeClaim` as `buildPVC` fills it. -/
structure PersistentVolumeClaim where
  Name : String
  Namespace : String
  Labels : List (String × String)
  Annotations : List (String × String)
  AccessModes : List String
  StorageRequest : Quantity
deriving DecidableEq, Repr

/-- Source `buildPVC` (workspace.go:254). -/
def buildPVC (validQuantity : String → Bool) (name : String) (opts : WorkspaceOptions) :
    Option PersistentVolumeClaim :=
  match MustParse validQuantity opts.Storage with
  | none => none
  | some storageQty =>
    let labels := [(WorkspaceLabel, opts.Name)]
    let labels := if opts.EnableDinD then labels ++ [("justup.io/dind", "true")] else labels
    some
      { Name := name, Namespace := WorkspaceNamespace, Labels := labels,
        Annotations := [( GitURLAnnotation, opts.GitURL), ( BranchAnnotation, opts.Branch)],
        AccessModes := ["ReadWriteOnce"], StorageRequest := storageQty }

/-- The shell script of the `git-clone` init container (workspace.go:374-382):
the format of the source with the branch and the URL put in. -/
def cloneScript (branch gitURL : String) : String :=
  "\n\t\t\t\t\tif [ ! -d /workspace/.git ]; then\n\t\t\t\t\t\techo \"Cloning repository...\""
    ++ "\n\t\t\t\t\t\tgit clone --branch " ++ branch ++ " " ++ gitURL ++ " /workspace"
    ++ "\n\t\t\t\t\telse\n\t\t\t\t\t\techo \"Repository already exists, skipping clone\""
    ++ "\n\t\t\t\t\tfi\n\t\t\t\t"

/-- Source `buildPod` (workspace.go:311). -/
def buildPod (validQuantity : String → Bool) (podName pvcName secretName : String)
    (opts : WorkspaceOptions) : Option PodObject :=
  match MustParse validQuantity opts.CPU, MustParse validQuantity opts.Memory with
  | some cpuQty, some memQty =>
    let workspaceEnv : List EnvVar :=
      [{ Name := "JUSTUP_WORKSPACE", Value := opts.Name },
       { Name := "GIT_URL", Value := opts.GitURL },
       { Name := "GIT_BRANCH", Value := opts.Branch }]
    let workspaceEnv :=
      if opts.EnableDinD then
        workspaceEnv ++ [{ Name := "DOCKER_HOST", Value := "tcp://localhost:2375" }]
      else workspaceEnv
    let workspaceContainer : Container :=
      { Name := "workspace", Image := opts.Image, ImagePullPolicy := "Always",
        Command := [], Args := [],
        Ports := [{ Name := "ssh", ContainerPort := 22, Protocol := "TCP" }],
        Requests := [("cpu", cpuQty), ("memory", memQty)],
        Limits := [("cpu", cpuQty), ("memory", memQty)],
        VolumeMounts := [{ Name := "workspace", MountPath := "/home/dev/workspace",
                           ReadOnly := false },
                         { Name := "ssh-keys", MountPath := "/etc/justup/ssh-keys",
                           ReadOnly := true }],
        Env := workspaceEnv, Privileged := none }
    let containers := [workspaceContainer]
    let dindContainer : Container :=
      { Name := "dind", Image := "docker:24-dind", ImagePullPolicy := "",
        Command := [], Args := [], Ports := [], Requests := [], Limits := [],
        VolumeMounts := [{ Name := "docker-socket", MountPath := "/var/run",
                           ReadOnly := false },
                         { Name := "docker-storage", MountPath := "/var/lib/docker",
                           ReadOnly := false }],
        Env := [{ Name := "DOCKER_TLS_CERTDIR", Value := "" }], Privileged := some true }
    let containers := if opts.EnableDinD then containers ++ [dindContainer] else containers
    let initContainers : List Container :=
      [{ Name := "git-clone", Image := "alpine/git:latest", ImagePullPolicy := "",
         Command := ["/bin/sh", "-c"], Args := [cloneScript opts.Branch opts.GitURL],
         Ports := [], Requests := [], Limits := [],
         VolumeMounts := [{ Name := "workspace", MountPath := "/workspace",
                            ReadOnly := false }],
         Env := [{ Name := "GIT_SSH_COMMAND", Value := "ssh -o StrictHostKeyChecking=no" }],
         Privileged := none }]
    let volumes : List Volume :=
      [{ Name := "workspace", Source := VolumeSource.PersistentVolumeClaim pvcName },
       { Name := "ssh-keys", Source := VolumeSource.Secret secretName 0o600 }]
    let volumes :=
      if opts.EnableDinD then
        volumes ++ [{ Name := "docker-socket", Source := VolumeSource.EmptyDir },
                    { Name := "docker-storage", Source := VolumeSource.EmptyDir }]
      else volumes
    some
      { Name := podName, Namespace := WorkspaceNamespace,
        Labels := [("app.kubernetes.io/name", "justup-workspace"),
                   ("app.kubernetes.io/instance", opts.Name), (WorkspaceLabel, opts.Name)],
        Annotations := [( GitURLAnnotation, opts.GitURL), ( BranchAnnotation, opts.Branch),
                        ("container.apparmor.security.beta.kubernetes.io/workspace",
                          "unconfined")],
        InitContainers := initContainers, Containers := containers, Volumes := volumes,
        RestartPolicy := "Always", TerminationGracePeriodSeconds := 30 }
  | _, _ => none

/-- The workspace namespace of the cluster as the command line sees it: its
pods, its volume claims, the error (other than not-found) the API server answers
a read with, and the error it answers the creation of a pod with. -/
structure Cluster where
  pods : List PodObject
  pvcs : List PersistentVolumeClaim
  apiFault : Option String
  createFault : Option String
deriving DecidableEq, Repr

/-- The options `StartWorkspace` reconstructs from a volume claim
(workspace.go:195-203). -/
def restoredOptions (name : String) (pvc : PersistentVolumeClaim) : WorkspaceOptions :=
  { Name := name, GitURL := mapGet pvc.Annotations GitURLAnnotation,
    Branch := mapGet pvc.Annotations BranchAnnotation, Image := "justup/devcontainer:latest",
    CPU := "1", Memory := "2Gi", Storage := "",
    EnableDinD := mapGet pvc.Labels "justup.io/dind" == "true", SSHPubKey := "" }

/-- Source `Client.StartWorkspace` (workspace.go:174): the Go error and the
cluster afterwards; `none` when `buildPod` panics. -/
def StartWorkspace (validQuantity : String → Bool) (c : Cluster) (name : String) :
    Option (Option String × Cluster) :=
  let podName := "ws-" ++ name
  let pvcName := podName ++ "-pvc"
  let secretName := podName ++ "-ssh"
  if c.apiFault.isNone ∧ (c.pods.find? (fun p => p.Name == podName)).isSome then
    some (some ("workspace '" ++ name ++ "' is already running"), c)
  else
    match c.apiFault with
    | some e => some (some e, c)
    | none =>
      match c.pvcs.find? (fun p => p.Name == pvcName) with
      | none => some (some ("workspace '" ++ name ++ "' not found (no PVC)"), c)
      | some pvc =>
        let opts := restoredOptions name pvc
        match buildPod validQuantity podName pvcName secretName opts with
        | none => none
        | some pod =>
          match c.createFault with
          | some e => some (some ("failed to create pod: " ++ e), c)
          | none => some (none, { c with pods := c.pods ++ [pod] })

/-! ## Sample workspace -/

/-- The quantities of the examples. -/
def sampleQuantities (s : String) : Bool := s ∈ ["1", "2", "2Gi", "4Gi", "10Gi"]

/-- The options `justup create github.com/user/repo` passes to
`CreateWorkspace`: the flags of `create` at their defaults (create.go:45-51). -/
def createDefaults : WorkspaceOptions :=
  { Name := "repo", GitURL := "https://github.com/user/repo.git", Branch := "main",
    Image := "ghcr.io/rahulvramesh/justup/devcontainer:latest", CPU := "1", Memory := "2Gi",
    Storage := "10Gi", EnableDinD := false, SSHPubKey := "" }

/-- The volume claim `CreateWorkspace` makes for `createDefaults`. -/
def createdPVC : Option PersistentVolumeClaim :=
  buildPVC sampleQuantities "ws-repo-pvc" createDefaults

/-- The pod `CreateWorkspace` makes for `createDefaults`. -/
def createdPod : Option PodObject :=
  buildPod sampleQuantities "ws-repo" "ws-repo-pvc" "ws-repo-ssh" createDefaults

/-- The workspace namespace after `create` and `stop`: the volume claim is there,
the pod is not. -/
def stoppedCluster : Cluster :=
  { pods := [], pvcs := createdPVC.toList, apiFault := none, createFault := none }

/-! ## Lemmas -/

theorem beValue_four (a b c d : Nat) :
    beValue [a, b, c, d] = ((a * 256 + b) * 256 + c) * 256 + d := by
  simp [beValue]

theorem marshalBytes_eq (b : List Nat) : marshalBytes b = lengthPrefixed b := by
  simp [marshalBytes, lengthPrefixed, be32, Nat.shiftRight_eq_div_pow]

theorem marshalUint32_eq (n : Nat) : marshalUint32 n = be32 n := by
  simp [marshalUint32, be32, Nat.shiftRight_eq_div_pow]

theorem beValue_be32 (n : Nat) (h : n < 2 ^ 32) : beValue (be32 n) = n := by
  simp only [be32, beValue_four]
  omega

theorem be32_lt (n : Nat) : ∀ x ∈ be32 n, x < 256 := by
  intro x hx
  simp only [be32, List.mem_cons, List.mem_singleton, List.not_mem_nil, or_false] at hx
  rcases hx with h | h | h | h <;> subst h <;> exact Nat.mod_lt _ (by decide)

theorem be32_length (n : Nat) : (be32 n).length = 4 := rfl

theorem lengthPrefixed_length (b : List Nat) : (lengthPrefixed b).length = 4 + b.length := by
  simp [lengthPrefixed, be32]; omega

theorem stringBytes_none : stringBytes "none" = ascii "none" := by decide
theorem stringBytes_keyType : stringBytes "ssh-ed25519" = ascii "ssh-ed25519" := by decide
theorem stringBytes_empty : stringBytes "" = [] := by decide
theorem stringBytes_magic : stringBytes "openssh-key-v1\x00" = ascii "openssh-key-v1" ++ [0] := by
  decide

theorem copyInto_of_length (n : Nat) (src : List Nat) (h : src.length = n) :
    copyInto n src = src := by
  simp [copyInto, ← h]

theorem copyInto_length (n : Nat) (src : List Nat) : (copyInto n src).length = n := by
  simp [copyInto]; omega

theorem ed25519Public_of_length (key : List Nat) (hk : key.length = 64) :
    ed25519Public key = key.drop 32 := by
  apply copyInto_of_length
  simp [hk]

/-- Closed form of the padding loop: with enough fuel it appends the counter
values `i, i+1, ...` until the length is a multiple of 8. -/
theorem padLoop_eq (fuel : Nat) : ∀ (sec : List Nat) (i : Nat),
    (8 - sec.length % 8) % 8 ≤ fuel →
    padLoop fuel sec i
      = sec ++ (List.range ((8 - sec.length % 8) % 8)).map (fun j => (i + j) % 256) := by
  induction fuel with
  | zero =>
    intro sec i h
    have h0 : (8 - sec.length % 8) % 8 = 0 := by omega
    simp [padLoop, h0]
  | succ f ih =>
    intro sec i h
    by_cases hz : sec.length % 8 = 0
    · simp [padLoop, hz]
    · have hp : (8 - sec.length % 8) % 8 = (8 - (sec ++ [i % 256]).length % 8) % 8 + 1 := by
        simp only [List.length_append, List.length_singleton]; omega
      rw [padLoop, if_pos hz, ih _ _ (by omega), hp, List.range_succ_eq_map]
      simp [Function.comp_def, Nat.add_assoc, Nat.add_comm 1]

theorem padLoop_fuel (fuel : Nat) (sec : List Nat) (i : Nat) (h : 7 ≤ fuel) :
    padLoop fuel sec i = padLoop 7 sec i ∧ (padLoop fuel sec i).length % 8 = 0 := by
  have h1 : (8 - sec.length % 8) % 8 ≤ 7 := by omega
  rw [padLoop_eq fuel sec i (by omega), padLoop_eq 7 sec i h1]
  refine ⟨rfl, ?_⟩
  simp only [List.length_append, List.length_map, List.length_range]
  omega

theorem padLoop_one (u : List Nat) :
    padLoop 8 u 1 = u ++ List.range' 1 ((8 - u.length % 8) % 8) := by
  rw [padLoop_eq 8 u 1 (by omega)]
  congr 1
  apply List.ext_getElem
  · simp
  · intro n h1 h2
    simp only [List.length_map, List.length_range] at h1
    simp only [List.getElem_map, List.getElem_range, List.getElem_range']
    omega

theorem unpadded_length (c key : List Nat) (hc : c.length = 4) (hk : key.length = 64) :
    (c ++ c ++ lengthPrefixed (ascii "ssh-ed25519") ++ lengthPrefixed (key.drop 32)
      ++ lengthPrefixed key ++ lengthPrefixed []).length = 131 := by
  simp [lengthPrefixed_length, hc, hk, ascii]

theorem privSection_eq (rnd key : List Nat) (hk : key.length = 64) :
    privSection rnd key
      = randRead 4 rnd ++ randRead 4 rnd ++ lengthPrefixed (ascii "ssh-ed25519")
          ++ lengthPrefixed (key.drop 32) ++ lengthPrefixed key ++ lengthPrefixed []
          ++ [1, 2, 3, 4, 5] := by
  have hc : (randRead 4 rnd).length = 4 := copyInto_length _ _
  have hu := unpadded_length (randRead 4 rnd) key hc hk
  simp only [privSection, marshalString, marshalBytes_eq, stringBytes_keyType, stringBytes_empty,
    ed25519Public_of_length key hk]
  rw [padLoop_one, hu]
  rfl

theorem privSection_length (rnd key : List Nat) (hk : key.length = 64) :
    (privSection rnd key).length = 136 := by
  have hc : (randRead 4 rnd).length = 4 := copyInto_length _ _
  rw [privSection_eq rnd key hk, List.length_append, unpadded_length _ key hc hk]
  rfl

theorem marshalED25519PrivateKey_eq (rnd key : List Nat) (hk : key.length = 64) :
    marshalED25519PrivateKey rnd key
      = ascii "openssh-key-v1" ++ [0] ++ lengthPrefixed (ascii "none")
          ++ lengthPrefixed (ascii "none") ++ lengthPrefixed [] ++ be32 1
          ++ lengthPrefixed (lengthPrefixed (ascii "ssh-ed25519") ++ lengthPrefixed (key.drop 32))
          ++ lengthPrefixed (privSection rnd key) := by
  simp only [marshalED25519PrivateKey, marshalString, marshalBytes_eq, marshalUint32_eq,
    stringBytes_keyType, stringBytes_none, stringBytes_magic, ed25519Public_of_length key hk]

theorem readUint32_be32 (n : Nat) (rest : List Nat) (h : n < 2 ^ 32) :
    readUint32 (be32 n ++ rest) = some (n, rest) := by
  have := beValue_be32 n h
  simp only [be32] at this
  simp [readUint32, be32, this]

theorem readString_lengthPrefixed (b rest : List Nat) (h : b.length < 2 ^ 32) :
    readString (lengthPrefixed b ++ rest) = some (b, rest) := by
  simp [readString, lengthPrefixed, List.append_assoc, readUint32_be32 _ _ h]

theorem readString_lengthPrefixed_nil (b : List Nat) (h : b.length < 2 ^ 32) :
    readString (lengthPrefixed b) = some (b, []) := by
  simpa using readString_lengthPrefixed b [] h

theorem expectLeading_append (marker rest : List Nat) :
    expectLeading marker (marker ++ rest) = some rest := by
  simp [expectLeading]

theorem decodePrivSection_privSection (rnd key : List Nat) (hk : key.length = 64) :
    decodePrivSection (key.drop 32) (privSection rnd key) = some key := by
  have hlen := privSection_length rnd key hk
  have hsec := privSection_eq rnd key hk
  have hc : (randRead 4 rnd).length = 4 := copyInto_length _ _
  obtain ⟨a, b, c, d, hr⟩ : ∃ a b c d, randRead 4 rnd = [a, b, c, d] := by
    match h : randRead 4 rnd, hc with
    | [a, b, c, d], _ => exact ⟨a, b, c, d, rfl⟩
  unfold decodePrivSection
  rw [hlen, hsec, hr]
  simp only [List.append_assoc, List.cons_append, List.nil_append, readUint32]
  rw [readString_lengthPrefixed _ _ (by decide)]
  simp only []
  rw [readString_lengthPrefixed _ _ (by simp [hk])]
  simp only []
  rw [readString_lengthPrefixed _ _ (by simp [hk])]
  simp only []
  rw [readString_lengthPrefixed _ _ (by decide)]
  simp [hk, paddingOk]
  rfl

theorem decodeOpenSSHKeyV1_marshal (rnd key : List Nat) (hk : key.length = 64) :
    decodeOpenSSHKeyV1 (marshalED25519PrivateKey rnd key) = some key := by
  have hlen := privSection_length rnd key hk
  unfold decodeOpenSSHKeyV1
  rw [marshalED25519PrivateKey_eq rnd key hk]
  simp only [List.append_assoc]
  rw [← List.append_assoc (ascii "openssh-key-v1") [0], expectLeading_append]
  simp only []
  rw [readString_lengthPrefixed _ _ (by decide)]
  simp only []
  rw [readString_lengthPrefixed _ _ (by decide)]
  simp only []
  rw [readString_lengthPrefixed _ _ (by decide)]
  simp only []
  rw [readUint32_be32 _ _ (by decide)]
  simp only []
  rw [readString_lengthPrefixed _ _ (by simp [lengthPrefixed_length, hk, ascii])]
  simp only []
  rw [readString_lengthPrefixed_nil _ (by omega)]
  simp only []
  rw [readString_lengthPrefixed _ _ (by decide)]
  simp only []
  rw [readString_lengthPrefixed_nil _ (by simp [hk])]
  simp [hk, decodePrivSection_privSection rnd key hk]

/-! ### base64 and PEM round trip -/

theorem b64Value_b64Char : ∀ v, v < 64 → b64Value (b64Char v) = some v := by decide

theorem b64Char_plain : ∀ v, v < 64 →
    b64Char v ≠ 61 ∧ b64Char v ≠ 45 ∧ isBlank (b64Char v) = false := by decide

theorem b64Decode_b64Encode : ∀ (l : List Nat), (∀ x ∈ l, x < 256) →
    b64Decode (b64Encode l) = some l
  | [], _ => by simp [b64Encode, b64Decode]
  | [a], h => by
    have ha : a < 256 := h a (by simp)
    have h1 := b64Value_b64Char (a / 4) (by omega)
    have h2 := b64Value_b64Char (a % 4 * 16) (by omega)
    simp only [b64Encode, b64Decode, h1, h2, and_self, if_true]
    simp only [Option.some.injEq, List.cons.injEq, and_true]
    omega
  | [a, b], h => by
    have ha : a < 256 := h a (by simp)
    have hb : b < 256 := h b (by simp)
    have h1 := b64Value_b64Char (a / 4) (by omega)
    have h2 := b64Value_b64Char (a % 4 * 16 + b / 16) (by omega)
    have h3 := b64Value_b64Char (b % 16 * 4) (by omega)
    have n3 := (b64Char_plain (b % 16 * 4) (by omega)).1
    simp only [b64Encode, b64Decode, h1, h2, h3, n3, false_and, if_false, and_self, if_true]
    simp only [Option.some.injEq, List.cons.injEq, and_true]
    omega
  | a :: b :: c :: rest, h => by
    have ha : a < 256 := h a (by simp)
    have hb : b < 256 := h b (by simp)
    have hc : c < 256 := h c (by simp)
    have h1 := b64Value_b64Char (a / 4) (by omega)
    have h2 := b64Value_b64Char (a % 4 * 16 + b / 16) (by omega)
    have h3 := b64Value_b64Char (b % 16 * 4 + c / 64) (by omega)
    have h4 := b64Value_b64Char (c % 64) (by omega)
    have n3 := (b64Char_plain (b % 16 * 4 + c / 64) (by omega)).1
    have n4 := (b64Char_plain (c % 64) (by omega)).1
    have ih := b64Decode_b64Encode rest (fun x hx => h x (by simp [hx]))
    simp only [b64Encode, b64Decode, h1, h2, h3, h4, n3, n4, false_and, if_false, ih,
      Option.map_some']
    simp only [Option.some.injEq, List.cons.injEq, and_true]
    omega

/-- Every character of a base64 text is an alphabet character or `=`. -/
def b64Text (l : List Nat) : Prop := ∀ x ∈ l, x ≠ 45 ∧ isBlank x = false

theorem b64Encode_text : ∀ (l : List Nat), (∀ x ∈ l, x < 256) → b64Text (b64Encode l)
  | [], _ => by simp [b64Encode, b64Text]
  | [a], h => by
    have ha : a < 256 := h a (by simp)
    have p1 := b64Char_plain (a / 4) (by omega)
    have p2 := b64Char_plain (a % 4 * 16) (by omega)
    intro x hx
    simp only [b64Encode, List.mem_cons, List.mem_singleton, List.not_mem_nil, or_false] at hx
    rcases hx with rfl | rfl | rfl | rfl
    · exact ⟨p1.2.1, p1.2.2⟩
    · exact ⟨p2.2.1, p2.2.2⟩
    · decide
    · decide
  | [a, b], h => by
    have ha : a < 256 := h a (by simp)
    have hb : b < 256 := h b (by simp)
    have p1 := b64Char_plain (a / 4) (by omega)
    have p2 := b64Char_plain (a % 4 * 16 + b / 16) (by omega)
    have p3 := b64Char_plain (b % 16 * 4) (by omega)
    intro x hx
    simp only [b64Encode, List.mem_cons, List.mem_singleton, List.not_mem_nil, or_false] at hx
    rcases hx with rfl | rfl | rfl | rfl
    · exact ⟨p1.2.1, p1.2.2⟩
    · exact ⟨p2.2.1, p2.2.2⟩
    · exact ⟨p3.2.1, p3.2.2⟩
    · decide
  | a :: b :: c :: rest, h => by
    have ha : a < 256 := h a (by simp)
    have hb : b < 256 := h b (by simp)
    have hc : c < 256 := h c (by simp)
    have p1 := b64Char_plain (a / 4) (by omega)
    have p2 := b64Char_plain (a % 4 * 16 + b / 16) (by omega)
    have p3 := b64Char_plain (b % 16 * 4 + c / 64) (by omega)
    have p4 := b64Char_plain (c % 64) (by omega)
    have ih := b64Encode_text rest (fun x hx => h x (by simp [hx]))
    intro x hx
    simp only [b64Encode, List.mem_cons] at hx
    rcases hx with rfl | rfl | rfl | rfl | hx
    · exact ⟨p1.2.1, p1.2.2⟩
    · exact ⟨p2.2.1, p2.2.2⟩
    · exact ⟨p3.2.1, p3.2.2⟩
    · exact ⟨p4.2.1, p4.2.2⟩
    · exact ih x hx

theorem lineBreak_filter : ∀ (l : List Nat) (used : Nat), b64Text l →
    (lineBreak used l).filter (fun c => !isBlank c) = l
  | [], used, _ => by
    have hnl : isBlank 10 = true := by decide
    by_cases hu : used > 0 <;> simp [lineBreak, hu, hnl]
  | c :: cs, used, h => by
    have hnl : isBlank 10 = true := by decide
    have hc := (h c (by simp)).2
    have ih := fun u => lineBreak_filter cs u (fun x hx => h x (by simp [hx]))
    by_cases hu : used = 64 <;> simp [lineBreak, hu, hc, ih, hnl]

theorem lineBreak_no_dash : ∀ (l : List Nat) (used : Nat), b64Text l →
    ∀ x ∈ lineBreak used l, x ≠ 45
  | [], used, _ => by
    by_cases hu : used > 0 <;> simp [lineBreak, hu]
  | c :: cs, used, h => by
    have hc := (h c (by simp)).1
    have ih := fun u => lineBreak_no_dash cs u (fun x hx => h x (by simp [hx]))
    by_cases hu : used = 64
    · intro x hx
      simp only [lineBreak, hu, if_true, List.mem_cons] at hx
      rcases hx with rfl | rfl | hx
      · decide
      · exact hc
      · exact ih _ x hx
    · intro x hx
      simp only [lineBreak, hu, if_false, List.mem_cons] at hx
      rcases hx with rfl | hx
      · exact hc
      · exact ih _ x hx

theorem takeWhile_append_stop (p : Nat → Bool) : ∀ (a : List Nat) (x : Nat) (b : List Nat),
    (∀ y ∈ a, p y = true) → p x = false →
    (a ++ x :: b).takeWhile p = a ∧ (a ++ x :: b).dropWhile p = x :: b
  | [], x, b, _, hx => by simp [List.takeWhile, List.dropWhile, hx]
  | y :: a, x, b, ha, hx => by
    have hy := ha y (by simp)
    have ih := takeWhile_append_stop p a x b (fun z hz => ha z (by simp [hz])) hx
    simp [List.takeWhile, List.dropWhile, hy, ih.1, ih.2]

/-- The PEM block type the relay writes. -/
theorem blockType_eq : stringBytes "OPENSSH PRIVATE KEY" = ascii "OPENSSH PRIVATE KEY" := by decide

theorem pemDecode_pemEncode (bytes : List Nat) (h : ∀ x ∈ bytes, x < 256) :
    pemDecode (pemEncode (stringBytes "OPENSSH PRIVATE KEY") bytes)
      = some (stringBytes "OPENSSH PRIVATE KEY", bytes) := by
  have htext := b64Encode_text bytes h
  have hbody := lineBreak_filter (b64Encode bytes) 0 htext
  have hdash := lineBreak_no_dash (b64Encode bytes) 0 htext
  have h1 := takeWhile_append_stop (fun c => decide (c ≠ 10))
    (stringBytes "OPENSSH PRIVATE KEY" ++ ascii "-----") 10
    (lineBreak 0 (b64Encode bytes) ++ ascii "-----END " ++ stringBytes "OPENSSH PRIVATE KEY"
      ++ ascii "-----\n") (by decide) (by decide)
  have h2 := takeWhile_append_stop (fun c => decide (c ≠ 45))
    (lineBreak 0 (b64Encode bytes)) 45
    (ascii "----END " ++ stringBytes "OPENSSH PRIVATE KEY" ++ ascii "-----\n")
    (by intro y hy; simpa using hdash y hy) (by decide)
  have e1 : pemEncode (stringBytes "OPENSSH PRIVATE KEY") bytes
      = ascii "-----BEGIN " ++ ((stringBytes "OPENSSH PRIVATE KEY" ++ ascii "-----") ++ 10 ::
          (lineBreak 0 (b64Encode bytes) ++ ascii "-----END "
            ++ stringBytes "OPENSSH PRIVATE KEY" ++ ascii "-----\n")) := by
    have : ascii "-----\n" = ascii "-----" ++ [10] := by decide
    simp only [pemEncode, this, List.append_assoc, List.singleton_append, List.cons_append, List.nil_append]
  have e2 : lineBreak 0 (b64Encode bytes) ++ ascii "-----END "
        ++ stringBytes "OPENSSH PRIVATE KEY" ++ ascii "-----\n"
      = lineBreak 0 (b64Encode bytes) ++ 45 :: (ascii "----END "
        ++ stringBytes "OPENSSH PRIVATE KEY" ++ ascii "-----\n") := by
    have : ascii "-----END " = 45 :: ascii "----END " := by decide
    simp only [this, List.append_assoc, List.cons_append]
  have e3 : (45 :: (ascii "----END " ++ stringBytes "OPENSSH PRIVATE KEY" ++ ascii "-----\n"))
      = (ascii "-----END " ++ stringBytes "OPENSSH PRIVATE KEY" ++ ascii "-----") ++ [10] := by
    decide
  have e4 : (stringBytes "OPENSSH PRIVATE KEY" ++ ascii "-----").take
      ((stringBytes "OPENSSH PRIVATE KEY" ++ ascii "-----").length - 5)
        = stringBytes "OPENSSH PRIVATE KEY" := by decide
  have e5 : (ascii "-----").isSuffixOf (stringBytes "OPENSSH PRIVATE KEY" ++ ascii "-----")
      = true := by decide
  unfold pemDecode
  rw [e1, expectLeading_append]
  simp only [h1.1, h1.2, List.drop_one, List.tail_cons, e5, if_true, e4]
  rw [e2]
  simp only [h2.1, h2.2]
  rw [e3, expectLeading_append]
  have hnl : ([10] : List Nat).all isBlank = true := by decide
  simp [hnl, hbody, b64Decode_b64Encode bytes h]

theorem copyInto_lt (n : Nat) (src : List Nat) (h : ∀ x ∈ src, x < 256) :
    ∀ x ∈ copyInto n src, x < 256 := by
  intro x hx
  simp only [copyInto, List.mem_append, List.mem_replicate] at hx
  rcases hx with hx | ⟨_, rfl⟩
  · exact h x (List.mem_of_mem_take hx)
  · decide

theorem randRead_lt (n : Nat) (rnd : List Nat) : ∀ x ∈ randRead n rnd, x < 256 := by
  apply copyInto_lt
  intro x hx
  simp only [List.mem_map] at hx
  obtain ⟨y, _, rfl⟩ := hx
  exact Nat.mod_lt _ (by decide)

/-! ### The host identity manager -/

theorem be32_lt_all (n : Nat) : ∀ x ∈ be32 n, x < 256 := be32_lt n

theorem lengthPrefixed_lt (b : List Nat) (h : ∀ x ∈ b, x < 256) :
    ∀ x ∈ lengthPrefixed b, x < 256 := by
  intro x hx
  simp only [lengthPrefixed, List.mem_append] at hx
  rcases hx with hx | hx
  · exact be32_lt _ x hx
  · exact h x hx

theorem marshalED25519PrivateKey_lt (rnd key : List Nat) (hk : key.length = 64)
    (h : ∀ x ∈ key, x < 256) : ∀ x ∈ marshalED25519PrivateKey rnd key, x < 256 := by
  have hd : ∀ x ∈ key.drop 32, x < 256 := fun x hx => h x (List.mem_of_mem_drop hx)
  have hr := randRead_lt 4 rnd
  have hsec : ∀ x ∈ privSection rnd key, x < 256 := by
    rw [privSection_eq rnd key hk]
    intro x hx
    simp only [List.mem_append] at hx
    rcases hx with ((((((hx | hx) | hx) | hx) | hx) | hx) | hx)
    · exact hr x hx
    · exact hr x hx
    · exact lengthPrefixed_lt _ (by decide) x hx
    · exact lengthPrefixed_lt _ hd x hx
    · exact lengthPrefixed_lt _ h x hx
    · exact lengthPrefixed_lt _ (by decide) x hx
    · revert x; decide
  rw [marshalED25519PrivateKey_eq rnd key hk]
  intro x hx
  simp only [List.mem_append] at hx
  rcases hx with (((((((hx | hx) | hx) | hx) | hx) | hx) | hx) | hx)
  · revert x; decide
  · revert x; decide
  · exact lengthPrefixed_lt _ (by decide) x hx
  · exact lengthPrefixed_lt _ (by decide) x hx
  · exact lengthPrefixed_lt _ (by decide) x hx
  · exact be32_lt _ x hx
  · refine lengthPrefixed_lt _ ?_ x hx
    intro y hy
    simp only [List.mem_append] at hy
    rcases hy with hy | hy
    · exact lengthPrefixed_lt _ (by decide) y hy
    · exact lengthPrefixed_lt _ hd y hy
  · exact lengthPrefixed_lt _ hsec x hx

theorem GenerateKey_ok (derive : List Nat → List Nat) (rnd key rnd1 : List Nat)
    (h : GenerateKey derive rnd = .ok (key, rnd1)) :
    key.length = 64 ∧ (∀ x ∈ key, x < 256) ∧ rnd1 = rnd.drop 32 ∧ 32 ≤ rnd.length := by
  unfold GenerateKey at h
  by_cases hl : rnd.length < 32
  · simp [hl] at h
  · simp only [hl, if_false, Except.ok.injEq, Prod.mk.injEq] at h
    obtain ⟨rfl, rfl⟩ := h
    refine ⟨?_, ?_, rfl, by omega⟩
    · simp only [List.length_append, List.length_map, List.length_take, copyInto_length]
      omega
    · intro x hx
      simp only [List.mem_append] at hx
      rcases hx with hx | hx
      · simp only [List.mem_map] at hx
        obtain ⟨y, _, rfl⟩ := hx
        exact Nat.mod_lt _ (by decide)
      · refine copyInto_lt _ _ ?_ x hx
        intro z hz
        simp only [List.mem_map] at hz
        obtain ⟨y, _, rfl⟩ := hz
        exact Nat.mod_lt _ (by decide)

theorem NewSignerFromKey_ok (key : List Nat) : NewSignerFromKey key = .ok ⟨key⟩ := by
  simp [NewSignerFromKey, ed25519Public, copyInto_length]

theorem ParsePrivateKey_pemEncode (rnd key : List Nat) (hk : key.length = 64)
    (h : ∀ x ∈ key, x < 256) :
    ParsePrivateKey (pemEncode (stringBytes "OPENSSH PRIVATE KEY")
      (marshalED25519PrivateKey rnd key)) = .ok ⟨key⟩ := by
  unfold ParsePrivateKey
  rw [pemDecode_pemEncode _ (marshalED25519PrivateKey_lt rnd key hk h)]
  simp [decodeOpenSSHKeyV1_marshal rnd key hk, NewSignerFromKey_ok]

theorem file_overwrite (path : String) (data : List Nat) :
    ∀ (files : List (String × File)) (f : File),
      (files.find? (fun e => e.1 == path)).map (·.2) = some f →
      ((overwrite path data files).find? (fun e => e.1 == path)).map (·.2)
        = some { f with content := data }
  | [], f, h => by simp at h
  | e :: es, f, h => by
    by_cases he : (e.1 == path) = true
    · simp only [List.find?, he, Option.map_some', Option.some.injEq] at h
      simp [overwrite, he, List.find?, h]
    · simp only [Bool.not_eq_true] at he
      simp only [List.find?, he] at h
      simp [overwrite, he, List.find?, file_overwrite path data es f h]

theorem file_append (path : String) (f : File) (files : List (String × File))
    (h : (files.find? (fun e => e.1 == path)).map (·.2) = none) :
    ((files ++ [(path, f)]).find? (fun e => e.1 == path)).map (·.2) = some f := by
  simp only [Option.map_eq_none'] at h
  simp [List.find?_append, h]

/-- After a successful `writeFile` the file holds the data; its permission bits
are the ones it had when it existed, the requested ones less the umask when it
did not. Faults, directories and the random source are left as they were. -/
theorem writeFile_ok (w w1 : World) (path : String) (data : List Nat) (perm : Nat)
    (h : writeFile w path data perm = (.ok (), w1)) :
    w1.fs.file path = some
        { content := data,
          perm := match w.fs.file path with
            | some f => f.perm
            | none => perm - (perm &&& w.fs.umask) }
      ∧ w1.fs.readFault = w.fs.readFault ∧ w1.rnd = w.rnd
      ∧ w1.calls = w.calls ++ [Call.writeFile path data perm] := by
  unfold writeFile at h
  by_cases hf : path ∈ w.fs.writeFault
  · simp [hf] at h
  · simp only [hf, if_false] at h
    cases hx : w.fs.file path with
    | none =>
      simp only [hx, Prod.mk.injEq, true_and] at h
      subst h
      exact ⟨file_append path _ _ hx, rfl, rfl, rfl⟩
    | some f =>
      simp only [hx, Prod.mk.injEq, true_and] at h
      subst h
      exact ⟨file_overwrite path data _ f hx, rfl, rfl, rfl⟩

theorem mkdirAll_ok (w w1 : World) (dir : String) (perm : Nat)
    (h : mkdirAll w dir perm = (.ok (), w1)) :
    w1.fs.files = w.fs.files ∧ w1.fs.umask = w.fs.umask ∧ w1.fs.readFault = w.fs.readFault
      ∧ w1.fs.writeFault = w.fs.writeFault ∧ w1.rnd = w.rnd
      ∧ w1.calls = w.calls ++ [Call.mkdirAll dir perm] := by
  unfold mkdirAll at h
  by_cases hd : dir ∈ w.fs.dirs
  · simp only [hd, if_true, Prod.mk.injEq, true_and] at h
    subst h
    exact ⟨rfl, rfl, rfl, rfl, rfl, rfl⟩
  · by_cases hf : dir ∈ w.fs.mkdirFault ∨ (w.fs.file dir).isSome = true
    · simp [hd, hf] at h
    · simp only [hd, hf, if_false, Prod.mk.injEq, true_and] at h
      subst h
      exact ⟨rfl, rfl, rfl, rfl, rfl, rfl⟩

/-- What a successful run of `generateHostKey` leaves behind: the signer is over
the generated key, the file at `path` holds the PEM block of the key's
container, with the permission bits `os.WriteFile` gives it. -/
theorem generateHostKey_ok (dirOf : String → String) (derive : List Nat → List Nat)
    (w w1 : World) (path : String) (signer : Signer)
    (h : generateHostKey dirOf derive w path = (.ok signer, w1)) :
    ∃ key rnd1, GenerateKey derive w.rnd = .ok (key, rnd1) ∧ signer = ⟨key⟩
      ∧ w1.fs.file path = some
          { content := pemEncode (stringBytes "OPENSSH PRIVATE KEY")
              (marshalED25519PrivateKey rnd1 key),
            perm := match w.fs.file path with
              | some f => f.perm
              | none => 0o600 - (0o600 &&& w.fs.umask) }
      ∧ w1.fs.readFault = w.fs.readFault
      ∧ w1.rnd = rnd1.drop 4
      ∧ w1.calls = w.calls ++ [Call.generateKey, Call.mkdirAll (dirOf path) 0o755,
          Call.writeFile path (pemEncode (stringBytes "OPENSSH PRIVATE KEY")
            (marshalED25519PrivateKey rnd1 key)) 0o600] := by
  unfold generateHostKey at h
  cases hg : GenerateKey derive w.rnd with
  | error e => simp [hg] at h
  | ok kr =>
    obtain ⟨key, rnd1⟩ := kr
    simp only [hg] at h
    cases hm : mkdirAll (World.mk w.fs (List.drop 4 rnd1) (w.calls ++ [Call.generateKey])) (dirOf path) 0o755 with
    | mk rm wm =>
      simp only [hm] at h
      cases rm with
      | error e => simp at h
      | ok u =>
        have hmk := mkdirAll_ok _ _ _ _ hm
        simp only at h
        cases hw : writeFile wm path (pemEncode (stringBytes "OPENSSH PRIVATE KEY")
            (marshalED25519PrivateKey rnd1 key)) 0o600 with
        | mk rw ww =>
          simp only [hw] at h
          cases rw with
          | error e => simp at h
          | ok u2 =>
            have hwr := writeFile_ok _ _ _ _ _ hw
            simp only [NewSignerFromKey_ok, Prod.mk.injEq, Except.ok.injEq] at h
            obtain ⟨h1, h2⟩ := h
            subst h2
            have hfile : wm.fs.file path = w.fs.file path := by
              simp only [FS.file, hmk.1]
            refine ⟨key, rnd1, rfl, h1.symm, ?_, ?_, ?_, ?_⟩
            · rw [hwr.1, hfile, hmk.2.1]
            · rw [hwr.2.1, hmk.2.2.1]
            · rw [hwr.2.2.1, hmk.2.2.2.2.1]
            · rw [hwr.2.2.2, hmk.2.2.2.2.2]
              simp

/-- The three failures `generateHostKey` reports: each gives an error result. -/
theorem generateHostKey_error (dirOf : String → String) (derive : List Nat → List Nat)
    (w : World) (path : String) :
    ((∃ e, GenerateKey derive w.rnd = .error e) →
        ∃ e, (generateHostKey dirOf derive w path).1 = .error e)
      ∧ (∀ key rnd1 e wm, GenerateKey derive w.rnd = .ok (key, rnd1) →
          mkdirAll { fs := w.fs, rnd := rnd1.drop 4, calls := w.calls ++ [Call.generateKey] }
            (dirOf path) 0o755 = (.error e, wm) →
          ∃ e, (generateHostKey dirOf derive w path).1 = .error e)
      ∧ (∀ key rnd1 wm e ww, GenerateKey derive w.rnd = .ok (key, rnd1) →
          mkdirAll { fs := w.fs, rnd := rnd1.drop 4, calls := w.calls ++ [Call.generateKey] }
            (dirOf path) 0o755 = (.ok (), wm) →
          writeFile wm path (pemEncode (stringBytes "OPENSSH PRIVATE KEY")
            (marshalED25519PrivateKey rnd1 key)) 0o600 = (.error e, ww) →
          ∃ e, (generateHostKey dirOf derive w path).1 = .error e) := by
  refine ⟨?_, ?_, ?_⟩
  · rintro ⟨e, he⟩
    simp [generateHostKey, he]
  · intro key rnd1 e wm hg hm
    simp [generateHostKey, hg, hm]
  · intro key rnd1 wm e ww hg hm hw
    simp [generateHostKey, hg, hm, hw]

theorem loadOrGenerateHostKey_reload
    (parse : List Nat → Except String Signer) (dirOf : String → String)
    (derive : List Nat → List Nat) (w : World) (path : String) (keyBytes : List Nat)
    (signer : Signer)
    (hread : (readFile w path).1 = .ok keyBytes) (hparse : parse keyBytes = .ok signer) :
    loadOrGenerateHostKey parse dirOf derive w path
      = (.ok signer, { w with calls := w.calls ++ [Call.readFile path] }) := by
  have hr : readFile w path
      = (.ok keyBytes, { w with calls := w.calls ++ [Call.readFile path] }) := by
    unfold readFile at hread ⊢
    by_cases hf : path ∈ w.fs.readFault
    · simp [hf] at hread
    · cases hx : w.fs.file path with
      | none => simp [hf, hx] at hread
      | some f =>
        simp only [hf, hx, if_false, Except.ok.injEq] at hread
        simp [hf, hx, hread]
  simp [loadOrGenerateHostKey, hr, hparse]

theorem pair_of_fst {α β : Type} (p : α × β) (a : α) (h : p.1 = a) : p = (a, p.2) := by
  cases p
  simp only at h
  rw [h]

/-! ### Authentication and session set-up -/

theorem updateCalls_append (a b : List Event) :
    updateCalls (a ++ b) = updateCalls a ++ updateCalls b := by
  induction a with
  | nil => rfl
  | cons e es ih => cases e <;> simp [updateCalls, ih]

/-- The lookup's result does not depend on the trace. -/
theorem GetSSHKeyByFingerprint_fst (env : Env) (tr : List Event) (fingerprint : String) :
    (GetSSHKeyByFingerprint { env with trace := tr } fingerprint).1
      = (GetSSHKeyByFingerprint env fingerprint).1 := by
  unfold GetSSHKeyByFingerprint
  cases hq : env.queryFault with
  | some e => simp [hq]
  | none =>
    cases hf : env.ssh_keys.find? (fun k => k.Fingerprint == fingerprint) with
    | none => simp [hq, hf]
    | some k => simp [hq, hf]

theorem GetSSHKeyByFingerprint_error (env : Env) (fingerprint : String) (e : String)
    (h : (GetSSHKeyByFingerprint env fingerprint).1 = .error e) :
    GetSSHKeyByFingerprint env fingerprint
      = (.error e, env.emit (Event.getSSHKeyByFingerprint fingerprint none)) := by
  unfold GetSSHKeyByFingerprint at h ⊢
  cases hq : env.queryFault with
  | some e1 =>
    simp only [hq] at h ⊢
    rw [h]
  | none =>
    cases hf : env.ssh_keys.find? (fun k => k.Fingerprint == fingerprint) with
    | none =>
      simp only [hq, hf] at h ⊢
      rw [h]
    | some k => simp [hq, hf] at h

theorem GetSSHKeyByFingerprint_ok (env : Env) (fingerprint : String) (k : SSHKey)
    (h : (GetSSHKeyByFingerprint env fingerprint).1 = .ok k) :
    GetSSHKeyByFingerprint env fingerprint
      = (.ok k, env.emit (Event.getSSHKeyByFingerprint fingerprint (some k))) := by
  unfold GetSSHKeyByFingerprint at h ⊢
  cases hq : env.queryFault with
  | some e1 => simp [hq] at h
  | none =>
    cases hf : env.ssh_keys.find? (fun k => k.Fingerprint == fingerprint) with
    | none => simp [hq, hf] at h
    | some k1 =>
      simp only [hq, hf, Except.ok.injEq] at h ⊢
      rw [h]

/-- With unique fingerprints and a working store, a stored credential is the one
the lookup returns. -/
theorem GetSSHKeyByFingerprint_stored (env : Env) (cred : SSHKey)
    (hq : env.queryFault = none) (hstored : cred ∈ env.ssh_keys)
    (huniq : env.ssh_keys.Pairwise (fun a b => a.Fingerprint ≠ b.Fingerprint)) :
    (GetSSHKeyByFingerprint env cred.Fingerprint).1 = .ok cred := by
  have hfind : env.ssh_keys.find? (fun k => k.Fingerprint == cred.Fingerprint) = some cred := by
    generalize env.ssh_keys = rows at hstored huniq
    induction rows with
    | nil => simp at hstored
    | cons r rs ih =>
      rw [List.pairwise_cons] at huniq
      rcases List.mem_cons.mp hstored with h | h
      · subst h
        simp [List.find?]
      · have hne : r.Fingerprint ≠ cred.Fingerprint := huniq.1 cred h
        have hb : (r.Fingerprint == cred.Fingerprint) = false := by simpa using hne
        simp [List.find?, hb, ih h huniq.2]
  simp [GetSSHKeyByFingerprint, hq, hfind]

/-- A credential the lookup returns has the fingerprint that was asked for. -/
theorem GetSSHKeyByFingerprint_fingerprint (env : Env) (fingerprint : String) (k : SSHKey)
    (h : (GetSSHKeyByFingerprint env fingerprint).1 = .ok k) : k.Fingerprint = fingerprint := by
  unfold GetSSHKeyByFingerprint at h
  cases hq : env.queryFault with
  | some e1 => simp [hq] at h
  | none =>
    cases hf : env.ssh_keys.find? (fun k => k.Fingerprint == fingerprint) with
    | none => simp [hq, hf] at h
    | some k1 =>
      simp only [hq, hf, Except.ok.injEq] at h
      subst h
      simpa using List.find?_some hf

theorem UpdateSSHKeyLastUsed_trace (env : Env) (id : String) :
    ∃ ok, (UpdateSSHKeyLastUsed env id).2.trace
      = env.trace ++ [Event.updateSSHKeyLastUsed id ok] := by
  unfold UpdateSSHKeyLastUsed
  cases hx : env.execFault with
  | some e => exact ⟨false, by simp [Env.emit]⟩
  | none => exact ⟨true, by simp [Env.emit]⟩

/-- A rejected key: the result, and the environment, which differs from the one
before only by three trace entries. -/
theorem publicKeyCallback_error (fp : List Nat → String) (env : Env) (user : String)
    (key : List Nat) (e : String)
    (h : (GetSSHKeyByFingerprint env (fp key)).1 = .error e) :
    publicKeyCallback fp env user key
      = ((none, some "unknown public key"),
          { env with trace := env.trace ++
            [Event.log ("Auth attempt for workspace '" ++ user ++ "' with key " ++ fp key),
             Event.getSSHKeyByFingerprint (fp key) none,
             Event.log ("Key not found: " ++ fp key)] }) := by
  have h1 : (GetSSHKeyByFingerprint (env.logf ("Auth attempt for workspace '" ++ user
      ++ "' with key " ++ fp key)) (fp key)).1 = .error e := by
    rw [← h]; exact GetSSHKeyByFingerprint_fst env _ _
  simp only [publicKeyCallback]
  rw [GetSSHKeyByFingerprint_error _ _ _ h1]
  simp [Env.logf, Env.emit]

/-- An accepted key: the result and the trace. -/
theorem publicKeyCallback_ok (fp : List Nat → String) (env : Env) (user : String)
    (key : List Nat) (k : SSHKey)
    (h : (GetSSHKeyByFingerprint env (fp key)).1 = .ok k) :
    (publicKeyCallback fp env user key).1
        = (some { Extensions := [("user-id", k.UserID), ("key-id", k.ID),
            ("fingerprint", fp key)] }, none)
      ∧ ∃ ok, (publicKeyCallback fp env user key).2.trace = env.trace ++
          [Event.log ("Auth attempt for workspace '" ++ user ++ "' with key " ++ fp key),
           Event.getSSHKeyByFingerprint (fp key) (some k),
           Event.updateSSHKeyLastUsed k.ID ok,
           Event.log ("Auth successful for workspace '" ++ user ++ "' (user: " ++ k.UserID
             ++ ", key: " ++ k.Name ++ ")")] := by
  have h1 : (GetSSHKeyByFingerprint (env.logf ("Auth attempt for workspace '" ++ user
      ++ "' with key " ++ fp key)) (fp key)).1 = .ok k := by
    rw [← h]; exact GetSSHKeyByFingerprint_fst env _ _
  obtain ⟨ok, hok⟩ := UpdateSSHKeyLastUsed_trace
    ((env.logf ("Auth attempt for workspace '" ++ user ++ "' with key " ++ fp key)).emit
      (Event.getSSHKeyByFingerprint (fp key) (some k))) k.ID
  refine ⟨?_, ok, ?_⟩
  · simp only [publicKeyCallback]
    rw [GetSSHKeyByFingerprint_ok _ _ _ h1]
  · simp only [publicKeyCallback]
    rw [GetSSHKeyByFingerprint_ok _ _ _ h1]
    simp only [Env.logf, Env.emit] at hok ⊢
    rw [hok]
    simp

theorem publicKeyCallback_step (fp : List Nat → String) (env : Env) (user : String)
    (key : List Nat) :
    ∃ added, AuthStep env (publicKeyCallback fp env user key).2 added := by
  cases hl : (GetSSHKeyByFingerprint env (fp key)).1 with
  | error e =>
    rw [publicKeyCallback_error fp env user key e hl]
    refine ⟨_, rfl, rfl, rfl, rfl, rfl, rfl, rfl, rfl, ?_⟩
    intro x hx
    simp only [List.mem_cons, List.mem_singleton, List.not_mem_nil, or_false] at hx
    rcases hx with rfl | rfl | rfl <;> rfl
  | ok k =>
    obtain ⟨_, ok, htr⟩ := publicKeyCallback_ok fp env user key k hl
    have h1 : (GetSSHKeyByFingerprint (env.logf ("Auth attempt for workspace '" ++ user
        ++ "' with key " ++ fp key)) (fp key)).1 = .ok k := by
      rw [← hl]; exact GetSSHKeyByFingerprint_fst env _ _
    refine ⟨_, ?_, ?_, ?_, ?_, ?_, ?_, ?_, htr, ?_⟩
    all_goals first
      | (intro x hx
         simp only [List.mem_cons, List.mem_singleton, List.not_mem_nil, or_false] at hx
         rcases hx with rfl | rfl | rfl | rfl <;> rfl)
      | (simp only [publicKeyCallback]
         rw [GetSSHKeyByFingerprint_ok _ _ _ h1]
         simp only [UpdateSSHKeyLastUsed, Env.logf, Env.emit]
         cases env.execFault <;> rfl)

theorem AuthStep_trans (a b c : Env) (x y : List Event) (h1 : AuthStep a b x)
    (h2 : AuthStep b c y) : AuthStep a c (x ++ y) := by
  obtain ⟨a1, a2, a3, a4, a5, a6, a7, a8, a9⟩ := h1
  obtain ⟨b1, b2, b3, b4, b5, b6, b7, b8, b9⟩ := h2
  refine ⟨b1.trans a1, b2.trans a2, b3.trans a3, b4.trans a4, b5.trans a5, b6.trans a6,
    b7.trans a7, ?_, ?_⟩
  · rw [b8, a8, List.append_assoc]
  · intro e he
    rcases List.mem_append.mp he with h | h
    · exact a9 e h
    · exact b9 e h

theorem authenticate_step (fp : List Nat → String) (user : String) :
    ∀ (offers : List Offer) (env : Env),
      ∃ added, AuthStep env (authenticate fp user offers env).2 added
  | [], env => ⟨[], rfl, rfl, rfl, rfl, rfl, rfl, rfl, by simp [authenticate], by simp⟩
  | o :: os, env => by
    obtain ⟨x, hx⟩ := publicKeyCallback_step fp env user o.key
    obtain ⟨y, hy⟩ := authenticate_step fp user os (publicKeyCallback fp env user o.key).2
    unfold authenticate
    cases hr : publicKeyCallback fp env user o.key with
    | mk r env1 =>
      rw [hr] at hx hy
      obtain ⟨perms, err⟩ := r
      cases perms with
      | none => exact ⟨_, AuthStep_trans _ _ _ _ _ hx hy⟩
      | some p =>
        cases err with
        | some e => exact ⟨_, AuthStep_trans _ _ _ _ _ hx hy⟩
        | none =>
          by_cases hs : o.signs = true
          · simp only [hs, if_true]
            exact ⟨_, hx⟩
          · simp only [hs]
            exact ⟨_, AuthStep_trans _ _ _ _ _ hx hy⟩

/-- The inbound handshake adds authentication events and one `newServerConn`
event telling its outcome; a connection it returns is for the client's user. -/
theorem NewServerConn_step (fp : List Nat → String) (env : Env) (client : Client) :
    ∃ auth env0, AuthStep env env0 auth
      ∧ ((∃ e, NewServerConn fp env client
            = (.error e, env0.emit (Event.newServerConn false)))
        ∨ (∃ c, c.user = client.user ∧ c.remoteAddr = client.remoteAddr
            ∧ NewServerConn fp env client = (.ok c, env0.emit (Event.newServerConn true)))) := by
  unfold NewServerConn
  by_cases ht : client.transportOk = true
  · obtain ⟨auth, ha⟩ := authenticate_step fp client.user client.offers env
    cases hr : authenticate fp client.user client.offers env with
    | mk r env0 =>
      rw [hr] at ha
      cases r with
      | none => exact ⟨auth, env0, ha, Or.inl ⟨"ssh: unable to authenticate", by simp [ht]⟩⟩
      | some p =>
        exact ⟨auth, env0, ha, Or.inr ⟨⟨client.user, client.remoteAddr, p⟩, rfl, rfl,
          by simp [ht]⟩⟩
  · refine ⟨[], env, ⟨rfl, rfl, rfl, rfl, rfl, rfl, rfl, by simp, by simp⟩,
      Or.inl ⟨"ssh: handshake failed", ?_⟩⟩
    simp [ht]

/-- The lookup adds one `getWorkspace` event carrying its result, and its
result depends on the pods, the API fault and the clock only. -/
theorem GetWorkspace_step (env : Env) (cancelled : Bool) (name : String) :
    GetWorkspace env cancelled name
      = ((GetWorkspace env cancelled name).1,
          env.emit (Event.getWorkspace name (foundWorkspace (GetWorkspace env cancelled name).1)))
      := by
  unfold GetWorkspace
  cases cancelled with
  | true => rfl
  | false =>
    cases ha : env.apiFault with
    | some e => simp [ha, foundWorkspace]
    | none =>
      cases hp : env.pods.find? (fun p => p.Name == "ws-" ++ name) with
      | none => simp [ha, hp, foundWorkspace]
      | some pod => simp [ha, hp, foundWorkspace]

theorem GetWorkspace_congr (env env1 : Env) (cancelled : Bool) (name : String)
    (hp : env1.pods = env.pods) (ha : env1.apiFault = env.apiFault) (hn : env1.now = env.now) :
    (GetWorkspace env1 cancelled name).1 = (GetWorkspace env cancelled name).1 := by
  unfold GetWorkspace
  rw [hp, ha, hn]
  cases cancelled with
  | true => rfl
  | false =>
    cases h1 : env.apiFault with
    | some e => rfl
    | none =>
      cases h2 : env.pods.find? (fun p => p.Name == "ws-" ++ name) with
      | none => simp [h2]
      | some pod => simp [h2]

/-- The six ways a session can go, each with the events it adds to the trace:
the inbound handshake fails; the lookup fails; the workspace is not running or
has no address; the dial fails; the outbound handshake fails; or the forwarders
are started. `auth` are the events of the authentication attempts. -/
theorem handleConnection_shape (fp : List Nat → String) (s : Server) (cancelled : Bool)
    (env : Env) (client : Client) :
    ∃ auth, (∀ x ∈ auth, x.isAuth = true) ∧
      ((∃ e m, (NewServerConn fp env client).1 = .error e
          ∧ sessionEvents fp s cancelled env client
            = auth ++ [Event.newServerConn false, Event.log m, Event.close Conn.netConn])
      ∨ ((∃ c, (NewServerConn fp env client).1 = .ok c) ∧
        ((∃ e m1 m2, (GetWorkspace env cancelled client.user).1 = .error e
            ∧ sessionEvents fp s cancelled env client
              = auth ++ [Event.newServerConn true, Event.log m1,
                  Event.getWorkspace client.user none, Event.log m2,
                  Event.close Conn.sshConn, Event.close Conn.netConn])
        ∨ (∃ ws m1 m2, (GetWorkspace env cancelled client.user).1 = .ok ws
            ∧ (ws.Status ≠ "Running" ∨ ws.PodIP = "")
            ∧ sessionEvents fp s cancelled env client
              = auth ++ [Event.newServerConn true, Event.log m1,
                  Event.getWorkspace client.user (some ws), Event.log m2,
                  Event.close Conn.sshConn, Event.close Conn.netConn])
        ∨ (∃ ws m1 m2, (GetWorkspace env cancelled client.user).1 = .ok ws
            ∧ ws.Status = "Running" ∧ ws.PodIP ≠ "" ∧ ws.PodIP ++ ":22" ∈ env.dialFault
            ∧ sessionEvents fp s cancelled env client
              = auth ++ [Event.newServerConn true, Event.log m1,
                  Event.getWorkspace client.user (some ws),
                  Event.dial "tcp" (ws.PodIP ++ ":22") false, Event.log m2,
                  Event.close Conn.sshConn, Event.close Conn.netConn])
        ∨ (∃ ws m1 m2, (GetWorkspace env cancelled client.user).1 = .ok ws
            ∧ ws.Status = "Running" ∧ ws.PodIP ≠ "" ∧ ws.PodIP ++ ":22" ∉ env.dialFault
            ∧ ws.PodIP ++ ":22" ∈ env.sshFault
            ∧ sessionEvents fp s cancelled env client
              = auth ++ [Event.newServerConn true, Event.log m1,
                  Event.getWorkspace client.user (some ws),
                  Event.dial "tcp" (ws.PodIP ++ ":22") true,
                  Event.newClientConn (ws.PodIP ++ ":22") "dev" s.hostSigner false,
                  Event.log m2, Event.close Conn.targetConn,
                  Event.close Conn.sshConn, Event.close Conn.netConn])
        ∨ (∃ ws m1 m2, (GetWorkspace env cancelled client.user).1 = .ok ws
            ∧ ws.Status = "Running" ∧ ws.PodIP ≠ "" ∧ ws.PodIP ++ ":22" ∉ env.dialFault
            ∧ ws.PodIP ++ ":22" ∉ env.sshFault
            ∧ sessionEvents fp s cancelled env client
              = auth ++ [Event.newServerConn true, Event.log m1,
                  Event.getWorkspace client.user (some ws),
                  Event.dial "tcp" (ws.PodIP ++ ":22") true,
                  Event.newClientConn (ws.PodIP ++ ":22") "dev" s.hostSigner true,
                  Event.goProxyRequests Leg.client Leg.target,
                  Event.goProxyRequests Leg.target Leg.client,
                  Event.goProxyChannels Leg.client Leg.target,
                  Event.goProxyChannels Leg.target Leg.client,
                  Event.wait, Event.log m2,
                  Event.close Conn.targetSSHConn, Event.close Conn.targetConn,
                  Event.close Conn.sshConn, Event.close Conn.netConn])))) := by
  obtain ⟨auth, env0, hstep, hcase⟩ := NewServerConn_step fp env client
  obtain ⟨_, _, hpods, hapi, hdial, hssh, hnow, htrace, hauth⟩ := hstep
  refine ⟨auth, hauth, ?_⟩
  rcases hcase with ⟨e, hN⟩ | ⟨c, hu, hra, hN⟩
  · refine Or.inl ⟨e, "SSH handshake failed: " ++ e, by rw [hN], ?_⟩
    simp only [sessionEvents, handleConnection, hN, Env.logf, Env.emit, htrace,
      List.append_assoc, List.drop_left, List.cons_append, List.nil_append]
  · refine Or.inr ⟨⟨c, by rw [hN]⟩, ?_⟩
    have hG : (GetWorkspace ((env0.emit (Event.newServerConn true)).logf
        ("Connection from " ++ c.remoteAddr ++ " for workspace '" ++ c.user ++ "'"))
        cancelled c.user).1 = (GetWorkspace env cancelled client.user).1 := by
      rw [hu]
      exact GetWorkspace_congr env _ cancelled client.user hpods hapi hnow
    have hS := GetWorkspace_step ((env0.emit (Event.newServerConn true)).logf
        ("Connection from " ++ c.remoteAddr ++ " for workspace '" ++ c.user ++ "'"))
        cancelled c.user
    rw [hG] at hS
    simp only [sessionEvents, handleConnection, hN]
    rw [hS, hu, hra]
    cases hg : (GetWorkspace env cancelled client.user).1 with
    | error e =>
      refine Or.inl ⟨e, "Connection from " ++ client.remoteAddr ++ " for workspace '"
        ++ client.user ++ "'", "Failed to get workspace '" ++ client.user ++ "': " ++ e, rfl, ?_⟩
      simp only [foundWorkspace, Env.logf, Env.emit, htrace, List.append_assoc, List.drop_left,
        List.cons_append, List.nil_append]
    | ok ws =>
      refine Or.inr ?_
      by_cases hrun : ws.Status = "Running"
      · by_cases hip : ws.PodIP = ""
        · refine Or.inl ⟨ws, "Connection from " ++ client.remoteAddr ++ " for workspace '"
            ++ client.user ++ "'", "Workspace '" ++ client.user ++ "' has no IP address",
            rfl, Or.inr hip, ?_⟩
          simp only [foundWorkspace, hrun, hip, bne_self_eq_false, beq_self_eq_true,
            Bool.false_eq_true, if_false, if_true, Env.logf, Env.emit, htrace,
            List.append_assoc, List.drop_left, List.cons_append, List.nil_append]
        · have hip2 : (ws.PodIP == "") = false := by simpa using hip
          refine Or.inr ?_
          by_cases hd : ws.PodIP ++ ":22" ∈ env.dialFault
          · refine Or.inl ⟨ws, "Connection from " ++ client.remoteAddr ++ " for workspace '"
              ++ client.user ++ "'", "Failed to connect to workspace '" ++ client.user ++ "' at "
              ++ (ws.PodIP ++ ":22") ++ ": " ++ "connection refused", rfl, hrun, hip, hd, ?_⟩
            simp only [foundWorkspace, hrun, hip2, bne_self_eq_false, Bool.false_eq_true,
              if_false, Dial, hdial, hd, if_true, Env.logf, Env.emit, htrace,
              List.append_assoc, List.drop_left, List.cons_append, List.nil_append]
          · refine Or.inr ?_
            by_cases hs : ws.PodIP ++ ":22" ∈ env.sshFault
            · refine Or.inl ⟨ws, "Connection from " ++ client.remoteAddr ++ " for workspace '"
                ++ client.user ++ "'", "Failed to establish SSH connection to workspace '"
                ++ client.user ++ "': " ++ "ssh: handshake failed", rfl, hrun, hip, hd, hs, ?_⟩
              simp only [foundWorkspace, hrun, hip2, bne_self_eq_false, Bool.false_eq_true,
                if_false, Dial, NewClientConn, hdial, hssh, hd, hs, if_true, Env.logf,
                Env.emit, htrace,
                List.append_assoc, List.drop_left, List.cons_append, List.nil_append]
            · refine Or.inr ⟨ws, "Connection from " ++ client.remoteAddr ++ " for workspace '"
                ++ client.user ++ "'", "Connection closed for workspace '" ++ client.user ++ "'",
                rfl, hrun, hip, hd, hs, ?_⟩
              simp only [foundWorkspace, hrun, hip2, bne_self_eq_false, Bool.false_eq_true,
                if_false, Dial, NewClientConn, hdial, hssh, hd, hs, Env.logf,
                Env.emit, htrace,
                List.append_assoc, List.drop_left, List.cons_append, List.nil_append]
      · have hrun2 : (ws.Status != "Running") = true := by simpa using hrun
        refine Or.inl ⟨ws, "Connection from " ++ client.remoteAddr ++ " for workspace '"
          ++ client.user ++ "'", "Workspace '" ++ client.user ++ "' is not running (status: "
          ++ ws.Status ++ ")", rfl, Or.inl hrun, ?_⟩
        simp only [foundWorkspace, hrun2, if_true, Env.logf, Env.emit, htrace,
          List.append_assoc, List.drop_left, List.cons_append, List.nil_append]

theorem isAuth_not_other (x : Event) (h : x.isAuth = true) :
    x.isForward = false ∧ x.isDial = false ∧ x.isLookup = false := by
  cases x <;> simp [Event.isAuth] at h <;> exact ⟨rfl, rfl, rfl⟩

theorem filter_auth_nil (p : Event → Bool) (auth : List Event)
    (h : ∀ x ∈ auth, p x = false) : auth.filter p = [] := by
  induction auth with
  | nil => rfl
  | cons a as ih =>
    have ha := h a (by simp)
    simp [List.filter, ha, ih (fun x hx => h x (by simp [hx]))]

/-! ### The relay engine, one forwarder at a time -/

theorem proxyRequests_cons_ok (req : Request) (ok : Bool) (payload : List Nat)
    (rest : List (Arrival (Bool × List Nat))) :
    proxyRequests (⟨some req, .ok (ok, payload)⟩ :: rest)
      = (RelayEvent.sendRequest req.ReqType req.WantReply req.Payload
          :: ((if req.WantReply then [RelayEvent.reply req ok payload] else [])
            ++ (proxyRequests rest).1), (proxyRequests rest).2) := by
  cases hw : req.WantReply <;> simp [proxyRequests, hw]

theorem proxyChannelRequests_cons_ok (req : Request) (ok : Bool) (rest : List (Arrival Bool)) :
    proxyChannelRequests (⟨some req, .ok ok⟩ :: rest)
      = (RelayEvent.sendRequest req.ReqType req.WantReply req.Payload
          :: ((if req.WantReply then [RelayEvent.reply req ok []] else [])
            ++ (proxyChannelRequests rest).1), (proxyChannelRequests rest).2) := by
  cases hw : req.WantReply <;> simp [proxyChannelRequests, hw]

/-- The channel loop treats a stream piece by piece: after requests that are not
nil, the rest of the stream is processed as if it came first. -/
theorem proxyChannels_append : ∀ (pre rest : List ChannelArrival),
    (∀ x ∈ pre, x.newChan ≠ none) →
    (proxyChannels (pre ++ rest)).1 = (proxyChannels pre).1 ++ (proxyChannels rest).1
      ∧ (proxyChannels (pre ++ rest)).2 = (proxyChannels rest).2
  | [], rest, _ => by simp [proxyChannels]
  | a :: pre, rest, h => by
    have ih := proxyChannels_append pre rest (fun x hx => h x (by simp [hx]))
    have ha := h a (by simp)
    obtain ⟨nc, op, ac⟩ := a
    cases nc with
    | none => exact absurd rfl ha
    | some newChan =>
      cases op with
      | error e => simp [proxyChannels, ih.1, ih.2]
      | ok u =>
        cases ac with
        | error e => simp [proxyChannels, ih.1, ih.2]
        | ok v => simp [proxyChannels, ih.1, ih.2]

/-! ### Goroutines of a channel-pair -/

theorem closesLate_snoc (log : List PairEvent) (x : PairEvent) (h : closesLate log)
    (hx : x.isClose = true → ∀ f, PairEvent.finished f ∈ log) : closesLate (log ++ [x]) := by
  intro pre e post heq he f
  rcases List.eq_nil_or_concat post with hp | ⟨post1, y, hp⟩
  · subst hp
    have := List.append_inj' heq rfl
    obtain ⟨h1, h2⟩ := this
    simp only [List.cons.injEq, and_true] at h2
    subst h1 h2
    exact hx he f
  · subst hp
    have heq2 : log ++ [x] = (pre ++ e :: post1) ++ [y] := by
      rw [heq]; simp
    have := List.append_inj' heq2 rfl
    exact h pre e post1 this.1 he f

theorem startedIn_snoc (log : List PairEvent) (x : PairEvent) :
    startedIn (log ++ [x]) = startedIn log ++ (match x with
      | PairEvent.started f => [f]
      | _ => []) := by
  cases x <;> simp [startedIn, List.filterMap_append]

theorem PairInv_init : PairInv PairState.init := by
  refine ⟨fun _ => rfl, fun h => absurd rfl h, ?_, ?_, ?_, ?_, ?_, rfl, ?_, ?_, ?_⟩
  · simp [PairState.init, PairPc.rank]
  · simp [PairState.init, PairPc.rank]
  · simp [PairState.init, PairPc.rank]
  · simp [PairState.init, PairPc.rank]
  · simp [PairState.init, PairPc.rank]
  · intro f; cases f <;> simp [PairState.init, PairState.get]
  · simp [PairState.init]
  · intro pre e post h
    simp [PairState.init] at h

theorem forwarder_owes_eq_zero (p : ForwarderPc) (h : p.owes = 0) : p = ForwarderPc.done := by
  cases p <;> simp [ForwarderPc.owes] at h ⊢

theorem pair_rank_pos_ne_entry (pc : PairPc) (h : ¬ pc.rank ≤ 1) : pc ≠ PairPc.entry := by
  cases pc <;> simp [PairPc.rank] at h ⊢

set_option maxHeartbeats 2000000 in
theorem PairInv_step (s s1 : PairState) (a : PairAction) (h : PairInv s)
    (hs : s.step a = some s1) : PairInv s1 := by
  obtain ⟨pc, wg, cT, cC, rT, rC, log⟩ := s
  obtain ⟨h1, h2, h3, h4, h5, h6, h7, h8, h9, h10, h11⟩ := h
  have g1 := h9 Forwarder.copyToTarget
  have g2 := h9 Forwarder.copyToClient
  have g3 := h9 Forwarder.requestsToTarget
  have g4 := h9 Forwarder.requestsToClient
  clear h9
  simp only [PairState.get, PairState.allDone] at h1 h2 h3 h4 h5 h6 h7 h8 h10 h11 g1 g2 g3 g4
  cases a with
  | pair =>
    cases pc <;>
      simp only [PairState.step, PairState.start, PairState.set, Option.some.injEq,
        PairPc.rank, reduceCtorEq] at hs h1 h2 h3 h4 h5 h6 h7 h8 h10
    all_goals (try split at hs)
    all_goals (try simp only [Option.some.injEq, reduceCtorEq] at hs)
    all_goals subst hs
    all_goals simp at h1 h2 h3 h4 h5 h6 h7 h8 h10
    all_goals refine ⟨?_, ?_, ?_, ?_, ?_, ?_, ?_, ?_, ?_, ?_, ?_⟩
    all_goals simp only [PairState.allDone, PairState.get, PairPc.rank, reduceCtorEq]
    all_goals first
      | (apply closesLate_snoc _ _ h11
         simp only [PairEvent.isClose, reduceCtorEq, false_implies, forall_true_left]
         first
          | done
          | (intro f; cases f <;> simp [*]; done))
      | (simp [ForwarderPc.owes, startedIn_snoc, PairEvent.isClose, *]; done)
      | (simp [ForwarderPc.owes, startedIn_snoc, PairEvent.isClose, *] <;> omega)
      | (intro _; exact h2)
      | (intro _
         exact ⟨forwarder_owes_eq_zero cT (by omega), forwarder_owes_eq_zero cC (by omega),
           forwarder_owes_eq_zero rT (by omega), forwarder_owes_eq_zero rC (by omega)⟩)
      | (intro f hf
         cases f <;> first
          | (cases hf; done)
          | exact g1 hf
          | exact g2 hf
          | exact g3 hf
          | exact g4 hf
          | exact List.mem_append_left _ (g1 hf)
          | exact List.mem_append_left _ (g2 hf)
          | exact List.mem_append_left _ (g3 hf)
          | exact List.mem_append_left _ (g4 hf))
      | (intro e he hc
         first
          | omega
          | (exfalso
             have hx := h10 e he
             rw [hc] at hx
             cases hx)
          | (rcases List.mem_append.mp he with h | h
             · have := h10 e h
               rw [hc] at this
               cases this
             · simp only [List.mem_singleton] at h
               subst h
               cases hc))
  | forwarder f =>
    cases f <;> simp only [PairState.step, PairState.get] at hs
    all_goals split at hs
    all_goals simp only [PairState.set, PairState.finish, Forwarder.copyDst, reduceCtorEq,
        Option.some.injEq] at hs
    all_goals (try split at hs)
    all_goals (try simp only [Option.some.injEq, reduceCtorEq] at hs)
    all_goals subst hs
    all_goals simp only [reduceCtorEq, false_iff] at h3 h4 h5 h6
    all_goals have hne := pair_rank_pos_ne_entry pc (by omega)
    all_goals have hlt : ¬ 6 ≤ pc.rank := fun h6 => by have := h7 h6; simp at this
    all_goals have hwg := h2 hne
    all_goals refine ⟨?_, ?_, ?_, ?_, ?_, ?_, ?_, ?_, ?_, ?_, ?_⟩
    all_goals simp only [PairState.allDone, PairState.get, reduceCtorEq]
    all_goals first
      | exact h4
      | exact h5
      | exact h6
      | exact h3
      | exact h8
      | exact h10
      | exact h11
      | (intro h; exact absurd h hne)
      | (intro h; exact absurd h hlt)
      | (intro _; simp only [ForwarderPc.owes] at hwg ⊢; omega)
      | (simp only [false_iff]; omega)
      | (rw [startedIn_snoc]; simpa using h8)
      | (apply closesLate_snoc _ _ h11; intro hc; cases hc)
      | (intro f hf
         cases f <;> first
          | (cases hf; done)
          | exact g1 hf
          | exact g2 hf
          | exact g3 hf
          | exact g4 hf
          | exact List.mem_append_left _ (g1 hf)
          | exact List.mem_append_left _ (g2 hf)
          | exact List.mem_append_left _ (g3 hf)
          | exact List.mem_append_left _ (g4 hf)
          | exact List.mem_append_right _ (List.mem_singleton.mpr rfl))
      | (intro e he hc
         rcases List.mem_append.mp he with h | h
         · exact h10 e h hc
         · simp only [List.mem_singleton] at h
           subst h
           cases hc)

theorem PairInv_run (sched : List PairAction) (s s1 : PairState) (h : PairInv s)
    (hr : s.run sched = some s1) : PairInv s1 := by
  induction sched generalizing s with
  | nil =>
    simp only [PairState.run, Option.some.injEq] at hr
    exact hr ▸ h
  | cons a rest ih =>
    simp only [PairState.run] at hr
    cases hstep : s.step a with
    | none => rw [hstep] at hr; cases hr
    | some s2 =>
      rw [hstep] at hr
      exact ih s2 (PairInv_step s s2 a h hstep) hr

theorem closedIn_snoc (log : List PairEvent) (x : PairEvent) :
    closedIn (log ++ [x]) = closedIn log ++ (match x with
      | PairEvent.close c => [c]
      | _ => []) := by
  cases x <;> simp [closedIn, List.filterMap_append]

theorem closedIn_step (s s1 : PairState) (a : PairAction)
    (h : closedIn s.log = [Leg.target, Leg.client].take (s.pc.rank - 6))
    (hs : s.step a = some s1) :
    closedIn s1.log = [Leg.target, Leg.client].take (s1.pc.rank - 6) := by
  obtain ⟨pc, wg, cT, cC, rT, rC, log⟩ := s
  cases a with
  | pair =>
    cases pc <;>
      simp only [PairState.step, PairState.start, PairState.set, Option.some.injEq,
        PairPc.rank, reduceCtorEq] at hs h
    all_goals (try split at hs)
    all_goals (try simp only [Option.some.injEq, reduceCtorEq] at hs)
    all_goals subst hs
    all_goals simp [closedIn_snoc, PairPc.rank, h]
  | forwarder f =>
    cases f <;> simp only [PairState.step, PairState.get] at hs
    all_goals split at hs
    all_goals simp only [PairState.set, PairState.finish, Forwarder.copyDst, reduceCtorEq,
        Option.some.injEq] at hs
    all_goals (try split at hs)
    all_goals (try simp only [Option.some.injEq, reduceCtorEq] at hs)
    all_goals subst hs
    all_goals simp [closedIn_snoc, h]

theorem closedIn_run (sched : List PairAction) (s s1 : PairState)
    (h : closedIn s.log = [Leg.target, Leg.client].take (s.pc.rank - 6))
    (hr : s.run sched = some s1) :
    closedIn s1.log = [Leg.target, Leg.client].take (s1.pc.rank - 6) := by
  induction sched generalizing s with
  | nil =>
    simp only [PairState.run, Option.some.injEq] at hr
    exact hr ▸ h
  | cons a rest ih =>
    simp only [PairState.run] at hr
    cases hstep : s.step a with
    | none => rw [hstep] at hr; cases hr
    | some s2 =>
      rw [hstep] at hr
      exact ih s2 (closedIn_step s s2 a h hstep) hr

theorem pair_closes_when_done (s : PairState) (hinv : PairInv s)
    (hc : closedIn s.log = [Leg.target, Leg.client].take (s.pc.rank - 6))
    (hd : s.allDone) :
    ∃ s1, s.run (List.replicate (8 - s.pc.rank) PairAction.pair) = some s1
      ∧ s1.pc = PairPc.finished ∧ closedIn s1.log = [Leg.target, Leg.client] := by
  have h6 := hinv.fourth
  have h2 := hinv.wgCount
  clear hinv
  obtain ⟨pc, wg, cT, cC, rT, rC, log⟩ := s
  obtain ⟨d1, d2, d3, d4⟩ := hd
  simp only at d1 d2 d3 d4 h6 h2 hc
  subst d1 d2 d3 d4
  simp only [reduceCtorEq, false_iff] at h6
  have hwg : wg = 0 := by
    have := h2 (pair_rank_pos_ne_entry pc (by omega))
    simpa [ForwarderPc.owes] using this
  subst hwg
  clear h2
  cases pc <;> simp only [PairPc.rank] at h6 hc
  all_goals first
    | (exfalso; omega)
    | (simp [PairPc.rank, PairState.run, PairState.step, closedIn_snoc,
        List.replicate] at hc ⊢
       try simp [closedIn, List.filterMap_append] at hc ⊢
       first
        | exact hc
        | (rw [hc]; rfl)
        | skip)

/-! ### Goroutines of a session -/

theorem loop_owes_eq_zero (p : LoopPc) (h : p.owes = 0) : p = LoopPc.done := by
  cases p <;> simp [LoopPc.owes] at h ⊢

theorem session_rank_pos_ne_entry (pc : SessionPc) (h : ¬ pc.rank ≤ 1) :
    pc ≠ SessionPc.entry := by
  cases pc <;> simp [SessionPc.rank] at h ⊢

theorem SessionInv_init : SessionInv SessionState.init := by
  refine ⟨fun _ => rfl, fun h => absurd rfl h, ?_, ?_, ?_⟩
  · simp [SessionState.init, SessionPc.rank]
  · simp [SessionState.init, SessionPc.rank]
  · simp [SessionState.init, SessionPc.rank]

theorem SessionInv_step (s s1 : SessionState) (a : SessionAction) (h : SessionInv s)
    (hs : s.step a = some s1) : SessionInv s1 := by
  obtain ⟨pc, wg, rT, rC, chC, chT, pairs⟩ := s
  obtain ⟨h1, h2, h3, h4, h5⟩ := h
  simp only at h1 h2 h3 h4 h5
  cases a with
  | main =>
    cases pc <;> simp only [SessionState.step, Option.some.injEq, reduceCtorEq] at hs
    all_goals (try split at hs)
    all_goals (try simp only [Option.some.injEq, reduceCtorEq] at hs)
    all_goals subst hs
    all_goals simp [SessionPc.rank] at h1 h2 h3 h4 h5
    all_goals refine ⟨?_, ?_, ?_, ?_, ?_⟩
    all_goals simp [LoopPc.owes, SessionPc.rank, *]
    all_goals first
      | exact ⟨loop_owes_eq_zero rT (by omega), loop_owes_eq_zero rC (by omega)⟩
      | (cases rC <;> simp [LoopPc.owes] at h2 h4 ⊢ <;> omega)
      | (cases rT <;> simp [LoopPc.owes] at h2 h3 ⊢ <;> omega)
  | requestLoop src =>
    cases src with
    | client =>
      simp only [SessionState.step, Option.map_eq_some'] at hs
      obtain ⟨r, hr, hs⟩ := hs
      subst hs
      cases rT <;> simp only [stepRequestLoop, Option.some.injEq, reduceCtorEq] at hr
      all_goals (try split at hr)
      all_goals (try simp only [Option.some.injEq, reduceCtorEq] at hr)
      all_goals subst hr
      all_goals simp only [reduceCtorEq, false_iff] at h3
      all_goals have hne := session_rank_pos_ne_entry pc h3
      all_goals have hlt : ¬ 6 ≤ pc.rank := fun h6 => by have := h5 h6; simp at this
      all_goals have hwg := h2 hne
      all_goals refine ⟨fun h => absurd h hne, ?_, ?_, h4, fun h => absurd h hlt⟩
      all_goals simp only [reduceCtorEq, false_iff, LoopPc.owes] at hwg ⊢
      all_goals first
        | exact h3
        | (intro _; omega)
    | target =>
      simp only [SessionState.step, Option.map_eq_some'] at hs
      obtain ⟨r, hr, hs⟩ := hs
      subst hs
      cases rC <;> simp only [stepRequestLoop, Option.some.injEq, reduceCtorEq] at hr
      all_goals (try split at hr)
      all_goals (try simp only [Option.some.injEq, reduceCtorEq] at hr)
      all_goals subst hr
      all_goals simp only [reduceCtorEq, false_iff] at h4
      all_goals have hne := session_rank_pos_ne_entry pc (by omega)
      all_goals have hlt : ¬ 6 ≤ pc.rank := fun h6 => by have := h5 h6; simp at this
      all_goals have hwg := h2 hne
      all_goals refine ⟨fun h => absurd h hne, ?_, h3, ?_, fun h => absurd h hlt⟩
      all_goals simp only [reduceCtorEq, false_iff, LoopPc.owes] at hwg ⊢
      all_goals first
        | exact h4
        | (intro _; omega)
  | newPair src =>
    cases src <;> simp only [SessionState.step] at hs
    all_goals split at hs
    all_goals (try simp only [Option.some.injEq, reduceCtorEq] at hs)
    all_goals subst hs
    all_goals exact ⟨h1, h2, h3, h4, h5⟩
  | channelLoopReturns src =>
    cases src <;> simp only [SessionState.step] at hs
    all_goals split at hs
    all_goals (try simp only [Option.some.injEq, reduceCtorEq] at hs)
    all_goals subst hs
    all_goals exact ⟨h1, h2, h3, h4, h5⟩
  | pair i a =>
    simp only [SessionState.step] at hs
    split at hs
    · cases hs
    · split at hs
      · cases hs
      · simp only [Option.some.injEq] at hs
        subst hs
        exact ⟨h1, h2, h3, h4, h5⟩

theorem SessionInv_run (sched : List SessionAction) (s s1 : SessionState) (h : SessionInv s)
    (hr : s.run sched = some s1) : SessionInv s1 := by
  induction sched generalizing s with
  | nil =>
    simp only [SessionState.run, Option.some.injEq] at hr
    exact hr ▸ h
  | cons a rest ih =>
    simp only [SessionState.run] at hr
    cases hstep : s.step a with
    | none => rw [hstep] at hr; cases hr
    | some s2 =>
      rw [hstep] at hr
      exact ih s2 (SessionInv_step s s2 a h hstep) hr

/-! ### The loop of `io.Copy` -/

theorem ioCopy_writes_flatten (turns : List CopyTurn) :
    (ioCopy turns).writes.flatten = (ioCopy turns).bytesRead := by
  induction turns with
  | nil => rfl
  | cons t rest ih =>
    rw [ioCopy]
    dsimp only
    repeat' split
    all_goals first
      | rfl
      | exact ih
      | (simp [ih]; done)

theorem ioCopy_delivered_prefix (turns : List CopyTurn) :
    (ioCopy turns).delivered <+: (ioCopy turns).bytesRead := by
  induction turns with
  | nil => exact List.prefix_refl _
  | cons t rest ih =>
    rw [ioCopy]
    dsimp only
    repeat' split
    all_goals first
      | exact List.prefix_refl _
      | exact ih
      | exact List.take_prefix _ _
      | (rename_i hlen _ _
         simp only [ne_eq, Decidable.not_not] at hlen
         rw [← hlen, List.take_length]
         exact (List.prefix_append_right_inj _).mpr ih)

theorem ioCopy_delivered_all (turns : List CopyTurn)
    (h : ∀ t ∈ turns, t.writeErr = none ∧ t.nw = t.data.length) :
    (ioCopy turns).delivered = (ioCopy turns).bytesRead := by
  induction turns with
  | nil => rfl
  | cons t rest ih =>
    have ht := h t (List.mem_cons_self _ _)
    have ih1 := ih (fun x hx => h x (List.mem_cons_of_mem _ hx))
    rw [ioCopy]
    simp only [ht.1, ht.2, lt_irrefl, if_false, List.take_length, ne_eq, not_true_eq_false]
    repeat' split
    all_goals first
      | rfl
      | exact ih1
      | (simp [ih1]; done)

theorem copyForwarder_eq (turns : List CopyTurn) :
    copyForwarder turns = (ioCopy turns).writes.map ChanCall.write
      ++ (if (ioCopy turns).returned.isSome then [ChanCall.closeWrite] else []) := by
  unfold copyForwarder
  cases (ioCopy turns).returned <;> simp

/-! ### Start-up and the accept loop -/

theorem acceptLoop_append (pre rest : List AcceptResult)
    (h : ∀ x ∈ pre, x.endsLoop = false) :
    acceptLoop (pre ++ rest) = (acceptEvents pre ++ (acceptLoop rest).1, (acceptLoop rest).2) := by
  induction pre with
  | nil => simp [acceptEvents]
  | cons a pre ih =>
    have ih1 := ih (fun x hx => h x (List.mem_cons_of_mem _ hx))
    have ha := h a (List.mem_cons_self _ _)
    cases a with
    | conn c =>
      simp only [List.cons_append, acceptLoop]
      simp [acceptEvents, ih1]
    | fail err cancelled =>
      simp only [AcceptResult.endsLoop] at ha
      subst ha
      simp only [List.cons_append, acceptLoop]
      simp [acceptEvents, ih1]

theorem acceptLoop_no_error (accepts : List AcceptResult) (e : String) :
    (acceptLoop accepts).2 ≠ some (some e) := by
  induction accepts with
  | nil => simp [acceptLoop]
  | cons a rest ih =>
    cases a with
    | conn c => simpa [acceptLoop] using ih
    | fail err cancelled =>
      cases cancelled
      · simpa [acceptLoop] using ih
      · simp [acceptLoop]

theorem ListenAndServe_error_iff (s : Server) (bind : String → Option String)
    (accepts : List AcceptResult) :
    (∃ e, (ListenAndServe s bind accepts).2 = some (some e)) ↔ bind s.config.ListenAddr ≠ none := by
  unfold ListenAndServe
  cases hb : bind s.config.ListenAddr with
  | some err => simp
  | none =>
    simp only [ne_eq, not_true_eq_false, iff_false, not_exists]
    intro e
    exact acceptLoop_no_error accepts e

theorem GetSSHKeyByFingerprint_execFault (env : Env) (fault : Option String)
    (fingerprint : String) :
    (GetSSHKeyByFingerprint { env with execFault := fault } fingerprint).1
      = (GetSSHKeyByFingerprint env fingerprint).1 := by
  unfold GetSSHKeyByFingerprint
  cases hq : env.queryFault with
  | some e => simp [hq]
  | none =>
    simp only [hq]
    cases env.ssh_keys.find? (fun k => k.Fingerprint == fingerprint) <;> rfl

/-! ### Sessions: lookup, dial and outbound handshake -/

theorem GetWorkspace_ok (env : Env) (cancelled : Bool) (name : String) (ws : Workspace)
    (h : (GetWorkspace env cancelled name).1 = .ok ws) :
    cancelled = false ∧ ∃ pod ∈ env.pods, pod.Name = "ws-" ++ name
      ∧ ws = podToWorkspace env.now pod := by
  unfold GetWorkspace at h
  cases cancelled with
  | true => simp at h
  | false =>
    refine ⟨rfl, ?_⟩
    cases ha : env.apiFault with
    | some e => simp [ha] at h
    | none =>
      cases hp : env.pods.find? (fun p => p.Name == "ws-" ++ name) with
      | none => simp [ha, hp] at h
      | some pod =>
        simp only [ha, hp, Bool.false_eq_true, if_false, Except.ok.injEq] at h
        refine ⟨pod, List.mem_of_find?_eq_some hp, ?_, h.symm⟩
        have := List.find?_some hp
        simpa using this

theorem GetWorkspace_cancelled (env : Env) (name : String) :
    (GetWorkspace env true name).1 = .error "context canceled" := by
  simp [GetWorkspace]

theorem isAuth_not_backend (x : Event) (h : x.isAuth = true) :
    x.isHandshake = false ∧ x.isDial = false ∧ x.isForward = false
      ∧ ∀ name found, x ≠ Event.getWorkspace name found := by
  cases x <;> simp [Event.isAuth] at h <;> exact ⟨rfl, rfl, rfl, fun _ _ h => by cases h⟩

theorem NewServer_hostKeys (parse : List Nat → Except String Signer) (dirOf : String → String)
    (derive : List Nat → List Nat) (joinPath : List String → String) (sql : SqlDriver)
    (kube : KubeEnv) (w w1 : World) (config : Config) (server : Server)
    (h : NewServer parse dirOf derive joinPath sql kube w config = (.ok server, w1)) :
    server.sshConfig.hostKeys = [server.hostSigner]
      ∧ (loadOrGenerateHostKey parse dirOf derive w config.HostKeyPath).1
        = .ok server.hostSigner := by
  simp only [NewServer] at h
  split at h
  · cases h
  · rename_i hostKey w2 hl
    split at h
    · cases h
    · split at h
      · cases h
      · simp only [Prod.mk.injEq, Except.ok.injEq] at h
        rw [← h.1, hl]
        exact ⟨rfl, rfl⟩

/-! ### Request streams -/

theorem proxyRequests_answered_append (stream : List (Request × Bool × List Nat))
    (rest : List (Arrival (Bool × List Nat))) :
    proxyRequests (answered stream ++ rest)
      = (relayed stream ++ (proxyRequests rest).1, (proxyRequests rest).2) := by
  induction stream with
  | nil => simp [answered, relayed]
  | cons p ps ih =>
    obtain ⟨req, ok, payload⟩ := p
    simp only [answered, List.map_cons, List.cons_append] at ih ⊢
    rw [proxyRequests_cons_ok, ih]
    simp [relayed]

theorem proxyChannelRequests_answered_append (stream : List (Request × Bool))
    (rest : List (Arrival Bool)) :
    proxyChannelRequests (channelAnswered stream ++ rest)
      = (channelRelayed stream ++ (proxyChannelRequests rest).1,
          (proxyChannelRequests rest).2) := by
  induction stream with
  | nil => simp [channelAnswered, channelRelayed]
  | cons p ps ih =>
    obtain ⟨req, ok⟩ := p
    simp only [channelAnswered, List.map_cons, List.cons_append] at ih ⊢
    rw [proxyChannelRequests_cons_ok, ih]
    simp [channelRelayed]

theorem proxyRequests_closed_iff (arrivals : List (Arrival (Bool × List Nat))) :
    (proxyRequests arrivals).2 = LoopEnd.streamClosed ↔ ∀ a ∈ arrivals, a.forwards = true := by
  induction arrivals with
  | nil => simp [proxyRequests]
  | cons a rest ih =>
    obtain ⟨req, answer⟩ := a
    cases req with
    | none => simp [proxyRequests, Arrival.forwards]
    | some r =>
      cases answer with
      | error e => simp [proxyRequests, Arrival.forwards]
      | ok v =>
        obtain ⟨ok, payload⟩ := v
        rw [proxyRequests_cons_ok]
        simp [Arrival.forwards, ih]

theorem proxyChannelRequests_closed_iff (arrivals : List (Arrival Bool)) :
    (proxyChannelRequests arrivals).2 = LoopEnd.streamClosed
      ↔ ∀ a ∈ arrivals, a.forwards = true := by
  induction arrivals with
  | nil => simp [proxyChannelRequests]
  | cons a rest ih =>
    obtain ⟨req, answer⟩ := a
    cases req with
    | none => simp [proxyChannelRequests, Arrival.forwards]
    | some r =>
      cases answer with
      | error e => simp [proxyChannelRequests, Arrival.forwards]
      | ok v =>
        rw [proxyChannelRequests_cons_ok]
        simp [Arrival.forwards, ih]

/-! ### Workspace names -/

theorem utf8EncodeChar_pos (c : Char) : 1 ≤ (utf8EncodeChar c).length := by
  unfold utf8EncodeChar
  dsimp only
  split
  · simp
  · split
    · simp
    · split <;> simp

theorem utf8EncodeChar_ascii (c : Char) (h : c.toNat < 128) :
    (utf8EncodeChar c).length = 1 := by
  unfold utf8EncodeChar
  simp [h]

theorem dash_toNat : '-'.toNat = 45 := by decide

theorem nameChar_ascii (c : Char) (h : isLowerLetter c = true ∨ isDigit c = true ∨ c = '-') :
    c.toNat < 128 := by
  have ha : 'a'.toNat = 97 := by decide
  have hz : 'z'.toNat = 122 := by decide
  have h0 : '0'.toNat = 48 := by decide
  have h9 : '9'.toNat = 57 := by decide
  rcases h with h | h | h
  · simp only [isLowerLetter, Bool.and_eq_true, decide_eq_true_eq, ha, hz] at h
    omega
  · simp only [isDigit, Bool.and_eq_true, decide_eq_true_eq, h0, h9] at h
    omega
  · rw [h, dash_toNat]
    decide

theorem dash_not_alnum : isLowerLetter '-' = false ∧ isDigit '-' = false := by decide

/-- The loop over the runes from byte offset `i` on, when `n` is the byte length
of the whole name: it accepts exactly when every rune is allowed, the rune at
offset 0 is not a dash and the last rune is not a dash. -/
theorem validNameLoop_iff (n : Nat) : ∀ (cs : List Char) (i : Nat),
    i + (cs.flatMap utf8EncodeChar).length = n →
    (validNameLoop n (rangeString i cs) = true
      ↔ ((∀ c ∈ cs, isLowerLetter c = true ∨ isDigit c = true ∨ c = '-')
        ∧ (i = 0 → cs.head? ≠ some '-') ∧ cs.getLast? ≠ some '-'))
  | [], i, _ => by simp [rangeString, validNameLoop]
  | c :: cs, i, hn => by
    have hpos := utf8EncodeChar_pos c
    have hlen : ((c :: cs).flatMap utf8EncodeChar).length
        = (utf8EncodeChar c).length + (cs.flatMap utf8EncodeChar).length := by
      simp [List.flatMap_cons]
    rw [hlen] at hn
    have ih := validNameLoop_iff n cs (i + (utf8EncodeChar c).length) (by omega)
    have hlast : (c :: cs).getLast? = if cs = [] then some c else cs.getLast? := by
      cases cs with
      | nil => rfl
      | cons d ds => simp [List.getLast?_cons_cons]
    have hne : i + (utf8EncodeChar c).length ≠ 0 := by omega
    have hempty : (cs.flatMap utf8EncodeChar).length = 0 ↔ cs = [] := by
      cases cs with
      | nil => simp
      | cons d ds =>
        have := utf8EncodeChar_pos d
        constructor
        · intro h
          rw [List.flatMap_cons, List.length_append] at h
          omega
        · intro h
          cases h
    simp only [rangeString, validNameLoop, List.mem_cons, forall_eq_or_imp, List.head?_cons,
      hlast]
    by_cases hl : isLowerLetter c = true
    · have hd : c ≠ '-' := fun h => by rw [h, dash_not_alnum.1] at hl; cases hl
      simp only [hl, if_true, ih, true_or, true_and]
      constructor
      · rintro ⟨h1, _, h3⟩
        refine ⟨h1, fun _ h => hd (Option.some.inj h), ?_⟩
        split
        · exact fun h => hd (Option.some.inj h)
        · exact h3
      · rintro ⟨h1, _, h3⟩
        refine ⟨h1, fun h => absurd h hne, ?_⟩
        by_cases hc : cs = []
        · subst hc; simp
        · simpa [hc] using h3
    · by_cases hg : isDigit c = true
      · have hd : c ≠ '-' := fun h => by rw [h, dash_not_alnum.2] at hg; cases hg
        simp only [hl, hg, if_true, ih, true_or, or_true, true_and, Bool.false_eq_true,
          if_false]
        constructor
        · rintro ⟨h1, _, h3⟩
          refine ⟨h1, fun _ h => hd (Option.some.inj h), ?_⟩
          split
          · exact fun h => hd (Option.some.inj h)
          · exact h3
        · rintro ⟨h1, _, h3⟩
          refine ⟨h1, fun h => absurd h hne, ?_⟩
          by_cases hc : cs = []
          · subst hc; simp
          · simpa [hc] using h3
      · simp only [hl, hg, Bool.false_eq_true, if_false, false_or]
        by_cases hd : c = '-'
        · subst hd
          have h1 : (utf8EncodeChar '-').length = 1 := by decide
          simp only [h1] at hn ih hne ⊢
          by_cases hok : i > 0 ∧ i < n - 1
          · have hcs : cs ≠ [] := fun h => by
              have := hempty.mpr h
              omega
            simp only [hok, and_self, if_true, ih, true_and, hcs, if_false, or_true]
            constructor
            · rintro ⟨h2, _, h3⟩
              exact ⟨h2, fun h => by omega, h3⟩
            · rintro ⟨h2, _, h3⟩
              exact ⟨h2, fun h => absurd h (by omega), h3⟩
          · simp only [hok, and_false, if_false, Bool.false_eq_true, true_and, false_iff,
              not_and, or_true]
            intro h2 h3
            by_cases hc : cs = []
            · simp [hc]
            · exfalso
              apply hok
              have hi : i ≠ 0 := fun h => h3 h rfl
              have : (cs.flatMap utf8EncodeChar).length ≠ 0 := fun h => hc (hempty.mp h)
              omega
        · simp [hd]

/-! ### Repository URLs -/

theorem TrimPrefix_toList (s p : String) :
    (TrimPrefix s p).toList
      = if p.toList.isPrefixOf s.toList then s.toList.drop p.length else s.toList := by
  unfold TrimPrefix HasPrefix
  split <;> rfl

theorem addSchemeAndSuffix_cases (l : List Char) :
    ∃ m, (m = l ∨ m = "https://".toList ++ l) ∧ "https://".toList <+: m
      ∧ ("https://".toList.isPrefixOf l = true → m = l)
      ∧ ("https://".toList.isPrefixOf l = false → m = "https://".toList ++ l)
      ∧ ((addSchemeAndSuffix l = m ∧ ".git".toList.isSuffixOf m = true)
        ∨ (addSchemeAndSuffix l = m ++ ".git".toList ∧ ".git".toList.isSuffixOf m = false)) := by
  unfold addSchemeAndSuffix
  simp only []
  by_cases hb : "https://".toList.isPrefixOf l = true
  · refine ⟨l, Or.inl rfl, List.isPrefixOf_iff_prefix.mp hb, fun _ => rfl,
      fun h => (by rw [h] at hb; cases hb), ?_⟩
    simp only [hb, Bool.not_true, Bool.false_eq_true, if_false]
    by_cases hc : ".git".toList.isSuffixOf l = true
    · exact Or.inl ⟨by simp only [hc, Bool.not_true, Bool.false_eq_true, if_false], hc⟩
    · have hc1 : ".git".toList.isSuffixOf l = false :=
        Bool.eq_false_iff.mpr hc
      exact Or.inr ⟨by simp only [hc1, Bool.not_false, if_true], hc1⟩
  · have hb1 : "https://".toList.isPrefixOf l = false :=
        Bool.eq_false_iff.mpr hb
    refine ⟨"https://".toList ++ l, Or.inr rfl, List.prefix_append _ _,
      fun h => (by rw [h] at hb1; cases hb1), fun _ => rfl, ?_⟩
    simp only [hb1, Bool.not_false, if_true]
    by_cases hc : ".git".toList.isSuffixOf ("https://".toList ++ l) = true
    · exact Or.inl ⟨by simp only [hc, Bool.not_true, Bool.false_eq_true, if_false], hc⟩
    · have hc1 : ".git".toList.isSuffixOf ("https://".toList ++ l) = false :=
        Bool.eq_false_iff.mpr hc
      exact Or.inr ⟨by simp only [hc1, Bool.not_false, if_true], hc1⟩

theorem normalizeGitHubURL_toList (url : String) :
    (normalizeGitHubURL url).toList = normalizeChars url.toList := by
  have h8 : "https://".length = 8 := by decide
  have h7 : "http://".length = 7 := by decide
  have e1 := TrimPrefix_toList url "https://"
  have e2 := TrimPrefix_toList (TrimPrefix url "https://") "http://"
  rw [e1, h8, h7] at e2
  have e3 : normalizeChars url.toList
      = addSchemeAndSuffix (TrimPrefix (TrimPrefix url "https://") "http://").toList := by
    rw [e2]
    rfl
  rw [e3]
  unfold normalizeGitHubURL
  simp only []
  generalize TrimPrefix (TrimPrefix url "https://") "http://" = t
  have ha : ∀ a b : String, (a ++ b).toList = a.toList ++ b.toList := fun a b => by
    simp [String.toList, String.data_append]
  unfold addSchemeAndSuffix
  simp only [HasPrefix, HasSuffix]
  by_cases hb : "https://".toList.isPrefixOf t.toList = true
  · simp only [hb, Bool.not_true, Bool.false_eq_true, if_false]
    by_cases hc : ".git".toList.isSuffixOf t.toList = true
    · simp only [hc, Bool.not_true, Bool.false_eq_true, if_false]
    · have hc1 : ".git".toList.isSuffixOf t.toList = false :=
        Bool.eq_false_iff.mpr hc
      simp only [hc1, Bool.not_false, if_true, ha]
  · have hb1 : "https://".toList.isPrefixOf t.toList = false :=
        Bool.eq_false_iff.mpr hb
    simp only [hb1, Bool.not_false, if_true, ha]
    by_cases hc : ".git".toList.isSuffixOf ("https://".toList ++ t.toList) = true
    · simp only [hc, Bool.not_true, Bool.false_eq_true, if_false, ha]
    · have hc1 : ".git".toList.isSuffixOf ("https://".toList ++ t.toList) = false :=
        Bool.eq_false_iff.mpr hc
      simp only [hc1, Bool.not_false, if_true, ha]

theorem String_eq_of_toList (a b : String) (h : a.toList = b.toList) : a = b := by
  cases a; cases b; simp only [String.toList] at h; rw [h]

theorem addSchemeAndSuffix_scheme (l : List Char) :
    "https://".toList <+: addSchemeAndSuffix l := by
  obtain ⟨m, _, hm, _, _, h | h⟩ := addSchemeAndSuffix_cases l
  · rw [h.1]; exact hm
  · rw [h.1]; exact hm.trans (List.prefix_append _ _)

theorem addSchemeAndSuffix_suffix (l : List Char) :
    ".git".toList <:+ addSchemeAndSuffix l := by
  obtain ⟨m, _, hm, _, _, h | h⟩ := addSchemeAndSuffix_cases l
  · rw [h.1]; exact List.isSuffixOf_iff_suffix.mp h.2
  · rw [h.1]; exact List.suffix_append _ _

theorem addSchemeAndSuffix_length (l : List Char) :
    (addSchemeAndSuffix l).length ≤ l.length + 12 := by
  have h8 : "https://".toList.length = 8 := by decide
  have h4 : ".git".toList.length = 4 := by decide
  obtain ⟨m, hm | hm, _, _, _, h | h⟩ := addSchemeAndSuffix_cases l
  all_goals rw [h.1, hm]
  all_goals (try simp only [List.length_append, h8, h4])
  all_goals omega

/-- A text that carries the scheme and the suffix is a fixed point exactly when
what follows its scheme starts with no scheme of its own. -/
theorem normalizeChars_fixed (rest : List Char)
    (hs : ".git".toList <:+ "https://".toList ++ rest) :
    normalizeChars ("https://".toList ++ rest) = "https://".toList ++ rest
      ↔ ("http://".toList.isPrefixOf rest = false
          ∧ "https://".toList.isPrefixOf rest = false) := by
  have h8 : "https://".toList.length = 8 := by decide
  have h7 : "http://".toList.length = 7 := by decide
  have h4 : ".git".toList.length = 4 := by decide
  have hp : "https://".toList.isPrefixOf ("https://".toList ++ rest) = true :=
    List.isPrefixOf_iff_prefix.mpr (List.prefix_append _ _)
  have hd : ("https://".toList ++ rest).drop 8 = rest := by
    rw [← h8, List.drop_left]
  unfold normalizeChars
  simp only [hp, if_true, hd]
  by_cases h1 : "http://".toList.isPrefixOf rest = true
  · simp only [h1, if_true, reduceCtorEq, false_and, iff_false]
    intro h
    have hl := congrArg List.length h
    have hb := addSchemeAndSuffix_length (rest.drop 7)
    have hw : 7 ≤ rest.length := by
      have := (List.isPrefixOf_iff_prefix.mp h1).length_le
      rwa [h7] at this
    simp only [List.length_append, h8, List.length_drop] at hl hb
    omega
  · have h1f : "http://".toList.isPrefixOf rest = false :=
        Bool.eq_false_iff.mpr h1
    simp only [h1f, Bool.false_eq_true, if_false, true_and]
    obtain ⟨m, _, _, hyes, hno, hcase⟩ := addSchemeAndSuffix_cases rest
    by_cases h2 : "https://".toList.isPrefixOf rest = true
    · simp only [h2, reduceCtorEq, iff_false]
      intro h
      have hl := congrArg List.length h
      have hm := hyes h2
      subst hm
      rcases hcase with hc | hc
      all_goals rw [hc.1] at hl
      all_goals simp only [List.length_append, h8, h4] at hl
      all_goals omega
    · have h2f : "https://".toList.isPrefixOf rest = false :=
        Bool.eq_false_iff.mpr h2
      simp only [h2f, iff_true]
      have hm := hno h2f
      subst hm
      rcases hcase with hc | hc
      · exact hc.1
      · have := List.isSuffixOf_iff_suffix.mpr hs
        rw [hc.2] at this
        cases this

theorem scheme_not_gained (p t : List Char) (hdot : '.' ∉ p)
    (ht : p.isPrefixOf t = false) : p.isPrefixOf (t ++ ".git".toList) = false := by
  apply Bool.eq_false_iff.mpr
  intro h
  have hp : p <+: t ++ ".git".toList := List.isPrefixOf_iff_prefix.mp h
  have hnt : ¬ p <+: t := fun h1 => by
    rw [List.isPrefixOf_iff_prefix.mpr h1] at ht
    cases ht
  by_cases hlen : p.length ≤ t.length
  · exact hnt (List.prefix_of_prefix_length_le hp (List.prefix_append _ _) hlen)
  · have htp : t <+: p :=
      List.prefix_of_prefix_length_le (List.prefix_append _ _) hp (by omega)
    obtain ⟨s, hs⟩ := htp
    subst hs
    have hsg : s <+: ".git".toList := (List.prefix_append_right_inj t).mp hp
    cases s with
    | nil => simp at hlen
    | cons c cs =>
      obtain ⟨r, hr⟩ := hsg
      have hc : c = '.' := by
        have := congrArg List.head? hr
        simpa using this
      subst hc
      exact hdot (by simp)

theorem normalizeChars_single_scheme (t : List Char)
    (h1 : "http://".toList.isPrefixOf t = false) (h2 : "https://".toList.isPrefixOf t = false) :
    normalizeChars t = addSchemeAndSuffix t
      ∧ normalizeChars ("http://".toList ++ t) = addSchemeAndSuffix t
      ∧ normalizeChars ("https://".toList ++ t) = addSchemeAndSuffix t
      ∧ normalizeChars (addSchemeAndSuffix t) = addSchemeAndSuffix t := by
  have h8 : "https://".toList.length = 8 := by decide
  have h7 : "http://".toList.length = 7 := by decide
  have hpp : "http://".toList.isPrefixOf ("http://".toList ++ t) = true :=
    List.isPrefixOf_iff_prefix.mpr (List.prefix_append _ _)
  have hhh : "https://".toList.isPrefixOf ("https://".toList ++ t) = true :=
    List.isPrefixOf_iff_prefix.mpr (List.prefix_append _ _)
  have hhp : "https://".toList.isPrefixOf ("http://".toList ++ t) = false := by
    simp [String.toList, List.isPrefixOf]
  have hd7 : ("http://".toList ++ t).drop 7 = t := by rw [← h7, List.drop_left]
  have hd8 : ("https://".toList ++ t).drop 8 = t := by rw [← h8, List.drop_left]
  refine ⟨?_, ?_, ?_, ?_⟩
  · simp only [normalizeChars, h1, h2, Bool.false_eq_true, if_false]
  · simp only [normalizeChars, hhp, hpp, hd7, Bool.false_eq_true, if_false, if_true]
  · simp only [normalizeChars, hhh, hd8, h1, Bool.false_eq_true, if_false, if_true]
  · obtain ⟨m, _, _, _, hno, hcase⟩ := addSchemeAndSuffix_cases t
    have hm := hno h2
    subst hm
    have hsuf := addSchemeAndSuffix_suffix t
    rcases hcase with hc | hc
    · rw [hc.1] at hsuf ⊢
      exact (normalizeChars_fixed t hsuf).mpr ⟨h1, h2⟩
    · rw [hc.1, List.append_assoc] at hsuf ⊢
      exact (normalizeChars_fixed _ hsuf).mpr
        ⟨scheme_not_gained _ t (by decide) h1, scheme_not_gained _ t (by decide) h2⟩

/-! # The claims -/

/-! ## Authentication -/

/-- C1: for every offered public key whose SHA-256 fingerprint has no credential
in the store, that is, whenever the lookup `GetSSHKeyByFingerprint` returns an
error (a store fault or "no rows": both make it return one), `publicKeyCallback`
returns an error and no permissions, and makes no call that mutates the store:
`UpdateSSHKeyLastUsed` is not called, and nothing but the trace (two log lines
and the lookup) differs afterwards. -/
theorem publicKeyCallback_rejects_unknown_key (fp : List Nat → String) (env : Env)
    (user : String) (key : List Nat) (e : String)
    (h : (GetSSHKeyByFingerprint env (fp key)).1 = .error e) :
    (publicKeyCallback fp env user key).1 = (none, some "unknown public key")
      ∧ updateCalls (publicKeyCallback fp env user key).2.trace = updateCalls env.trace
      ∧ (∀ id ok, Event.updateSSHKeyLastUsed id ok ∉
          (publicKeyCallback fp env user key).2.trace.drop env.trace.length)
      ∧ (publicKeyCallback fp env user key).2.ssh_keys = env.ssh_keys
      ∧ { (publicKeyCallback fp env user key).2 with trace := env.trace } = env
      ∧ (∀ fault, env.queryFault = some fault →
          (GetSSHKeyByFingerprint env (fp key)).1 = .error fault)
      ∧ (env.queryFault = none → (∀ k ∈ env.ssh_keys, k.Fingerprint ≠ fp key) →
          (GetSSHKeyByFingerprint env (fp key)).1 = .error "sql: no rows in result set") := by
  rw [publicKeyCallback_error fp env user key e h]
  refine ⟨rfl, ?_, ?_, rfl, rfl, ?_, ?_⟩
  · simp [updateCalls_append, updateCalls]
  · intro id ok
    simp
  · intro fault hq
    simp [GetSSHKeyByFingerprint, hq]
  · intro hq hno
    have hfind : env.ssh_keys.find? (fun k => k.Fingerprint == fp key) = none := by
      rw [List.find?_eq_none]
      intro k hk
      simpa using hno k hk
    simp [GetSSHKeyByFingerprint, hq, hfind]

theorem publicKeyCallback_rejects_unknown_key_witness :
    (GetSSHKeyByFingerprint sampleEnv (sampleFingerprint [7])).1
        = .error "sql: no rows in result set"
      ∧ (publicKeyCallback sampleFingerprint sampleEnv "alpha" [7]).1
        = (none, some "unknown public key") :=
  ⟨by decide,
    (publicKeyCallback_rejects_unknown_key sampleFingerprint sampleEnv "alpha" [7]
      "sql: no rows in result set" (by decide)).1⟩

/-- C2: for every credential stored with fingerprint `f`, that is, every
credential the lookup `GetSSHKeyByFingerprint f` returns (it returns each stored
credential when the store answers the query and keeps fingerprints unique, as
its schema requires), and every public key whose SHA-256 fingerprint is `f`, one
invocation of `publicKeyCallback` succeeds (permissions, no error) and makes
exactly one `UpdateSSHKeyLastUsed` call, whose argument is that credential's ID;
and in every invocation whatever, `UpdateSSHKeyLastUsed` is called only if the
invocation succeeds. -/
theorem publicKeyCallback_accepts_stored_key (fp : List Nat → String) (env : Env)
    (user : String) (key : List Nat) (cred : SSHKey)
    (hfound : (GetSSHKeyByFingerprint env (fp key)).1 = .ok cred) :
    (∃ perms, (publicKeyCallback fp env user key).1 = (some perms, none))
      ∧ updateCalls ((publicKeyCallback fp env user key).2.trace.drop env.trace.length)
          = [cred.ID]
      ∧ updateCalls (publicKeyCallback fp env user key).2.trace
          = updateCalls env.trace ++ [cred.ID]
      ∧ cred.Fingerprint = fp key
      ∧ (env.queryFault = none →
          env.ssh_keys.Pairwise (fun a b => a.Fingerprint ≠ b.Fingerprint) →
          ∀ stored ∈ env.ssh_keys, stored.Fingerprint = fp key →
            (GetSSHKeyByFingerprint env (fp key)).1 = .ok stored)
      ∧ (∀ (env1 : Env) (user1 : String) (key1 : List Nat),
          updateCalls ((publicKeyCallback fp env1 user1 key1).2.trace.drop env1.trace.length)
              ≠ [] →
          ∃ perms, (publicKeyCallback fp env1 user1 key1).1 = (some perms, none)) := by
  obtain ⟨hres, ok, htr⟩ := publicKeyCallback_ok fp env user key cred hfound
  refine ⟨⟨_, hres⟩, ?_, ?_, ?_, ?_, ?_⟩
  · rw [htr, List.drop_left]
    rfl
  · rw [htr, updateCalls_append]
    rfl
  · exact GetSSHKeyByFingerprint_fingerprint env (fp key) cred hfound
  · intro hq huniq stored hstored hfp
    rw [← hfp]
    exact GetSSHKeyByFingerprint_stored env stored hq hstored huniq
  · intro env1 user1 key1 hcall
    cases hl1 : (GetSSHKeyByFingerprint env1 (fp key1)).1 with
    | error e =>
      rw [publicKeyCallback_error fp env1 user1 key1 e hl1] at hcall
      simp [updateCalls] at hcall
    | ok k => exact ⟨_, (publicKeyCallback_ok fp env1 user1 key1 k hl1).1⟩

theorem publicKeyCallback_accepts_stored_key_witness :
    (GetSSHKeyByFingerprint sampleEnv (sampleFingerprint [1, 2])).1 = .ok sampleCredential
      ∧ updateCalls (publicKeyCallback sampleFingerprint sampleEnv "alpha" [1, 2]).2.trace
          = updateCalls sampleEnv.trace ++ [sampleCredential.ID] :=
  ⟨by decide,
    (publicKeyCallback_accepts_stored_key sampleFingerprint sampleEnv "alpha" [1, 2]
      sampleCredential (by decide)).2.2.1⟩

/-! ## Session set-up -/

/-- C3: in every run of `handleConnection`, a forwarding function is started only
after, in this order, the inbound handshake has succeeded, the workspace lookup
has returned a workspace with status `Running` and a non-empty PodIP, the TCP
dial to the backend has succeeded and the outbound handshake has succeeded: when
the session's events contain the start of a forwarder, they are the
authentication events followed by these four successes and only then the four
forwarder starts. If any of the four fails, no forwarding function is started. -/
theorem relaying_only_after_setup (fp : List Nat → String) (s : Server) (cancelled : Bool)
    (env : Env) (client : Client) :
    ((∃ x ∈ sessionEvents fp s cancelled env client, x.isForward = true) →
      ∃ auth c ws m1 m2, (∀ x ∈ auth, x.isAuth = true ∧ x.isForward = false)
        ∧ (NewServerConn fp env client).1 = .ok c
        ∧ (GetWorkspace env cancelled client.user).1 = .ok ws
        ∧ ws.Status = "Running" ∧ ws.PodIP ≠ ""
        ∧ ws.PodIP ++ ":22" ∉ env.dialFault ∧ ws.PodIP ++ ":22" ∉ env.sshFault
        ∧ sessionEvents fp s cancelled env client
          = auth ++ [Event.newServerConn true, Event.log m1,
              Event.getWorkspace client.user (some ws),
              Event.dial "tcp" (ws.PodIP ++ ":22") true,
              Event.newClientConn (ws.PodIP ++ ":22") "dev" s.hostSigner true]
            ++ [Event.goProxyRequests Leg.client Leg.target,
              Event.goProxyRequests Leg.target Leg.client,
              Event.goProxyChannels Leg.client Leg.target,
              Event.goProxyChannels Leg.target Leg.client,
              Event.wait, Event.log m2,
              Event.close Conn.targetSSHConn, Event.close Conn.targetConn,
              Event.close Conn.sshConn, Event.close Conn.netConn])
      ∧ (((∃ e, (NewServerConn fp env client).1 = .error e)
          ∨ (∃ e, (GetWorkspace env cancelled client.user).1 = .error e)
          ∨ (∃ ws, (GetWorkspace env cancelled client.user).1 = .ok ws
              ∧ (ws.Status ≠ "Running" ∨ ws.PodIP = "" ∨ ws.PodIP ++ ":22" ∈ env.dialFault
                ∨ ws.PodIP ++ ":22" ∈ env.sshFault))) →
        ∀ x ∈ sessionEvents fp s cancelled env client, x.isForward = false) := by
  obtain ⟨auth, hauth, hshape⟩ := handleConnection_shape fp s cancelled env client
  have hnf : ∀ x ∈ auth, x.isForward = false := fun x hx => (isAuth_not_other x (hauth x hx)).1
  have key : (∃ x ∈ sessionEvents fp s cancelled env client, x.isForward = true) →
      ∃ c ws m1 m2, (NewServerConn fp env client).1 = .ok c
        ∧ (GetWorkspace env cancelled client.user).1 = .ok ws
        ∧ ws.Status = "Running" ∧ ws.PodIP ≠ ""
        ∧ ws.PodIP ++ ":22" ∉ env.dialFault ∧ ws.PodIP ++ ":22" ∉ env.sshFault
        ∧ sessionEvents fp s cancelled env client
          = auth ++ [Event.newServerConn true, Event.log m1,
              Event.getWorkspace client.user (some ws),
              Event.dial "tcp" (ws.PodIP ++ ":22") true,
              Event.newClientConn (ws.PodIP ++ ":22") "dev" s.hostSigner true]
            ++ [Event.goProxyRequests Leg.client Leg.target,
              Event.goProxyRequests Leg.target Leg.client,
              Event.goProxyChannels Leg.client Leg.target,
              Event.goProxyChannels Leg.target Leg.client,
              Event.wait, Event.log m2,
              Event.close Conn.targetSSHConn, Event.close Conn.targetConn,
              Event.close Conn.sshConn, Event.close Conn.netConn] := by
    rintro ⟨x, hx, hfw⟩
    rcases hshape with ⟨e, m, _, hS⟩ | ⟨⟨c, hc⟩, hrest⟩
    · exfalso
      rw [hS, List.mem_append] at hx
      rcases hx with hx | hx
      · rw [hnf x hx] at hfw; cases hfw
      · simp only [List.mem_cons, List.mem_singleton, List.not_mem_nil, or_false] at hx
        rcases hx with rfl | rfl | rfl <;> cases hfw
    · rcases hrest with ⟨e, m1, m2, _, hS⟩ | ⟨ws, m1, m2, _, _, hS⟩ | ⟨ws, m1, m2, _, _, _, _, hS⟩
        | ⟨ws, m1, m2, _, _, _, _, _, hS⟩ | ⟨ws, m1, m2, hg, hrun, hip, hd, hs, hS⟩
      · exfalso
        rw [hS, List.mem_append] at hx
        rcases hx with hx | hx
        · rw [hnf x hx] at hfw; cases hfw
        · simp only [List.mem_cons, List.mem_singleton, List.not_mem_nil, or_false] at hx
          rcases hx with rfl | rfl | rfl | rfl | rfl | rfl <;> cases hfw
      · exfalso
        rw [hS, List.mem_append] at hx
        rcases hx with hx | hx
        · rw [hnf x hx] at hfw; cases hfw
        · simp only [List.mem_cons, List.mem_singleton, List.not_mem_nil, or_false] at hx
          rcases hx with rfl | rfl | rfl | rfl | rfl | rfl <;> cases hfw
      · exfalso
        rw [hS, List.mem_append] at hx
        rcases hx with hx | hx
        · rw [hnf x hx] at hfw; cases hfw
        · simp only [List.mem_cons, List.mem_singleton, List.not_mem_nil, or_false] at hx
          rcases hx with rfl | rfl | rfl | rfl | rfl | rfl | rfl <;> cases hfw
      · exfalso
        rw [hS, List.mem_append] at hx
        rcases hx with hx | hx
        · rw [hnf x hx] at hfw; cases hfw
        · simp only [List.mem_cons, List.mem_singleton, List.not_mem_nil, or_false] at hx
          rcases hx with rfl | rfl | rfl | rfl | rfl | rfl | rfl | rfl | rfl <;> cases hfw
      · exact ⟨c, ws, m1, m2, hc, hg, hrun, hip, hd, hs, by rw [hS]; simp⟩
  refine ⟨?_, ?_⟩
  · intro hfw
    obtain ⟨c, ws, m1, m2, h⟩ := key hfw
    exact ⟨auth, c, ws, m1, m2, fun x hx => ⟨hauth x hx, hnf x hx⟩, h⟩
  · intro hfail x hx
    cases hfx : x.isForward with
    | false => rfl
    | true =>
      exfalso
      obtain ⟨c, ws, m1, m2, hc, hg, hrun, hip, hd, hs, _⟩ := key ⟨x, hx, hfx⟩
      rcases hfail with ⟨e, he⟩ | ⟨e, he⟩ | ⟨ws1, hw, hbad⟩
      · rw [hc] at he; cases he
      · rw [hg] at he; cases he
      · rw [hg] at hw
        cases hw
        rcases hbad with h | h | h | h
        · exact h hrun
        · exact hip h
        · exact hd h
        · exact hs h

theorem relaying_only_after_setup_witness :
    (∃ x ∈ sessionEvents sampleFingerprint sampleServer false sampleEnv sampleClient,
        x.isForward = true)
      ∧ (∃ auth c ws m1 m2, (∀ x ∈ auth, x.isAuth = true ∧ x.isForward = false)
        ∧ (NewServerConn sampleFingerprint sampleEnv sampleClient).1 = .ok c
        ∧ (GetWorkspace sampleEnv false sampleClient.user).1 = .ok ws
        ∧ ws.Status = "Running" ∧ ws.PodIP ≠ ""
        ∧ ws.PodIP ++ ":22" ∉ sampleEnv.dialFault ∧ ws.PodIP ++ ":22" ∉ sampleEnv.sshFault
        ∧ sessionEvents sampleFingerprint sampleServer false sampleEnv sampleClient
          = auth ++ [Event.newServerConn true, Event.log m1,
              Event.getWorkspace sampleClient.user (some ws),
              Event.dial "tcp" (ws.PodIP ++ ":22") true,
              Event.newClientConn (ws.PodIP ++ ":22") "dev" sampleServer.hostSigner true]
            ++ [Event.goProxyRequests Leg.client Leg.target,
              Event.goProxyRequests Leg.target Leg.client,
              Event.goProxyChannels Leg.client Leg.target,
              Event.goProxyChannels Leg.target Leg.client,
              Event.wait, Event.log m2,
              Event.close Conn.targetSSHConn, Event.close Conn.targetConn,
              Event.close Conn.sshConn, Event.close Conn.netConn]) :=
  ⟨⟨Event.goProxyRequests Leg.client Leg.target, by decide, rfl⟩,
    (relaying_only_after_setup sampleFingerprint sampleServer false sampleEnv sampleClient).1
      ⟨Event.goProxyRequests Leg.client Leg.target, by decide, rfl⟩⟩

/-- C4: for every target identifier for which the workspace lookup fails, or
returns a workspace whose status is not `Running`, or returns a running workspace
with an empty PodIP, `handleConnection` returns (its last act is to close the
inbound connection) without any backend dial attempt (`net.Dial` is called zero
times) and without retrying the lookup: `GetWorkspace` is called at most once,
exactly once when the inbound handshake succeeded. No outbound handshake is
attempted and no forwarder is started either. -/
theorem no_dial_without_ready_workspace (fp : List Nat → String) (s : Server)
    (cancelled : Bool) (env : Env) (client : Client)
    (h : ∀ ws, (GetWorkspace env cancelled client.user).1 = .ok ws →
      ws.Status ≠ "Running" ∨ ws.PodIP = "") :
    (sessionEvents fp s cancelled env client).filter Event.isDial = []
      ∧ ((sessionEvents fp s cancelled env client).filter Event.isLookup).length ≤ 1
      ∧ ((∃ c, (NewServerConn fp env client).1 = .ok c) →
          (sessionEvents fp s cancelled env client).filter Event.isLookup
            = [Event.getWorkspace client.user
                (foundWorkspace (GetWorkspace env cancelled client.user).1)])
      ∧ (∀ x ∈ sessionEvents fp s cancelled env client, x.isForward = false)
      ∧ (∀ addr user signer ok, Event.newClientConn addr user signer ok
          ∉ sessionEvents fp s cancelled env client)
      ∧ (sessionEvents fp s cancelled env client).getLast? = some (Event.close Conn.netConn) := by
  obtain ⟨auth, hauth, hshape⟩ := handleConnection_shape fp s cancelled env client
  have hnd : auth.filter Event.isDial = [] :=
    filter_auth_nil _ auth (fun x hx => (isAuth_not_other x (hauth x hx)).2.1)
  have hnl : auth.filter Event.isLookup = [] :=
    filter_auth_nil _ auth (fun x hx => (isAuth_not_other x (hauth x hx)).2.2)
  have hnf : ∀ x ∈ auth, x.isForward = false := fun x hx => (isAuth_not_other x (hauth x hx)).1
  have hnc : ∀ addr user signer ok, Event.newClientConn addr user signer ok ∉ auth := by
    intro addr user signer ok hx
    have := hauth _ hx
    simp [Event.isAuth] at this
  rcases hshape with ⟨e, m, he, hS⟩ | ⟨⟨c, hc⟩, hrest⟩
  · rw [hS]
    refine ⟨?_, ?_, ?_, ?_, ?_, ?_⟩
    · simp [List.filter_append, hnd, List.filter, Event.isDial]
    · simp [List.filter_append, hnl, List.filter, Event.isLookup]
    · rintro ⟨c, hc⟩
      rw [he] at hc; cases hc
    · intro x hx
      rcases List.mem_append.mp hx with hx | hx
      · exact hnf x hx
      · simp only [List.mem_cons, List.mem_singleton, List.not_mem_nil, or_false] at hx
        rcases hx with rfl | rfl | rfl <;> rfl
    · intro addr user signer ok hx
      rcases List.mem_append.mp hx with hx | hx
      · exact hnc _ _ _ _ hx
      · simp at hx
    · simp [List.getLast?_append]
  · rcases hrest with ⟨e, m1, m2, hg, hS⟩ | ⟨ws, m1, m2, hg, _, hS⟩ | ⟨ws, m1, m2, hg, hrun, hip, _⟩
      | ⟨ws, m1, m2, hg, hrun, hip, _⟩ | ⟨ws, m1, m2, hg, hrun, hip, _⟩
    · rw [hS, hg]
      refine ⟨?_, ?_, ?_, ?_, ?_, ?_⟩
      · simp [List.filter_append, hnd, List.filter, Event.isDial]
      · simp [List.filter_append, hnl, List.filter, Event.isLookup]
      · intro _
        simp [List.filter_append, hnl, List.filter, Event.isLookup, foundWorkspace]
      · intro x hx
        rcases List.mem_append.mp hx with hx | hx
        · exact hnf x hx
        · simp only [List.mem_cons, List.mem_singleton, List.not_mem_nil, or_false] at hx
          rcases hx with rfl | rfl | rfl | rfl | rfl | rfl <;> rfl
      · intro addr user signer ok hx
        rcases List.mem_append.mp hx with hx | hx
        · exact hnc _ _ _ _ hx
        · simp at hx
      · simp [List.getLast?_append]
    · rw [hS, hg]
      refine ⟨?_, ?_, ?_, ?_, ?_, ?_⟩
      · simp [List.filter_append, hnd, List.filter, Event.isDial]
      · simp [List.filter_append, hnl, List.filter, Event.isLookup]
      · intro _
        simp [List.filter_append, hnl, List.filter, Event.isLookup, foundWorkspace]
      · intro x hx
        rcases List.mem_append.mp hx with hx | hx
        · exact hnf x hx
        · simp only [List.mem_cons, List.mem_singleton, List.not_mem_nil, or_false] at hx
          rcases hx with rfl | rfl | rfl | rfl | rfl | rfl <;> rfl
      · intro addr user signer ok hx
        rcases List.mem_append.mp hx with hx | hx
        · exact hnc _ _ _ _ hx
        · simp at hx
      · simp [List.getLast?_append]
    · exfalso
      rcases h ws hg with h1 | h1
      · exact h1 hrun
      · exact hip h1
    · exfalso
      rcases h ws hg with h1 | h1
      · exact h1 hrun
      · exact hip h1
    · exfalso
      rcases h ws hg with h1 | h1
      · exact h1 hrun
      · exact hip h1

theorem no_dial_without_ready_workspace_witness :
    (∀ ws, (GetWorkspace sampleEnv false "beta").1 = .ok ws →
        ws.Status ≠ "Running" ∨ ws.PodIP = "")
      ∧ (sessionEvents sampleFingerprint sampleServer false sampleEnv
          { sampleClient with user := "beta" }).filter Event.isDial = [] :=
  have hG : (GetWorkspace sampleEnv false "beta").1
      = .ok { Name := "beta", Status := "Pending", Age := "1m", GitURL := "", PodIP := "" } := by
    decide
  have hyp : ∀ ws, (GetWorkspace sampleEnv false "beta").1 = .ok ws →
      ws.Status ≠ "Running" ∨ ws.PodIP = "" := by
    intro ws hws
    rw [hG] at hws
    cases hws
    exact Or.inr rfl
  ⟨hyp, (no_dial_without_ready_workspace sampleFingerprint sampleServer false sampleEnv
    { sampleClient with user := "beta" } hyp).1⟩

/-! ## Host identity: load, generate, reload -/

/-- C5: for every path whose file can be read and whose content the private-key
parser accepts, `loadOrGenerateHostKey` returns the signer parsed from that
content, generates no key (the random source is untouched, no `generateKey`
call), and performs no write (its only call is the read: no directory creation,
no file write), so the file system, and with it the file's content, is after
the call what it was before. -/
theorem loadOrGenerateHostKey_keeps_parseable_key
    (parse : List Nat → Except String Signer) (dirOf : String → String)
    (derive : List Nat → List Nat) (w : World) (path : String) (keyBytes : List Nat)
    (signer : Signer)
    (hread : (readFile w path).1 = .ok keyBytes) (hparse : parse keyBytes = .ok signer) :
    (loadOrGenerateHostKey parse dirOf derive w path).1 = .ok signer
      ∧ (loadOrGenerateHostKey parse dirOf derive w path).2.fs = w.fs
      ∧ (loadOrGenerateHostKey parse dirOf derive w path).2.rnd = w.rnd
      ∧ (loadOrGenerateHostKey parse dirOf derive w path).2.calls
          = w.calls ++ [Call.readFile path]
      ∧ (w.fs.file path).map (·.content) = some keyBytes
      ∧ ((loadOrGenerateHostKey parse dirOf derive w path).2.fs.file path).map (·.content)
          = some keyBytes := by
  have hr : readFile w path
      = (.ok keyBytes, { w with calls := w.calls ++ [Call.readFile path] })
      ∧ (w.fs.file path).map (·.content) = some keyBytes := by
    unfold readFile at hread ⊢
    by_cases hf : path ∈ w.fs.readFault
    · simp [hf] at hread
    · cases hx : w.fs.file path with
      | none => simp [hf, hx] at hread
      | some f =>
        simp only [hf, hx, if_false, Except.ok.injEq] at hread
        simp [hf, hx, hread]
  simp [loadOrGenerateHostKey, hr.1, hparse, hr.2]

set_option maxRecDepth 100000 in
theorem loadOrGenerateHostKey_keeps_parseable_key_witness :
    (readFile sampleWorld "/etc/justup/ssh_host_ed25519_key").1 = .ok sampleKeyFile
      ∧ ParsePrivateKey sampleKeyFile = .ok ⟨List.range 64⟩
      ∧ (loadOrGenerateHostKey ParsePrivateKey (fun _ => "/etc/justup") (fun seed => seed)
          sampleWorld "/etc/justup/ssh_host_ed25519_key").2.fs = sampleWorld.fs :=
  ⟨by decide, by decide,
    (loadOrGenerateHostKey_keeps_parseable_key ParsePrivateKey (fun _ => "/etc/justup")
      (fun seed => seed) sampleWorld "/etc/justup/ssh_host_ed25519_key" sampleKeyFile
      ⟨List.range 64⟩ (by decide) (by decide)).2.1⟩

/-- C6: decoding undoes encoding for the host-key container. For every 64-byte
key `k` and every state of the random source (every 4-byte check value is
delivered by some state), the standard openssh-key-v1 decoder accepts
`marshalED25519PrivateKey k` and returns exactly `k`; and when `generateHostKey`
has written the key file and the file can be read back, `loadOrGenerateHostKey`
reloads it without generating anything and returns a signer with the same key,
hence the same public key and, for every fingerprint function, the same
fingerprint as the signer `generateHostKey` returned. -/
theorem hostKey_roundtrip (rnd key : List Nat) (hk : key.length = 64) :
    decodeOpenSSHKeyV1 (marshalED25519PrivateKey rnd key) = some key
      ∧ (∀ check : List Nat, check.length = 4 → (∀ x ∈ check, x < 256) →
          randRead 4 check = check)
      ∧ (∀ (dirOf : String → String) (derive : List Nat → List Nat) (w w1 : World)
          (path : String) (signer : Signer) (fingerprint : List Nat → String),
          generateHostKey dirOf derive w path = (.ok signer, w1) →
          path ∉ w1.fs.readFault →
          ∃ reloaded w2,
            loadOrGenerateHostKey ParsePrivateKey dirOf derive w1 path = (.ok reloaded, w2)
              ∧ reloaded.PublicKey = signer.PublicKey
              ∧ fingerprint reloaded.PublicKey = fingerprint signer.PublicKey
              ∧ reloaded = signer
              ∧ w2.fs = w1.fs ∧ w2.rnd = w1.rnd
              ∧ w2.calls = w1.calls ++ [Call.readFile path]) := by
  refine ⟨decodeOpenSSHKeyV1_marshal rnd key hk, ?_, ?_⟩
  · intro check hc hlt
    have hm : check.map (· % 256) = check := by
      conv_rhs => rw [← List.map_id check]
      apply List.map_congr_left
      intro x hx
      exact Nat.mod_eq_of_lt (hlt x hx)
    rw [randRead, hm]
    exact copyInto_of_length 4 check hc
  · intro dirOf derive w w1 path signer fingerprint hgen hreadable
    obtain ⟨k, rnd1, hg, hs, hfile, _, _, _⟩ := generateHostKey_ok dirOf derive w w1 path signer hgen
    obtain ⟨hlen, hlt, _, _⟩ := GenerateKey_ok derive w.rnd k rnd1 hg
    have hparse := ParsePrivateKey_pemEncode rnd1 k hlen hlt
    have hread : (readFile w1 path).1 = .ok (pemEncode (stringBytes "OPENSSH PRIVATE KEY")
        (marshalED25519PrivateKey rnd1 k)) := by
      simp [readFile, hreadable, hfile]
    have h5 := loadOrGenerateHostKey_reload ParsePrivateKey dirOf derive w1 path _ ⟨k⟩ hread hparse
    refine ⟨⟨k⟩, _, h5, ?_, ?_, hs.symm, rfl, rfl, rfl⟩
    · rw [hs]
    · rw [hs]

theorem hostKey_roundtrip_witness :
    (List.range 64).length = 64
      ∧ decodeOpenSSHKeyV1 (marshalED25519PrivateKey [9, 8, 7, 6] (List.range 64))
          = some (List.range 64) :=
  ⟨by decide, (hostKey_roundtrip [9, 8, 7, 6] (List.range 64) (by decide)).1⟩

/-- C10 (evaluation at a failing input): the host key path holds an unparseable
file of mode 0644; `loadOrGenerateHostKey` succeeds, the file afterwards holds
the PEM block of the new key's container and the signer is over that key, but
the file's permission bits are still 0644, not 0600. -/
theorem loadOrGenerateHostKey_existing_file_keeps_mode (derive : List Nat → List Nat) :
    ∃ signer w1,
      loadOrGenerateHostKey ParsePrivateKey (fun _ => "/etc/justup") derive staleWorld
          "/etc/justup/ssh_host_ed25519_key" = (.ok signer, w1)
        ∧ w1.fs.file "/etc/justup/ssh_host_ed25519_key" = some
            { content := pemEncode (stringBytes "OPENSSH PRIVATE KEY")
                (marshalED25519PrivateKey [32, 33, 34, 35, 36, 37, 38, 39] signer.key),
              perm := 0o644 }
        ∧ (0o644 : Nat) ≠ 0o600 := by
  have hparse : ParsePrivateKey (ascii "not a key\n") = .error "ssh: no key found" := by decide
  have hg : GenerateKey derive (List.range 40)
      = .ok ((List.range 32) ++ copyInto 32 ((derive (List.range 32)).map (· % 256)),
          [32, 33, 34, 35, 36, 37, 38, 39]) := by
    have h1 : ((List.range 40).take 32).map (· % 256) = List.range 32 := by decide
    have h2 : (List.range 40).drop 32 = [32, 33, 34, 35, 36, 37, 38, 39] := by decide
    have h3 : ¬ (List.range 40).length < 32 := by decide
    simp only [GenerateKey, h1, h2, h3, if_false]
  have hread : readFile staleWorld "/etc/justup/ssh_host_ed25519_key"
      = (.ok (ascii "not a key\n"),
          { staleWorld with calls := [Call.readFile "/etc/justup/ssh_host_ed25519_key"] }) := by
    decide
  have hload : loadOrGenerateHostKey ParsePrivateKey (fun _ => "/etc/justup") derive staleWorld
        "/etc/justup/ssh_host_ed25519_key"
      = generateHostKey (fun _ => "/etc/justup") derive
          { staleWorld with calls := [Call.readFile "/etc/justup/ssh_host_ed25519_key"] }
          "/etc/justup/ssh_host_ed25519_key" := by
    simp only [loadOrGenerateHostKey, hread, hparse]
  have hfst : (generateHostKey (fun _ => "/etc/justup") derive
        { staleWorld with calls := [Call.readFile "/etc/justup/ssh_host_ed25519_key"] }
        "/etc/justup/ssh_host_ed25519_key").1
      = .ok ⟨(List.range 32) ++ copyInto 32 ((derive (List.range 32)).map (· % 256))⟩ := by
    simp [generateHostKey, staleWorld, hg, NewSignerFromKey_ok, mkdirAll, writeFile, FS.file]
  obtain ⟨key, rnd1, hg2, hs, hfile, _⟩ := generateHostKey_ok _ derive _ _ _ _
    (pair_of_fst _ _ hfst)
  have hg3 : GenerateKey derive (List.range 40) = .ok (key, rnd1) := hg2
  rw [hg] at hg3
  simp only [Except.ok.injEq, Prod.mk.injEq] at hg3
  obtain ⟨hk, hr⟩ := hg3
  refine ⟨_, _, hload.trans (pair_of_fst _ _ hfst), ?_, by decide⟩
  rw [hfile, ← hr, ← hk]
  rfl

/-! ## Length-prefixed fields and the container layout -/

/-- C7: for every 64-byte key `k`, `marshalED25519PrivateKey k` is exactly the 15
bytes `openssh-key-v1` plus a zero byte, length-prefixed `none`, length-prefixed
`none`, a length-prefixed empty blob, the 4-byte big-endian integer 1, a
length-prefixed public section of 51 bytes (length-prefixed `ssh-ed25519`, then
the length-prefixed 32-byte public key, bytes 32..63 of `k`), and the
length-prefixed private section, with nothing after it: 234 bytes in total. -/
theorem marshalED25519PrivateKey_layout (rnd key : List Nat) (hk : key.length = 64) :
    marshalED25519PrivateKey rnd key
        = ascii "openssh-key-v1" ++ [0]
          ++ lengthPrefixed (ascii "none")
          ++ lengthPrefixed (ascii "none")
          ++ lengthPrefixed []
          ++ [0, 0, 0, 1]
          ++ lengthPrefixed (lengthPrefixed (ascii "ssh-ed25519") ++ lengthPrefixed (key.drop 32))
          ++ lengthPrefixed (privSection rnd key)
      ∧ (ascii "openssh-key-v1" ++ [0]).length = 15
      ∧ beValue [0, 0, 0, 1] = 1
      ∧ (lengthPrefixed (ascii "ssh-ed25519") ++ lengthPrefixed (key.drop 32)).length = 51
      ∧ (key.drop 32).length = 32
      ∧ (∀ i, i < 32 → (key.drop 32)[i]? = key[32 + i]?)
      ∧ (marshalED25519PrivateKey rnd key).length = 234 := by
  have hp := privSection_length rnd key hk
  have hd : (key.drop 32).length = 32 := by simp [hk]
  have h51 : (lengthPrefixed (ascii "ssh-ed25519") ++ lengthPrefixed (key.drop 32)).length = 51 := by
    simp [lengthPrefixed_length, hd, ascii]
  refine ⟨marshalED25519PrivateKey_eq rnd key hk, by decide, by decide, h51, hd, ?_, ?_⟩
  · intro i _
    simp [List.getElem?_drop]
  · rw [marshalED25519PrivateKey_eq rnd key hk]
    simp only [List.length_append, lengthPrefixed_length, h51, hp]
    rfl

theorem marshalED25519PrivateKey_layout_witness :
    (List.range 64).length = 64
      ∧ (marshalED25519PrivateKey [9, 8, 7, 6] (List.range 64)).length = 234 :=
  ⟨by decide, (marshalED25519PrivateKey_layout [9, 8, 7, 6] (List.range 64) (by decide)).2.2.2.2.2.2⟩

/-- C8: for every 64-byte key `k`, the private section written by
`marshalED25519PrivateKey k` is exactly a 4-byte check value, the same 4 bytes
again, length-prefixed `ssh-ed25519`, the length-prefixed 32-byte public key,
the length-prefixed 64 bytes of `k`, a length-prefixed empty comment, and then
padding bytes `1, 2, ..., p` with `p` the smallest number (0 <= p <= 7) making
the section length a multiple of 8; the unpadded length is 131, so `p = 5` and
the section has 136 bytes. The padding rule is stated for every unpadded
section the loop can be given. -/
theorem privSection_layout (rnd key : List Nat) (hk : key.length = 64) :
    (∃ check : List Nat, check.length = 4 ∧ (∀ x ∈ check, x < 256) ∧
      ∃ unpadded : List Nat,
        unpadded = check ++ check ++ lengthPrefixed (ascii "ssh-ed25519")
          ++ lengthPrefixed (key.drop 32) ++ lengthPrefixed key ++ lengthPrefixed []
        ∧ unpadded.length = 131
        ∧ privSection rnd key = unpadded ++ [1, 2, 3, 4, 5]
        ∧ privSection rnd key = padLoop 8 unpadded 1)
      ∧ (privSection rnd key).length = 136
      ∧ (marshalED25519PrivateKey rnd key).drop 94 = lengthPrefixed (privSection rnd key)
      ∧ (∀ u : List Nat, ∃ p, p ≤ 7 ∧ padLoop 8 u 1 = u ++ List.range' 1 p
          ∧ (u.length + p) % 8 = 0 ∧ (∀ q, q < p → (u.length + q) % 8 ≠ 0)
          ∧ ∀ fuel, 7 ≤ fuel → padLoop fuel u 1 = padLoop 8 u 1) := by
  have hc : (randRead 4 rnd).length = 4 := copyInto_length _ _
  have hu := unpadded_length (randRead 4 rnd) key hc hk
  have hsec := privSection_eq rnd key hk
  refine ⟨⟨randRead 4 rnd, hc, randRead_lt 4 rnd, _, rfl, hu, hsec, ?_⟩,
    privSection_length rnd key hk, ?_, ?_⟩
  · rw [hsec, padLoop_one, hu]; rfl
  · rw [marshalED25519PrivateKey_eq rnd key hk]
    have h94 : (ascii "openssh-key-v1" ++ [0] ++ lengthPrefixed (ascii "none")
        ++ lengthPrefixed (ascii "none") ++ lengthPrefixed [] ++ be32 1
        ++ lengthPrefixed (lengthPrefixed (ascii "ssh-ed25519")
          ++ lengthPrefixed (key.drop 32))).length = 94 := by
      simp [lengthPrefixed_length, hk, ascii, be32]
    rw [List.drop_append_of_le_length (by omega), List.drop_of_length_le (by omega)]
    rfl
  · intro u
    refine ⟨(8 - u.length % 8) % 8, by omega, padLoop_one u, by omega, ?_, ?_⟩
    · intro q hq; omega
    · intro fuel hf
      rw [(padLoop_fuel fuel u 1 hf).1, (padLoop_fuel 8 u 1 (by omega)).1]

theorem privSection_layout_witness :
    (List.range 64).length = 64 ∧ (privSection [9, 8, 7, 6] (List.range 64)).length = 136 :=
  ⟨by decide, (privSection_layout [9, 8, 7, 6] (List.range 64) (by decide)).2.1⟩

/-- C9: for every byte string `b` shorter than 2^32 bytes, `marshalBytes b` has
length `4 + len(b)`, its first four bytes are the big-endian encoding of
`len(b)` (four bytes below 256 whose big-endian value is `len(b)`), and the
remaining bytes are `b`; `marshalString s` is `marshalBytes` of the bytes of `s`;
and for every 32-bit `n`, `marshalUint32 n` is four bytes whose big-endian value
is `n`. -/
theorem marshal_length_prefix_convention (b : List Nat) (s : String) (n : Nat)
    (hb : b.length < 2 ^ 32) (hn : n < 2 ^ 32) :
    (marshalBytes b).length = 4 + b.length
      ∧ (marshalBytes b).take 4 = be32 b.length
      ∧ (∀ x ∈ (marshalBytes b).take 4, x < 256)
      ∧ beValue ((marshalBytes b).take 4) = b.length
      ∧ (marshalBytes b).drop 4 = b
      ∧ marshalString s = marshalBytes (stringBytes s)
      ∧ (marshalUint32 n).length = 4
      ∧ (∀ x ∈ marshalUint32 n, x < 256)
      ∧ beValue (marshalUint32 n) = n := by
  have ht : (marshalBytes b).take 4 = be32 b.length := by
    rw [marshalBytes_eq]; simp [lengthPrefixed, be32]
  refine ⟨?_, ht, ?_, ?_, ?_, rfl, ?_, ?_, ?_⟩
  · rw [marshalBytes_eq, lengthPrefixed_length]
  · rw [ht]; exact be32_lt _
  · rw [ht]; exact beValue_be32 _ hb
  · rw [marshalBytes_eq]; simp [lengthPrefixed, be32]
  · rfl
  · rw [marshalUint32_eq]; exact be32_lt _
  · rw [marshalUint32_eq]; exact beValue_be32 _ hn

theorem marshal_length_prefix_convention_witness :
    ([7, 8, 9] : List Nat).length < 2 ^ 32 ∧ 1 < 2 ^ 32
      ∧ (marshalBytes [7, 8, 9]).take 4 = [0, 0, 0, 3]
      ∧ marshalUint32 1 = [0, 0, 0, 1]
      ∧ beValue (marshalUint32 1) = 1 :=
  ⟨by decide, by decide, by decide, by decide,
    (marshal_length_prefix_convention [7, 8, 9] "none" 1 (by decide) (by decide)).2.2.2.2.2.2.2.2⟩

/-! ## Relay engine: requests and channels -/

/-- C11: for every finite sequence of global requests arriving on one leg, all of
whose forwards succeed, `proxyRequests` sends to the other leg exactly those
requests in the same order, each with the same type, want-reply flag and payload;
for each request that asked for a reply it answers the original with exactly the
`(ok, payload)` pair the far side returned, right after that forward, and a
request that did not ask for a reply is not answered. The loop then stops
because the stream is closed. -/
theorem proxyRequests_forwards_verbatim (stream : List (Request × Bool × List Nat)) :
    ((proxyRequests (stream.map (fun p => ⟨some p.1, .ok p.2⟩))).1.filterMap RelayEvent.sent
        = stream.map (fun p => (p.1.ReqType, p.1.WantReply, p.1.Payload)))
      ∧ ((proxyRequests (stream.map (fun p => ⟨some p.1, .ok p.2⟩))).1.filterMap
          RelayEvent.replied
        = (stream.filter (fun p => p.1.WantReply)).map (fun p => (p.1, p.2.1, p.2.2)))
      ∧ ((proxyRequests (stream.map (fun p => ⟨some p.1, .ok p.2⟩))).1
        = stream.flatMap (fun p =>
            RelayEvent.sendRequest p.1.ReqType p.1.WantReply p.1.Payload
              :: (if p.1.WantReply then [RelayEvent.reply p.1 p.2.1 p.2.2] else [])))
      ∧ (proxyRequests (stream.map (fun p => ⟨some p.1, .ok p.2⟩))).2
        = LoopEnd.streamClosed := by
  refine ⟨?_, ?_, ?_, ?_⟩
  · induction stream with
    | nil => simp [proxyRequests]
    | cons p ps ih =>
      obtain ⟨req, ok, payload⟩ := p
      simp only [List.map_cons, proxyRequests_cons_ok]
      cases hw : req.WantReply <;> simp [hw, List.filterMap_cons, RelayEvent.sent, ih]
  · induction stream with
    | nil => simp [proxyRequests]
    | cons p ps ih =>
      obtain ⟨req, ok, payload⟩ := p
      simp only [List.map_cons, proxyRequests_cons_ok]
      cases hw : req.WantReply <;>
        simp [hw, List.filterMap_cons, RelayEvent.replied, ih, List.filter_cons]
  · induction stream with
    | nil => simp [proxyRequests]
    | cons p ps ih =>
      obtain ⟨req, ok, payload⟩ := p
      simp only [List.map_cons, proxyRequests_cons_ok]
      cases hw : req.WantReply <;> simp [hw, ih]
  · induction stream with
    | nil => simp [proxyRequests]
    | cons p ps ih =>
      obtain ⟨req, ok, payload⟩ := p
      simp only [List.map_cons, proxyRequests_cons_ok]
      exact ih

/-- C14: for every finite sequence of channel requests arriving on one side of a
channel-pair, all of whose forwards succeed, `proxyChannelRequests` sends to the
paired channel exactly those requests in the same order with the same type,
want-reply flag and payload, and replies to the original exactly when it asked
for a reply, with the boolean the far side gave (a channel request's reply has
no payload); it behaves as `proxyRequests` does on the same stream with each
answer `ok` read as `(ok, nil)`. -/
theorem proxyChannelRequests_forwards_verbatim (stream : List (Request × Bool)) :
    ((proxyChannelRequests (stream.map (fun p => ⟨some p.1, .ok p.2⟩))).1.filterMap
          RelayEvent.sent
        = stream.map (fun p => (p.1.ReqType, p.1.WantReply, p.1.Payload)))
      ∧ ((proxyChannelRequests (stream.map (fun p => ⟨some p.1, .ok p.2⟩))).1.filterMap
          RelayEvent.replied
        = (stream.filter (fun p => p.1.WantReply)).map (fun p => (p.1, p.2, [])))
      ∧ ((proxyChannelRequests (stream.map (fun p => ⟨some p.1, .ok p.2⟩))).1
        = stream.flatMap (fun p =>
            RelayEvent.sendRequest p.1.ReqType p.1.WantReply p.1.Payload
              :: (if p.1.WantReply then [RelayEvent.reply p.1 p.2 []] else [])))
      ∧ (proxyChannelRequests (stream.map (fun p => ⟨some p.1, .ok p.2⟩))).2
        = LoopEnd.streamClosed
      ∧ (∀ arrivals : List (Arrival Bool),
          proxyChannelRequests arrivals
            = proxyRequests (arrivals.map (fun a =>
                ⟨a.req, match a.answer with
                  | .ok ok => .ok (ok, [])
                  | .error e => .error e⟩))) := by
  refine ⟨?_, ?_, ?_, ?_, ?_⟩
  · induction stream with
    | nil => simp [proxyChannelRequests]
    | cons p ps ih =>
      obtain ⟨req, ok⟩ := p
      simp only [List.map_cons, proxyChannelRequests_cons_ok]
      cases hw : req.WantReply <;> simp [hw, List.filterMap_cons, RelayEvent.sent, ih]
  · induction stream with
    | nil => simp [proxyChannelRequests]
    | cons p ps ih =>
      obtain ⟨req, ok⟩ := p
      simp only [List.map_cons, proxyChannelRequests_cons_ok]
      cases hw : req.WantReply <;>
        simp [hw, List.filterMap_cons, RelayEvent.replied, ih, List.filter_cons]
  · induction stream with
    | nil => simp [proxyChannelRequests]
    | cons p ps ih =>
      obtain ⟨req, ok⟩ := p
      simp only [List.map_cons, proxyChannelRequests_cons_ok]
      cases hw : req.WantReply <;> simp [hw, ih]
  · induction stream with
    | nil => simp [proxyChannelRequests]
    | cons p ps ih =>
      obtain ⟨req, ok⟩ := p
      simp only [List.map_cons, proxyChannelRequests_cons_ok]
      exact ih
  · intro arrivals
    induction arrivals with
    | nil => rfl
    | cons a as ih =>
      obtain ⟨r, ans⟩ := a
      cases r with
      | none => rfl
      | some req =>
        cases ans with
        | error e => rfl
        | ok ok =>
          cases hw : req.WantReply <;>
            simp [proxyChannelRequests, proxyRequests, hw, ih]

/-- C12: for every new-channel request read by `proxyChannels` (one that
follows non-nil requests only), the channel opened on the opposite leg is
requested with exactly the request's channel type and extra data; whenever that
open succeeds the request is accepted and not rejected; and the pair's
goroutine, hence its forwarders, is started exactly when the accept succeeded
too (when it failed, the opened channel is closed instead). -/
theorem proxyChannels_opens_then_accepts (pre post : List ChannelArrival)
    (a : ChannelArrival) (newChan : NewChannel)
    (hpre : ∀ x ∈ pre, x.newChan ≠ none) (ha : a.newChan = some newChan) :
    ∃ evs, (proxyChannels (pre ++ a :: post)).1
          = (proxyChannels pre).1 ++ evs ++ (proxyChannels post).1
      ∧ evs.head? = some (ChannelEvent.openChannel newChan.ChannelType newChan.ExtraData)
      ∧ (evs.filter (fun e => e matches ChannelEvent.openChannel _ _)).length = 1
      ∧ (a.openResult = .ok () → a.acceptResult = .ok () →
          evs = [ChannelEvent.openChannel newChan.ChannelType newChan.ExtraData,
            ChannelEvent.accept newChan, ChannelEvent.goPair newChan])
      ∧ (a.openResult = .ok () → ∀ e, a.acceptResult = .error e →
          evs = [ChannelEvent.openChannel newChan.ChannelType newChan.ExtraData,
            ChannelEvent.accept newChan, ChannelEvent.closeOpened newChan])
      ∧ (a.openResult = .ok () →
          ChannelEvent.accept newChan ∈ evs ∧ ∀ r m, ChannelEvent.reject newChan r m ∉ evs)
      ∧ (ChannelEvent.goPair newChan ∈ evs ↔
          a.openResult = .ok () ∧ a.acceptResult = .ok ()) := by
  obtain ⟨nc, op, ac⟩ := a
  simp only at ha
  subst ha
  have hsplit := (proxyChannels_append pre (⟨some newChan, op, ac⟩ :: post) hpre).1
  cases op with
  | error e =>
    refine ⟨[ChannelEvent.openChannel newChan.ChannelType newChan.ExtraData,
      ChannelEvent.reject newChan ConnectionFailed e], ?_, rfl, by simp, ?_, ?_, ?_, ?_⟩
    · rw [hsplit]; simp [proxyChannels]
    · intro h; cases h
    · intro h; cases h
    · intro h; cases h
    · simp
  | ok u =>
    cases ac with
    | error e =>
      refine ⟨[ChannelEvent.openChannel newChan.ChannelType newChan.ExtraData,
        ChannelEvent.accept newChan, ChannelEvent.closeOpened newChan], ?_, rfl, by simp,
        ?_, ?_, ?_, ?_⟩
      · rw [hsplit]; simp [proxyChannels]
      · intro _ h; cases h
      · intro _ _ _; rfl
      · intro _; simp
      · simp
    | ok v =>
      refine ⟨[ChannelEvent.openChannel newChan.ChannelType newChan.ExtraData,
        ChannelEvent.accept newChan, ChannelEvent.goPair newChan], ?_, rfl, by simp,
        ?_, ?_, ?_, ?_⟩
      · rw [hsplit]; simp [proxyChannels]
      · intro _ _; rfl
      · intro _ e h; cases h
      · intro _; simp
      · simp

theorem proxyChannels_opens_then_accepts_witness :
    (∀ x ∈ ([] : List ChannelArrival), x.newChan ≠ none)
      ∧ (⟨some ⟨"session", []⟩, .ok (), .ok ()⟩ : ChannelArrival).newChan
          = some ⟨"session", []⟩
      ∧ ∃ evs, (proxyChannels ([] ++ ⟨some ⟨"session", []⟩, .ok (), .ok ()⟩ :: [])).1
            = (proxyChannels []).1 ++ evs ++ (proxyChannels []).1
          ∧ evs.head? = some (ChannelEvent.openChannel "session" []) :=
  ⟨by simp, rfl,
    (proxyChannels_opens_then_accepts [] [] ⟨some ⟨"session", []⟩, .ok (), .ok ()⟩
      ⟨"session", []⟩ (by simp) rfl).imp (fun _ h => ⟨h.1, h.2.1⟩)⟩

/-- C13: for every sequence of new-channel requests, when opening the
opposite-leg channel fails for one request, `proxyChannels` rejects that request
with reason `ConnectionFailed` (and the error's text), neither accepts it nor
starts a pair for it, and processes every later request exactly as it would have
if the failed one had been absent: the events before and after are those of the
sequence without it, and the loop stops the same way. The same holds when
accepting the original fails: the events for that request are the open, the
accept and the close of the opened channel, no pair is started, and the rest is
as if the request had been absent. -/
theorem proxyChannels_failure_is_local (pre post : List ChannelArrival)
    (a : ChannelArrival) (newChan : NewChannel)
    (hpre : ∀ x ∈ pre, x.newChan ≠ none) (ha : a.newChan = some newChan) :
    (∀ err, a.openResult = .error err →
        (proxyChannels (pre ++ a :: post)).1
          = (proxyChannels pre).1
            ++ [ChannelEvent.openChannel newChan.ChannelType newChan.ExtraData,
                ChannelEvent.reject newChan ConnectionFailed err]
            ++ (proxyChannels post).1)
      ∧ (∀ err, a.openResult = .ok () → a.acceptResult = .error err →
        (proxyChannels (pre ++ a :: post)).1
          = (proxyChannels pre).1
            ++ [ChannelEvent.openChannel newChan.ChannelType newChan.ExtraData,
                ChannelEvent.accept newChan, ChannelEvent.closeOpened newChan]
            ++ (proxyChannels post).1)
      ∧ (proxyChannels (pre ++ post)).1 = (proxyChannels pre).1 ++ (proxyChannels post).1
      ∧ (proxyChannels (pre ++ a :: post)).2 = (proxyChannels (pre ++ post)).2 := by
  obtain ⟨nc, op, ac⟩ := a
  simp only at ha
  subst ha
  have hsplit := proxyChannels_append pre (⟨some newChan, op, ac⟩ :: post) hpre
  have hwithout := proxyChannels_append pre post hpre
  refine ⟨?_, ?_, hwithout.1, ?_⟩
  · intro err h
    simp only at h
    subst h
    rw [hsplit.1]; simp [proxyChannels]
  · intro err h1 h2
    simp only at h1 h2
    subst h1 h2
    rw [hsplit.1]; simp [proxyChannels]
  · rw [hsplit.2, hwithout.2]
    cases op with
    | error e => simp [proxyChannels]
    | ok u =>
      cases ac with
      | error e => simp [proxyChannels]
      | ok v => simp [proxyChannels]

theorem proxyChannels_failure_is_local_witness :
    (∀ x ∈ [(⟨some ⟨"session", []⟩, .ok (), .ok ()⟩ : ChannelArrival)], x.newChan ≠ none)
      ∧ (⟨some ⟨"x11", [1]⟩, .error "refused", .ok ()⟩ : ChannelArrival).newChan
          = some ⟨"x11", [1]⟩
      ∧ (proxyChannels ([⟨some ⟨"session", []⟩, .ok (), .ok ()⟩]
            ++ ⟨some ⟨"x11", [1]⟩, .error "refused", .ok ()⟩
              :: [⟨some ⟨"session", [2]⟩, .ok (), .ok ()⟩])).1
          = (proxyChannels [⟨some ⟨"session", []⟩, .ok (), .ok ()⟩]).1
            ++ [ChannelEvent.openChannel "x11" [1],
                ChannelEvent.reject ⟨"x11", [1]⟩ ConnectionFailed "refused"]
            ++ (proxyChannels [⟨some ⟨"session", [2]⟩, .ok (), .ok ()⟩]).1 :=
  ⟨by decide, rfl,
    (proxyChannels_failure_is_local [⟨some ⟨"session", []⟩, .ok (), .ok ()⟩]
      [⟨some ⟨"session", [2]⟩, .ok (), .ok ()⟩]
      ⟨some ⟨"x11", [1]⟩, .error "refused", .ok ()⟩ ⟨"x11", [1]⟩ (by decide) rfl).1
      "refused" rfl⟩

/-! ## Relay engine: the goroutines of a channel-pair -/

/-- C15: in every state the goroutines of a channel-pair can reach, under any
schedule, from the start of the pair's goroutine in `proxyChannels`: the
forwarders started so far are the first ones of the four of the program (byte
copy to the target, byte copy to the client, channel requests to the target,
channel requests to the client), and all four once the goroutine has got to
`wg.Wait()`, which it reaches without blocking; every `Close` of a channel object
in the log comes after the `wg.Done()` of each of the four forwarders; the closes
made so far are the first ones of target channel, client channel; and once all
four forwarders have finished, the steps left to the pair's goroutine can all be
taken and close both channels. -/
theorem pair_closed_only_after_four_forwarders (sched : List PairAction) (s : PairState)
    (hr : PairState.init.run sched = some s) :
    startedIn s.log
        = [Forwarder.copyToTarget, Forwarder.copyToClient, Forwarder.requestsToTarget,
            Forwarder.requestsToClient].take (s.pc.rank - 1)
      ∧ (5 ≤ s.pc.rank → startedIn s.log
        = [Forwarder.copyToTarget, Forwarder.copyToClient, Forwarder.requestsToTarget,
            Forwarder.requestsToClient])
      ∧ (s.pc.rank < 5 → ∃ s1, s.step PairAction.pair = some s1 ∧ s1.pc.rank = s.pc.rank + 1)
      ∧ closesLate s.log
      ∧ closedIn s.log = [Leg.target, Leg.client].take (s.pc.rank - 6)
      ∧ (s.allDone →
          ∃ s1, s.run (List.replicate (8 - s.pc.rank) PairAction.pair) = some s1
            ∧ s1.pc = PairPc.finished ∧ closedIn s1.log = [Leg.target, Leg.client]) := by
  have hinv := PairInv_run sched PairState.init s PairInv_init hr
  have hclosed := closedIn_run sched PairState.init s rfl hr
  refine ⟨hinv.starts, ?_, ?_, hinv.late, hclosed, pair_closes_when_done s hinv hclosed⟩
  · intro h5
    rw [hinv.starts]
    have : 4 ≤ s.pc.rank - 1 := by omega
    exact List.take_of_length_le (by simpa using this)
  · intro h5
    obtain ⟨pc, wg, cT, cC, rT, rC, log⟩ := s
    cases pc <;> simp [PairPc.rank, PairState.step, PairState.start, PairState.set] at h5 ⊢

theorem pair_closed_only_after_four_forwarders_witness :
    PairState.init.run samplePairSchedule = some samplePairEnd
      ∧ closesLate samplePairEnd.log
      ∧ closedIn samplePairEnd.log = [Leg.target, Leg.client].take (samplePairEnd.pc.rank - 6) :=
  ⟨by decide,
    (pair_closed_only_after_four_forwarders samplePairSchedule samplePairEnd (by decide)).2.2.2.1,
    (pair_closed_only_after_four_forwarders samplePairSchedule samplePairEnd
      (by decide)).2.2.2.2.1⟩

/-- C16 (counterexample): the destination refuses the only write (`Write` returns
`(0, io.EOF)` for the three bytes read): `io.Copy` returns and the forwarder calls
`CloseWrite` although none of the bytes read has been written. -/
theorem copyForwarder_half_closes_after_failed_write :
    copyForwarder failedWriteCopy = [ChanCall.write [1, 2, 3], ChanCall.closeWrite]
      ∧ (ioCopy failedWriteCopy).bytesRead = [1, 2, 3]
      ∧ (ioCopy failedWriteCopy).delivered = [] := by
  decide

/-- C16 (amended): the calls a byte-copy forwarder makes on its destination are
the `Write` calls of `io.Copy`, then `CloseWrite` once, made if and only if
`io.Copy` has returned, and never `Close`; the arguments of the `Write` calls are,
in order, all the bytes read from the source; the bytes the destination took are
a prefix of the bytes read, and all of them when no `Write` fails or falls short.
In the channel-pair, the `CloseWrite` step of a forwarder whose copy has returned
can be taken, logs that call only, and leaves the goroutine of the pair, the
wait-group counter and every other forwarder where they are, each of them able to
take its next step exactly as before. -/
theorem copyForwarder_half_close_once (turns : List CopyTurn) :
    copyForwarder turns = (ioCopy turns).writes.map ChanCall.write
        ++ (if (ioCopy turns).returned.isSome then [ChanCall.closeWrite] else [])
      ∧ ChanCall.close ∉ copyForwarder turns
      ∧ (ioCopy turns).writes.flatten = (ioCopy turns).bytesRead
      ∧ (ioCopy turns).delivered <+: (ioCopy turns).bytesRead
      ∧ ((∀ t ∈ turns, t.writeErr = none ∧ t.nw = t.data.length) →
          (ioCopy turns).delivered = (ioCopy turns).bytesRead)
      ∧ (∀ (s : PairState) (f : Forwarder) (dst : Leg),
          s.get f = ForwarderPc.returned → f.copyDst = some dst →
          ∃ s1, s.step (PairAction.forwarder f) = some s1
            ∧ s1.log = s.log ++ [PairEvent.closeWrite dst]
            ∧ s1.pc = s.pc ∧ s1.wg = s.wg
            ∧ s1.get f = ForwarderPc.halfClosed
            ∧ ∀ g, g ≠ f → s1.get g = s.get g
              ∧ (s1.step (PairAction.forwarder g)).isSome
                = (s.step (PairAction.forwarder g)).isSome) := by
  refine ⟨copyForwarder_eq turns, ?_, ioCopy_writes_flatten turns,
    ioCopy_delivered_prefix turns, ioCopy_delivered_all turns, ?_⟩
  · rw [copyForwarder_eq]
    intro h
    rcases List.mem_append.mp h with h | h
    · simp at h
    · split at h <;> simp at h
  · intro s f dst hf hdst
    obtain ⟨pc, wg, cT, cC, rT, rC, log⟩ := s
    cases f <;> simp only [Forwarder.copyDst, Option.some.injEq, reduceCtorEq] at hdst
    all_goals subst hdst
    all_goals simp only [PairState.get] at hf
    all_goals subst hf
    all_goals refine ⟨_, rfl, rfl, rfl, rfl, rfl, ?_⟩
    all_goals intro g hg
    all_goals cases g <;> first
      | exact absurd rfl hg
      | (refine ⟨rfl, ?_⟩
         simp only [PairState.step, PairState.get, PairState.set, PairState.finish]
         split <;> first
          | rfl
          | (split <;> rfl)
          | (simp only [Forwarder.copyDst]; split <;> rfl)
          | (simp only [Forwarder.copyDst]; rfl))

theorem copyForwarder_half_close_once_witness :
    (∀ t ∈ sampleCopy, t.writeErr = none ∧ t.nw = t.data.length)
      ∧ (ioCopy sampleCopy).delivered = (ioCopy sampleCopy).bytesRead
      ∧ samplePairHalfway.get Forwarder.copyToTarget = ForwarderPc.returned
      ∧ ∃ s1, samplePairHalfway.step (PairAction.forwarder Forwarder.copyToTarget) = some s1
          ∧ s1.get Forwarder.copyToClient = ForwarderPc.running :=
  ⟨by decide,
    (copyForwarder_half_close_once sampleCopy).2.2.2.2.1 (by decide),
    rfl,
    by
      obtain ⟨s1, h1, _, _, _, _, h2⟩ :=
        (copyForwarder_half_close_once sampleCopy).2.2.2.2.2 samplePairHalfway
          Forwarder.copyToTarget Leg.target rfl rfl
      exact ⟨s1, h1, (h2 Forwarder.copyToClient (by decide)).1⟩⟩

/-! ## Relay engine: the goroutines of a session -/

/-- C17 (counterexample): the client opens one channel, the four forwarders of
its channel-pair are started and keep running, both global-request loops end:
`handleConnection` gets through `wg.Wait()` and returns while the forwarders of
the pair and both channel loops are still running. -/
theorem handleConnection_returns_while_pair_runs :
    SessionState.init.run earlyReturnSchedule = some earlyReturnEnd
      ∧ earlyReturnEnd.pc = SessionPc.returned
      ∧ earlyReturnEnd.pairs.map (fun p => p.copyToTarget) = [ForwarderPc.running]
      ∧ earlyReturnEnd.channelsFromClient = LoopPc.running := by
  decide

/-- C17 (amended): under every schedule of the goroutines of a session,
`handleConnection` is past `wg.Wait()` (and so returns and closes the
connections) only when both global-request loops have returned and run their
`wg.Done()`; while one of them has not, `handleConnection` in `wg.Wait()` cannot
take a step. Channel loops and forwarders of channel-pairs are not waited for. -/
theorem handleConnection_waits_for_request_loops (sched : List SessionAction)
    (s : SessionState) (hr : SessionState.init.run sched = some s) :
    (s.pc = SessionPc.woken ∨ s.pc = SessionPc.returned →
        s.requestsToTarget = LoopPc.done ∧ s.requestsToClient = LoopPc.done)
      ∧ (s.pc = SessionPc.waiting →
          (s.requestsToTarget ≠ LoopPc.done ∨ s.requestsToClient ≠ LoopPc.done) →
          s.step SessionAction.main = none) := by
  have hinv := SessionInv_run sched SessionState.init s SessionInv_init hr
  obtain ⟨pc, wg, rT, rC, chC, chT, pairs⟩ := s
  obtain ⟨h1, h2, h3, h4, h5⟩ := hinv
  simp only at h1 h2 h3 h4 h5 ⊢
  constructor
  · intro h
    apply h5
    rcases h with h | h <;> subst h <;> simp [SessionPc.rank]
  · intro hw hnd
    subst hw
    have hwg := h2 (by simp)
    simp only [SessionState.step]
    rw [if_neg]
    intro h0
    rw [h0] at hwg
    rcases hnd with h | h
    · exact h (loop_owes_eq_zero rT (by omega))
    · exact h (loop_owes_eq_zero rC (by omega))

theorem handleConnection_waits_for_request_loops_witness :
    SessionState.init.run earlyReturnSchedule = some earlyReturnEnd
      ∧ earlyReturnEnd.requestsToTarget = LoopPc.done
      ∧ earlyReturnEnd.requestsToClient = LoopPc.done :=
  ⟨by decide,
    (handleConnection_waits_for_request_loops earlyReturnSchedule earlyReturnEnd
      (by decide)).1 (Or.inr rfl)⟩

/-! ## Start-up and the accept loop -/

/-- C18: `ListenAndServe` returns a non-nil error if and only if binding its
listen address fails, and then it returns `failed to listen: ...` without
accepting. After a successful bind, and after any `Accept` results none of which
is a failure met with the context done: such a failure makes it return nil,
after closing the listener; a failure met while the context is not done is
logged and followed by the next `Accept`; an accepted connection is handed to a
`handleConnection` goroutine of its own and followed at once by the next
`Accept`, `ListenAndServe` not having returned. -/
theorem ListenAndServe_error_iff_bind_fails (s : Server) (bind : String → Option String) :
    (∀ accepts, (∃ e, (ListenAndServe s bind accepts).2 = some (some e))
        ↔ bind s.config.ListenAddr ≠ none)
      ∧ (∀ err accepts, bind s.config.ListenAddr = some err →
          ListenAndServe s bind accepts
            = ([ServeEvent.listen "tcp" s.config.ListenAddr],
                some (some ("failed to listen: " ++ err))))
      ∧ (bind s.config.ListenAddr = none →
          ∀ pre : List AcceptResult, (∀ x ∈ pre, x.endsLoop = false) →
            (∀ err post, ListenAndServe s bind (pre ++ AcceptResult.fail err true :: post)
              = (ServeEvent.listen "tcp" s.config.ListenAddr :: acceptEvents pre
                  ++ [ServeEvent.accept, ServeEvent.closeListener], some none))
            ∧ (∀ err, ListenAndServe s bind (pre ++ [AcceptResult.fail err false])
              = (ServeEvent.listen "tcp" s.config.ListenAddr :: acceptEvents pre
                  ++ [ServeEvent.accept,
                      ServeEvent.log ("Failed to accept connection: " ++ err),
                      ServeEvent.accept], none))
            ∧ (∀ c, ListenAndServe s bind (pre ++ [AcceptResult.conn c])
              = (ServeEvent.listen "tcp" s.config.ListenAddr :: acceptEvents pre
                  ++ [ServeEvent.accept, ServeEvent.goHandleConnection c,
                      ServeEvent.accept], none))) := by
  refine ⟨fun accepts => ListenAndServe_error_iff s bind accepts, ?_, ?_⟩
  · intro err accepts hb
    simp [ListenAndServe, hb]
  · intro hb pre hpre
    refine ⟨?_, ?_, ?_⟩
    · intro err post
      simp [ListenAndServe, hb, acceptLoop_append pre _ hpre, acceptLoop]
    · intro err
      simp [ListenAndServe, hb, acceptLoop_append pre _ hpre, acceptLoop]
    · intro c
      simp [ListenAndServe, hb, acceptLoop_append pre _ hpre, acceptLoop]

theorem ListenAndServe_error_iff_bind_fails_witness :
    freePort sampleServer.config.ListenAddr = none
      ∧ (∀ x ∈ [AcceptResult.conn 1, AcceptResult.fail "too many open files" false,
            AcceptResult.conn 2], x.endsLoop = false)
      ∧ ListenAndServe sampleServer freePort sampleAccepts
        = (ServeEvent.listen "tcp" sampleServer.config.ListenAddr
            :: acceptEvents [AcceptResult.conn 1, AcceptResult.fail "too many open files" false,
                AcceptResult.conn 2]
            ++ [ServeEvent.accept, ServeEvent.closeListener], some none) :=
  ⟨rfl, by decide,
    ((ListenAndServe_error_iff_bind_fails sampleServer freePort).2.2 rfl
      [AcceptResult.conn 1, AcceptResult.fail "too many open files" false, AcceptResult.conn 2]
      (by decide)).1 "use of closed network connection" []⟩

set_option maxRecDepth 100000 in
/-- C19 (counterexample): the host key file is read and parsed, so the host
identity is obtained, and the listen address is free, yet the process ends with a
fatal error before it tries to bind: the first statement on the database fails,
`database.Open` and then `NewServer` return an error, and `main` calls
`log.Fatalf`. -/
theorem main_fatal_when_database_fails :
    (loadOrGenerateHostKey ParsePrivateKey sampleDir (fun seed => seed) sampleWorld
        defaultFlags.hostKeyPath).1 = .ok ⟨List.range 64⟩
      ∧ freePort defaultFlags.addr = none
      ∧ (NewServer ParsePrivateKey sampleDir (fun seed => seed) sampleJoin brokenSql sampleKube
          sampleWorld (Config.mk defaultFlags.addr defaultFlags.hostKeyPath
            defaultFlags.dbPath)).1
        = .error ("failed to open database: failed to enable foreign keys: "
            ++ "unable to open database file")
      ∧ (main ParsePrivateKey sampleDir (fun seed => seed) sampleJoin brokenSql sampleKube
          sampleWorld defaultFlags freePort sampleAccepts).1
        = some (ProcessEnd.fatal ("Failed to create SSH proxy server: failed to open database: "
            ++ "failed to enable foreign keys: unable to open database file"))
      ∧ (main ParsePrivateKey sampleDir (fun seed => seed) sampleJoin brokenSql sampleKube
          sampleWorld defaultFlags freePort sampleAccepts).2.2 = [] := by
  decide

/-- C19 (amended): `NewServer` returns an error if and only if
`loadOrGenerateHostKey` fails, or `database.Open` fails, or
`kubernetes.NewClient` fails; `ListenAndServe` returns an error if and only if
the bind fails; and `main` ends with `log.Fatalf` if and only if `NewServer`
returns an error or the bind of the listen address fails. -/
theorem main_fatal_iff (parse : List Nat → Except String Signer) (dirOf : String → String)
    (derive : List Nat → List Nat) (joinPath : List String → String) (sql : SqlDriver)
    (kube : KubeEnv) (w : World) (flags : Flags) (bind : String → Option String)
    (accepts : List AcceptResult) :
    ((∃ e, (NewServer parse dirOf derive joinPath sql kube w
          (Config.mk flags.addr flags.hostKeyPath flags.dbPath)).1 = .error e)
        ↔ ((∃ e, (loadOrGenerateHostKey parse dirOf derive w flags.hostKeyPath).1 = .error e)
          ∨ (∃ e, (Open dirOf sql (loadOrGenerateHostKey parse dirOf derive w
                flags.hostKeyPath).2 flags.dbPath).1 = .error e)
          ∨ (∃ e, NewClient joinPath kube = .error e)))
      ∧ (∀ s : Server, (∃ e, (ListenAndServe s bind accepts).2 = some (some e))
          ↔ bind s.config.ListenAddr ≠ none)
      ∧ ((∃ msg, (main parse dirOf derive joinPath sql kube w flags bind accepts).1
            = some (ProcessEnd.fatal msg))
        ↔ ((∃ e, (NewServer parse dirOf derive joinPath sql kube w
              (Config.mk flags.addr flags.hostKeyPath flags.dbPath)).1 = .error e)
          ∨ bind flags.addr ≠ none)) := by
  refine ⟨?_, fun s => ListenAndServe_error_iff s bind accepts, ?_⟩
  · simp only [NewServer]
    rcases hh : loadOrGenerateHostKey parse dirOf derive w flags.hostKeyPath with ⟨r, w1⟩
    cases r with
    | error e => simp
    | ok hostKey =>
      simp only
      rcases ho : Open dirOf sql w1 flags.dbPath with ⟨r2, w2⟩
      cases r2 with
      | error e => simp
      | ok u =>
        simp only
        cases hk : NewClient joinPath kube with
        | error e => simp
        | ok u2 => simp
  · simp only [main]
    rcases hn : NewServer parse dirOf derive joinPath sql kube w
      (Config.mk flags.addr flags.hostKeyPath flags.dbPath) with ⟨r, w1⟩
    cases r with
    | error e => simp
    | ok server =>
      have hcfg : server.config.ListenAddr = flags.addr := by
        simp only [NewServer] at hn
        split at hn
        · cases hn
        · split at hn
          · cases hn
          · split at hn
            · cases hn
            · simp only [Prod.mk.injEq, Except.ok.injEq] at hn
              rw [← hn.1]
      have hiff := ListenAndServe_error_iff server bind accepts
      rw [hcfg] at hiff
      simp only [reduceCtorEq, exists_false, false_or]
      rw [← hiff]
      rcases hl : ListenAndServe server bind accepts with ⟨events, r⟩
      cases r with
      | none => simp
      | some r1 =>
        cases r1 with
        | none => simp
        | some err => simp

set_option maxRecDepth 100000 in
theorem main_fatal_iff_witness :
    takenPort defaultFlags.addr ≠ none
      ∧ ∃ msg, (main ParsePrivateKey sampleDir (fun seed => seed) sampleJoin sampleSql sampleKube
          sampleWorld defaultFlags takenPort sampleAccepts).1 = some (ProcessEnd.fatal msg) :=
  ⟨by decide,
    (main_fatal_iff ParsePrivateKey sampleDir (fun seed => seed) sampleJoin sampleSql sampleKube
      sampleWorld defaultFlags takenPort sampleAccepts).2.2.mpr (Or.inr (by decide))⟩

/-! ## Authentication: the last-used update -/

/-- C20: for every key whose credential is found, and whatever the outcome of
`UpdateSSHKeyLastUsed` (it succeeds, or it returns any error), the callback
attempts the update for the found credential and returns the same result: the
permissions built from the found credential and no error. -/
theorem publicKeyCallback_ignores_update_result (fp : List Nat → String) (env : Env)
    (user : String) (key : List Nat) (k : SSHKey) (fault : Option String)
    (h : (GetSSHKeyByFingerprint env (fp key)).1 = .ok k) :
    (publicKeyCallback fp { env with execFault := fault } user key).1
        = (some { Extensions := [("user-id", k.UserID), ("key-id", k.ID),
            ("fingerprint", fp key)] }, none)
      ∧ (publicKeyCallback fp { env with execFault := fault } user key).1
        = (publicKeyCallback fp { env with execFault := none } user key).1
      ∧ Event.updateSSHKeyLastUsed k.ID fault.isNone
        ∈ (publicKeyCallback fp { env with execFault := fault } user key).2.trace := by
  have hf : ∀ f : Option String,
      (GetSSHKeyByFingerprint { env with execFault := f } (fp key)).1 = .ok k := by
    intro f
    rw [GetSSHKeyByFingerprint_execFault]
    exact h
  refine ⟨(publicKeyCallback_ok fp _ user key k (hf fault)).1, ?_, ?_⟩
  · rw [(publicKeyCallback_ok fp _ user key k (hf fault)).1,
      (publicKeyCallback_ok fp _ user key k (hf none)).1]
  · have h1 : (GetSSHKeyByFingerprint (Env.logf { env with execFault := fault }
        ("Auth attempt for workspace '" ++ user ++ "' with key " ++ fp key)) (fp key)).1
        = .ok k := by
      rw [← hf fault]
      exact GetSSHKeyByFingerprint_fst _ _ _
    simp only [publicKeyCallback]
    rw [GetSSHKeyByFingerprint_ok _ _ _ h1]
    cases fault <;>
      simp [UpdateSSHKeyLastUsed, Env.emit, Env.logf]

theorem publicKeyCallback_ignores_update_result_witness :
    (GetSSHKeyByFingerprint sampleEnv (sampleFingerprint [1, 2])).1 = .ok sampleCredential
      ∧ (publicKeyCallback sampleFingerprint
          { sampleEnv with execFault := some "database is locked" } "alpha" [1, 2]).1
        = (publicKeyCallback sampleFingerprint { sampleEnv with execFault := none } "alpha"
            [1, 2]).1 :=
  ⟨by decide,
    (publicKeyCallback_ignores_update_result sampleFingerprint sampleEnv "alpha" [1, 2]
      sampleCredential (some "database is locked") (by decide)).2.1⟩

/-! ## Authentication: the permissions recorded -/

/-- C21: whenever `publicKeyCallback` returns without error, a credential was
found for the fingerprint of the offered key, and the permissions returned hold
exactly three extension entries: `user-id` is the owner ID of the found
credential, `key-id` its ID, and `fingerprint` the fingerprint of the offered
key, which is the fingerprint stored in the found credential. -/
theorem publicKeyCallback_records_three_extensions (fp : List Nat → String) (env : Env)
    (user : String) (key : List Nat)
    (h : (publicKeyCallback fp env user key).1.2 = none) :
    ∃ k, (GetSSHKeyByFingerprint env (fp key)).1 = .ok k
      ∧ (publicKeyCallback fp env user key).1.1
        = some { Extensions := [("user-id", k.UserID), ("key-id", k.ID),
            ("fingerprint", fp key)] }
      ∧ k.Fingerprint = fp key
      ∧ ∀ perms, (publicKeyCallback fp env user key).1.1 = some perms →
          perms.Extensions.length = 3
            ∧ mapGet perms.Extensions "user-id" = k.UserID
            ∧ mapGet perms.Extensions "key-id" = k.ID
            ∧ mapGet perms.Extensions "fingerprint" = k.Fingerprint := by
  cases hl : (GetSSHKeyByFingerprint env (fp key)).1 with
  | error e =>
    rw [publicKeyCallback_error fp env user key e hl] at h
    cases h
  | ok k =>
    have hok := (publicKeyCallback_ok fp env user key k hl).1
    have hfp := GetSSHKeyByFingerprint_fingerprint env (fp key) k hl
    refine ⟨k, rfl, by rw [hok], hfp, ?_⟩
    intro perms hp
    rw [hok] at hp
    simp only [Option.some.injEq] at hp
    subst hp
    refine ⟨rfl, ?_, ?_, ?_⟩
    · simp [mapGet]
    · simp [mapGet]
    · simp [mapGet, hfp]

theorem publicKeyCallback_records_three_extensions_witness :
    (publicKeyCallback sampleFingerprint sampleEnv "alpha" [1, 2]).1.2 = none
      ∧ ∃ k, (GetSSHKeyByFingerprint sampleEnv (sampleFingerprint [1, 2])).1 = .ok k
        ∧ (publicKeyCallback sampleFingerprint sampleEnv "alpha" [1, 2]).1.1
          = some { Extensions := [("user-id", k.UserID), ("key-id", k.ID),
              ("fingerprint", sampleFingerprint [1, 2])] } :=
  ⟨by decide,
    by
      obtain ⟨k, h1, h2, _⟩ :=
        publicKeyCallback_records_three_extensions sampleFingerprint sampleEnv "alpha" [1, 2]
          (by decide)
      exact ⟨k, h1, h2⟩⟩

/-- C30: for every public key, every state of the store and its faults, and
every two inbound user names, `publicKeyCallback` returns the same permissions
and the same error with both names (so it accepts with one exactly when it
accepts with the other), makes the same calls on the credential store with the
same outcomes, and leaves the same rows in the store. -/
theorem publicKeyCallback_independent_of_user (fp : List Nat → String) (env : Env)
    (u1 u2 : String) (key : List Nat) :
    (publicKeyCallback fp env u1 key).1 = (publicKeyCallback fp env u2 key).1
      ∧ (((publicKeyCallback fp env u1 key).1.2 = none)
        ↔ ((publicKeyCallback fp env u2 key).1.2 = none))
      ∧ ((publicKeyCallback fp env u1 key).2.trace.drop env.trace.length).filter
          Event.isStoreCall
        = ((publicKeyCallback fp env u2 key).2.trace.drop env.trace.length).filter
          Event.isStoreCall
      ∧ (publicKeyCallback fp env u1 key).2.ssh_keys
        = (publicKeyCallback fp env u2 key).2.ssh_keys := by
  have hres : ∀ u, (publicKeyCallback fp env u key).1
      = (match (GetSSHKeyByFingerprint env (fp key)).1 with
        | .error _ => (none, some "unknown public key")
        | .ok k => (some { Extensions := [("user-id", k.UserID), ("key-id", k.ID),
            ("fingerprint", fp key)] }, none))
      ∧ ((publicKeyCallback fp env u key).2.trace.drop env.trace.length).filter
          Event.isStoreCall
        = (match (GetSSHKeyByFingerprint env (fp key)).1 with
          | .error _ => [Event.getSSHKeyByFingerprint (fp key) none]
          | .ok k => [Event.getSSHKeyByFingerprint (fp key) (some k),
              Event.updateSSHKeyLastUsed k.ID env.execFault.isNone])
      ∧ (publicKeyCallback fp env u key).2.ssh_keys
        = (match (GetSSHKeyByFingerprint env (fp key)).1 with
          | .error _ => env.ssh_keys
          | .ok k => (UpdateSSHKeyLastUsed env k.ID).2.ssh_keys) := by
    intro u
    simp only [publicKeyCallback, GetSSHKeyByFingerprint, Env.logf, Env.emit]
    cases hq : env.queryFault with
    | some e => simp [Event.isStoreCall]
    | none =>
      cases hf : env.ssh_keys.find? (fun k => k.Fingerprint == fp key) with
      | none => simp [Event.isStoreCall]
      | some k =>
        cases hx : env.execFault <;>
          simp [UpdateSSHKeyLastUsed, Env.emit, hx, Event.isStoreCall]
  refine ⟨?_, ?_, ?_, ?_⟩
  · rw [(hres u1).1, (hres u2).1]
  · rw [(hres u1).1, (hres u2).1]
  · rw [(hres u1).2.1, (hres u2).2.1]
  · rw [(hres u1).2.2, (hres u2).2.2]

/-! ## Session set-up: the backend -/

/-- C22: in every session, whatever the client and the key that authenticated
it, every outbound handshake is made with the user and the one signer of the
client configuration `handleConnection` builds, that signer is the server's host
signer, and there is at most one such handshake; the host key callback of that
configuration returns no error for any host name and host key; and the host
signer of a server `NewServer` returned is the key `loadOrGenerateHostKey` gave,
the only host key installed in its SSH server configuration. -/
theorem outbound_handshake_offers_host_signer (fp : List Nat → String) (s : Server)
    (cancelled : Bool) (env : Env) (client : Client) :
    (∀ x ∈ sessionEvents fp s cancelled env client, x.isHandshake = true →
        x.offered = some ((targetClientConfig s).User, s.hostSigner))
      ∧ (targetClientConfig s).Auth = [AuthMethod.PublicKeys [s.hostSigner]]
      ∧ ((sessionEvents fp s cancelled env client).filter Event.isHandshake).length ≤ 1
      ∧ (∀ host key, (targetClientConfig s).HostKeyCallback host key = none)
      ∧ (∀ (parse : List Nat → Except String Signer) (dirOf : String → String)
          (derive : List Nat → List Nat) (joinPath : List String → String) (sql : SqlDriver)
          (kube : KubeEnv) (w w1 : World) (config : Config),
          NewServer parse dirOf derive joinPath sql kube w config = (.ok s, w1) →
          s.sshConfig.hostKeys = [s.hostSigner]
            ∧ (loadOrGenerateHostKey parse dirOf derive w config.HostKeyPath).1
              = .ok s.hostSigner) := by
  obtain ⟨auth, hauth, hshape⟩ := handleConnection_shape fp s cancelled env client
  have hna : ∀ x ∈ auth, x.isHandshake = false := fun x hx => (isAuth_not_backend x (hauth x hx)).1
  have hfil := filter_auth_nil Event.isHandshake auth hna
  refine ⟨?_, rfl, ?_, fun _ _ => rfl, ?_⟩
  · intro x hx hh
    rcases hshape with ⟨e, m, _, hS⟩ | ⟨_, ⟨e, m1, m2, _, hS⟩ | ⟨ws, m1, m2, _, _, hS⟩
      | ⟨ws, m1, m2, _, _, _, _, hS⟩ | ⟨ws, m1, m2, _, _, _, _, _, hS⟩
      | ⟨ws, m1, m2, _, _, _, _, _, hS⟩⟩
    all_goals rw [hS, List.mem_append] at hx
    all_goals rcases hx with hx | hx
    all_goals first
      | (rw [hna x hx] at hh; cases hh)
      | (simp only [List.mem_cons, List.mem_singleton, List.not_mem_nil, or_false] at hx
         rcases hx with rfl | rfl | rfl | rfl | rfl | rfl | rfl | rfl | rfl | rfl | rfl | rfl
           | rfl | rfl | rfl <;> first | rfl | cases hh)
  · rcases hshape with ⟨e, m, _, hS⟩ | ⟨_, ⟨e, m1, m2, _, hS⟩ | ⟨ws, m1, m2, _, _, hS⟩
      | ⟨ws, m1, m2, _, _, _, _, hS⟩ | ⟨ws, m1, m2, _, _, _, _, _, hS⟩
      | ⟨ws, m1, m2, _, _, _, _, _, hS⟩⟩
    all_goals rw [hS, List.filter_append, hfil]
    all_goals simp [List.filter, Event.isHandshake]
  · intro parse dirOf derive joinPath sql kube w w1 config h
    exact NewServer_hostKeys parse dirOf derive joinPath sql kube w w1 config s h

theorem outbound_handshake_offers_host_signer_witness :
    Event.newClientConn "10.0.0.5:22" "dev" sampleServer.hostSigner true
        ∈ sessionEvents sampleFingerprint sampleServer false sampleEnv sampleClient
      ∧ (Event.newClientConn "10.0.0.5:22" "dev" sampleServer.hostSigner true).offered
        = some ((targetClientConfig sampleServer).User, sampleServer.hostSigner) :=
  ⟨by decide,
    (outbound_handshake_offers_host_signer sampleFingerprint sampleServer false sampleEnv
      sampleClient).1 _ (by decide) rfl⟩

/-- C23: when a session's lookup returns a workspace with status `Running` and a
non-empty address, the lookup was made with the inbound user name, the workspace
is the view of the pod named `ws-` followed by that name, and the session dials
exactly once, network `tcp`, at the workspace's address followed by `:22`. -/
theorem backend_dialed_at_workspace_address (fp : List Nat → String) (s : Server)
    (cancelled : Bool) (env : Env) (client : Client) (name : String) (ws : Workspace)
    (hx : Event.getWorkspace name (some ws) ∈ sessionEvents fp s cancelled env client)
    (hrun : ws.Status = "Running") (hip : ws.PodIP ≠ "") :
    name = client.user
      ∧ (∃ pod ∈ env.pods, pod.Name = "ws-" ++ client.user ∧ ws = podToWorkspace env.now pod)
      ∧ ∃ ok, (sessionEvents fp s cancelled env client).filter Event.isDial
          = [Event.dial "tcp" (ws.PodIP ++ ":22") ok] := by
  obtain ⟨auth, hauth, hshape⟩ := handleConnection_shape fp s cancelled env client
  have hna : ∀ x ∈ auth, x.isDial = false := fun x hx => (isAuth_not_backend x (hauth x hx)).2.1
  have hfil := filter_auth_nil Event.isDial auth hna
  have hnot : Event.getWorkspace name (some ws) ∉ auth := fun h =>
    (isAuth_not_backend _ (hauth _ h)).2.2.2 name (some ws) rfl
  rcases hshape with ⟨e, m, _, hS⟩ | ⟨_, ⟨e, m1, m2, _, hS⟩ | ⟨ws1, m1, m2, hg, hbad, hS⟩
    | ⟨ws1, m1, m2, hg, _, _, _, hS⟩ | ⟨ws1, m1, m2, hg, _, _, _, _, hS⟩
    | ⟨ws1, m1, m2, hg, _, _, _, _, hS⟩⟩
  all_goals rw [hS, List.mem_append] at hx
  all_goals rcases hx with hx | hx
  all_goals first
    | exact absurd hx hnot
    | skip
  all_goals simp only [List.mem_cons, List.mem_singleton, List.not_mem_nil, or_false,
    reduceCtorEq, false_or, Event.getWorkspace.injEq, Option.some.injEq, and_false] at hx
  all_goals obtain ⟨hn, hw⟩ := hx
  all_goals subst hn hw
  · rcases hbad with h | h
    · exact absurd hrun h
    · exact absurd h hip
  · refine ⟨rfl, (GetWorkspace_ok env cancelled client.user ws hg).2, false, ?_⟩
    rw [hS, List.filter_append, hfil]
    simp [List.filter, Event.isDial]
  · refine ⟨rfl, (GetWorkspace_ok env cancelled client.user ws hg).2, true, ?_⟩
    rw [hS, List.filter_append, hfil]
    simp [List.filter, Event.isDial]
  · refine ⟨rfl, (GetWorkspace_ok env cancelled client.user ws hg).2, true, ?_⟩
    rw [hS, List.filter_append, hfil]
    simp [List.filter, Event.isDial]

theorem backend_dialed_at_workspace_address_witness :
    Event.getWorkspace "alpha" (some ⟨"alpha", "Running", "1m", "", "10.0.0.5"⟩)
        ∈ sessionEvents sampleFingerprint sampleServer false sampleEnv sampleClient
      ∧ ∃ ok, (sessionEvents sampleFingerprint sampleServer false sampleEnv sampleClient).filter
          Event.isDial = [Event.dial "tcp" ("10.0.0.5" ++ ":22") ok] :=
  ⟨by decide,
    (backend_dialed_at_workspace_address sampleFingerprint sampleServer false sampleEnv
      sampleClient "alpha" ⟨"alpha", "Running", "1m", "", "10.0.0.5"⟩ (by decide) rfl
      (by decide)).2.2⟩

/-! ## Session set-up: cancellation -/

/-- C25 (counterexample): the context is cancelled right after the workspace
lookup has returned; the session still dials the backend, makes the outbound
handshake and starts the four forwarders. -/
theorem dial_proceeds_after_cancellation :
    cancelledAfterLookup Stage.dial = true ∧ cancelledAfterLookup Stage.handshake = true
      ∧ (handleConnectionCtx sampleFingerprint sampleServer cancelledAfterLookup sampleEnv
          sampleClient).trace.filter
            (fun x => x.isDial || x.isHandshake || x.isForward)
        = [Event.dial "tcp" "10.0.0.5:22" true,
            Event.newClientConn "10.0.0.5:22" "dev" sampleServer.hostSigner true,
            Event.goProxyRequests Leg.client Leg.target,
            Event.goProxyRequests Leg.target Leg.client,
            Event.goProxyChannels Leg.client Leg.target,
            Event.goProxyChannels Leg.target Leg.client] := by
  decide

/-- C25 (amended): of the calls of a session, only the workspace lookup takes
the cancellation signal. When the context is done at the lookup, the lookup
fails and the session neither dials, nor makes the outbound handshake, nor
starts a forwarder; and the whole run depends on the context only through its
state at the lookup: two contexts that agree there give the same run, whatever
their state at the TCP dial, at the outbound handshake and while relaying. -/
theorem only_lookup_is_cancellation_aware (fp : List Nat → String) (s : Server)
    (ctx : Stage → Bool) (env : Env) (client : Client) :
    (ctx Stage.resolve = true →
        (GetWorkspace env (ctx Stage.resolve) client.user).1 = .error "context canceled"
          ∧ ∀ x ∈ (handleConnectionCtx fp s ctx env client).trace.drop env.trace.length,
              x.isDial = false ∧ x.isHandshake = false ∧ x.isForward = false)
      ∧ (∀ ctx1 : Stage → Bool, ctx1 Stage.resolve = ctx Stage.resolve →
          handleConnectionCtx fp s ctx1 env client = handleConnectionCtx fp s ctx env client) := by
  constructor
  · intro hc
    rw [hc]
    refine ⟨GetWorkspace_cancelled env client.user, ?_⟩
    have hE : (handleConnectionCtx fp s ctx env client).trace.drop env.trace.length
        = sessionEvents fp s true env client := by
      simp only [handleConnectionCtx, sessionEvents, hc]
    rw [hE]
    obtain ⟨auth, hauth, hshape⟩ := handleConnection_shape fp s true env client
    have hcan := GetWorkspace_cancelled env client.user
    intro x hx
    rcases hshape with ⟨e, m, _, hS⟩ | ⟨_, ⟨e, m1, m2, _, hS⟩ | ⟨ws, m1, m2, hg, _, hS⟩
      | ⟨ws, m1, m2, hg, _, _, _, hS⟩ | ⟨ws, m1, m2, hg, _, _, _, _, hS⟩
      | ⟨ws, m1, m2, hg, _, _, _, _, hS⟩⟩
    all_goals first
      | (rw [hcan] at hg; cases hg)
      | (rw [hS, List.mem_append] at hx
         rcases hx with hx | hx
         · have hb := isAuth_not_backend x (hauth x hx)
           exact ⟨hb.2.1, hb.1, hb.2.2.1⟩
         · simp only [List.mem_cons, List.mem_singleton, List.not_mem_nil, or_false] at hx
           rcases hx with rfl | rfl | rfl | rfl | rfl | rfl <;> exact ⟨rfl, rfl, rfl⟩)
  · intro ctx1 h
    simp only [handleConnectionCtx, h]

theorem only_lookup_is_cancellation_aware_witness :
    (fun _ => true : Stage → Bool) Stage.resolve = true
      ∧ ∀ x ∈ (handleConnectionCtx sampleFingerprint sampleServer (fun _ => true) sampleEnv
          sampleClient).trace.drop sampleEnv.trace.length,
          x.isDial = false ∧ x.isHandshake = false ∧ x.isForward = false :=
  ⟨rfl,
    ((only_lookup_is_cancellation_aware sampleFingerprint sampleServer (fun _ => true) sampleEnv
      sampleClient).1 rfl).2⟩

/-! ## Length-prefixed fields: unique decoding -/

/-- C29: for all byte strings `a`, `b` shorter than `2^32` bytes and all byte
strings `x`, `y`: if `marshalBytes a` followed by `x` equals `marshalBytes b`
followed by `y`, then `a = b` and `x = y`. And `marshalED25519PrivateKey` maps
two different 64-byte keys to two different blobs, whatever the check values
drawn from the random source. -/
theorem marshalBytes_uniquely_decodable :
    (∀ a b x y : List Nat, a.length < 2 ^ 32 → b.length < 2 ^ 32 →
        marshalBytes a ++ x = marshalBytes b ++ y → a = b ∧ x = y)
      ∧ (∀ rnd1 rnd2 k1 k2 : List Nat, k1.length = 64 → k2.length = 64 → k1 ≠ k2 →
          marshalED25519PrivateKey rnd1 k1 ≠ marshalED25519PrivateKey rnd2 k2) := by
  constructor
  · intro a b x y ha hb h
    rw [marshalBytes_eq, marshalBytes_eq] at h
    simp only [lengthPrefixed, List.append_assoc] at h
    have h4 := List.append_inj h (by rw [be32_length, be32_length])
    have hlen : a.length = b.length := by
      have := congrArg beValue h4.1
      rwa [beValue_be32 _ ha, beValue_be32 _ hb] at this
    exact List.append_inj h4.2 hlen
  · intro rnd1 rnd2 k1 k2 h1 h2 hne heq
    have d1 := decodeOpenSSHKeyV1_marshal rnd1 k1 h1
    have d2 := decodeOpenSSHKeyV1_marshal rnd2 k2 h2
    rw [heq, d2] at d1
    exact hne (Option.some.inj d1).symm

theorem marshalBytes_uniquely_decodable_witness :
    [1, 2].length < 2 ^ 32
      ∧ marshalBytes [1, 2] ++ [3] = marshalBytes [1, 2] ++ [3]
      ∧ ([1, 2] = [1, 2] ∧ [3] = [3]) :=
  ⟨by decide, rfl,
    marshalBytes_uniquely_decodable.1 [1, 2] [1, 2] [3] [3] (by decide) (by decide) rfl⟩

/-! ## Relay engine: when a request loop returns -/

/-- C24 (counterexample): the stream delivers a nil pointer and then a request
whose forward would succeed. Both loops return at the nil pointer: nothing is
forwarded, although the stream has not been closed and no forward has failed. -/
theorem request_loop_returns_on_nil :
    proxyRequests nilThenRequest = ([], LoopEnd.nilRequest)
      ∧ proxyChannelRequests nilThenChannelRequest = ([], LoopEnd.nilRequest)
      ∧ (∃ a ∈ nilThenRequest, a.forwards = true)
      ∧ (proxyRequests (nilThenRequest.drop 1)).2 = LoopEnd.streamClosed := by
  refine ⟨by decide, by decide, ⟨_, List.mem_cons_of_mem _ (List.mem_singleton.mpr rfl), rfl⟩,
    by decide⟩

/-- C24 (amended): a request-forwarding loop (`proxyRequests`, and likewise
`proxyChannelRequests`) returns exactly when its source stream is closed, it
reads a nil pointer, or a forward fails. After requests whose forwards all
succeeded, each relayed in full: at the close of the stream it returns; a
request whose forward fails is sent, gets no reply, and no later element of the
stream is forwarded; at a nil pointer it returns and forwards nothing more. It
gets to the close of the stream if and only if every element is a request whose
forward succeeds. -/
theorem request_loop_returns_when (stream : List (Request × Bool × List Nat))
    (channelStream : List (Request × Bool)) :
    proxyRequests (answered stream) = (relayed stream, LoopEnd.streamClosed)
      ∧ (∀ req err rest, proxyRequests (answered stream ++ ⟨some req, .error err⟩ :: rest)
          = (relayed stream ++ [RelayEvent.sendRequest req.ReqType req.WantReply req.Payload],
              LoopEnd.sendFailed err))
      ∧ (∀ answer rest, proxyRequests (answered stream ++ ⟨none, answer⟩ :: rest)
          = (relayed stream, LoopEnd.nilRequest))
      ∧ (∀ arrivals, (proxyRequests arrivals).2 = LoopEnd.streamClosed
          ↔ ∀ a ∈ arrivals, a.forwards = true)
      ∧ proxyChannelRequests (channelAnswered channelStream)
        = (channelRelayed channelStream, LoopEnd.streamClosed)
      ∧ (∀ req err rest,
          proxyChannelRequests (channelAnswered channelStream ++ ⟨some req, .error err⟩ :: rest)
          = (channelRelayed channelStream
              ++ [RelayEvent.sendRequest req.ReqType req.WantReply req.Payload],
              LoopEnd.sendFailed err))
      ∧ (∀ answer rest,
          proxyChannelRequests (channelAnswered channelStream ++ ⟨none, answer⟩ :: rest)
          = (channelRelayed channelStream, LoopEnd.nilRequest))
      ∧ (∀ arrivals, (proxyChannelRequests arrivals).2 = LoopEnd.streamClosed
          ↔ ∀ a ∈ arrivals, a.forwards = true) := by
  refine ⟨?_, ?_, ?_, proxyRequests_closed_iff, ?_, ?_, ?_, proxyChannelRequests_closed_iff⟩
  · have := proxyRequests_answered_append stream []
    simpa [proxyRequests] using this
  · intro req err rest
    rw [proxyRequests_answered_append]
    simp [proxyRequests]
  · intro answer rest
    rw [proxyRequests_answered_append]
    simp [proxyRequests]
  · have := proxyChannelRequests_answered_append channelStream []
    simpa [proxyChannelRequests] using this
  · intro req err rest
    rw [proxyChannelRequests_answered_append]
    simp [proxyChannelRequests]
  · intro answer rest
    rw [proxyChannelRequests_answered_append]
    simp [proxyChannelRequests]

theorem request_loop_returns_when_witness :
    proxyRequests failingStream
      = ([RelayEvent.sendRequest "tcpip-forward" true [1],
          RelayEvent.reply ⟨"tcpip-forward", true, [1]⟩ true [2],
          RelayEvent.sendRequest "keepalive@openssh.com" true []], LoopEnd.sendFailed "EOF") :=
  (request_loop_returns_when [(⟨"tcpip-forward", true, [1]⟩, true, [2])] []).2.1
    ⟨"keepalive@openssh.com", true, []⟩ "EOF"
    [⟨some ⟨"cancel-tcpip-forward", false, [3]⟩, .ok (true, [])⟩]

/-! ## Command line: workspace names and repository URLs -/

/-- C27: for every string, `isValidWorkspaceName` returns true if and only if
the string is a valid Kubernetes DNS label: between 1 and 63 bytes long, every
character a lowercase ASCII letter, a digit or `-`, and neither the first nor
the last character is `-`. -/
theorem isValidWorkspaceName_iff_DNS_label (name : String) :
    isValidWorkspaceName name = true ↔ isDNSLabel name := by
  unfold isValidWorkspaceName isDNSLabel
  have hloop := validNameLoop_iff (byteLen name) name.toList 0
    (by simp [byteLen, stringBytes])
  by_cases hlen : byteLen name = 0 ∨ byteLen name > 63
  · simp only [hlen, if_true, Bool.false_eq_true, false_iff]
    rintro ⟨h1, h2, _⟩
    omega
  · simp only [hlen, if_false, hloop, true_implies]
    constructor
    · rintro ⟨h1, h2, h3⟩
      exact ⟨by omega, by omega, h1, h2, h3⟩
    · rintro ⟨_, _, h1, h2, h3⟩
      exact ⟨h1, h2, h3⟩

/-- C28 (counterexample): for the argument `http://http://github.com/user/repo`
the function returns `https://http://github.com/user/repo.git`, and applied to
that it returns `https://github.com/user/repo.git`: applying it twice differs
from applying it once. -/
theorem normalizeGitHubURL_not_idempotent :
    normalizeGitHubURL doubleSchemeURL = "https://http://github.com/user/repo.git"
      ∧ normalizeGitHubURL (normalizeGitHubURL doubleSchemeURL)
        = "https://github.com/user/repo.git"
      ∧ normalizeGitHubURL (normalizeGitHubURL doubleSchemeURL)
        ≠ normalizeGitHubURL doubleSchemeURL := by
  decide

/-- C28 (amended): for every string `u`, `normalizeGitHubURL u` starts with
`https://` and ends with `.git`; applying the function again returns the same
string if and only if what follows the leading `https://` of
`normalizeGitHubURL u` starts with neither `http://` nor `https://`. This is so
for every `u` made of at most one scheme, `http://` or `https://`, followed by a
text that starts with neither. -/
theorem normalizeGitHubURL_idempotent_iff (u : String) :
    HasPrefix (normalizeGitHubURL u) "https://" = true
      ∧ HasSuffix (normalizeGitHubURL u) ".git" = true
      ∧ (normalizeGitHubURL (normalizeGitHubURL u) = normalizeGitHubURL u
          ↔ (HasPrefix (afterScheme (normalizeGitHubURL u)) "http://" = false
              ∧ HasPrefix (afterScheme (normalizeGitHubURL u)) "https://" = false))
      ∧ (HasPrefix u "http://" = false → HasPrefix u "https://" = false →
          ∀ scheme ∈ ["", "http://", "https://"],
            normalizeGitHubURL (normalizeGitHubURL (scheme ++ u))
              = normalizeGitHubURL (scheme ++ u)) := by
  have hr := normalizeGitHubURL_toList u
  have hpre : "https://".toList <+: (normalizeGitHubURL u).toList := by
    rw [hr]
    exact addSchemeAndSuffix_scheme _
  have hsuf : ".git".toList <:+ (normalizeGitHubURL u).toList := by
    rw [hr]
    exact addSchemeAndSuffix_suffix _
  have hsplit : (normalizeGitHubURL u).toList
      = "https://".toList ++ (afterScheme (normalizeGitHubURL u)).toList := by
    obtain ⟨rest, hrest⟩ := hpre
    have hd : (afterScheme (normalizeGitHubURL u)).toList = rest := by
      show List.drop 8 (normalizeGitHubURL u).toList = rest
      rw [← hrest]
      rfl
    rw [hd]
    exact hrest.symm
  refine ⟨List.isPrefixOf_iff_prefix.mpr hpre, List.isSuffixOf_iff_suffix.mpr hsuf, ?_, ?_⟩
  · rw [hsplit] at hsuf
    have hfix := normalizeChars_fixed _ hsuf
    rw [← hsplit] at hfix
    simp only [HasPrefix]
    rw [← hfix, ← normalizeGitHubURL_toList]
    constructor
    · intro h
      rw [h]
    · intro h
      exact String_eq_of_toList _ _ h
  · intro h1 h2 scheme hs
    have hall := normalizeChars_single_scheme u.toList h1 h2
    have ha : ∀ a b : String, (a ++ b).toList = a.toList ++ b.toList := fun a b => by
      simp [String.toList, String.data_append]
    apply String_eq_of_toList
    rw [normalizeGitHubURL_toList, normalizeGitHubURL_toList, ha]
    simp only [List.mem_cons, List.mem_singleton, List.not_mem_nil, or_false] at hs
    rcases hs with rfl | rfl | rfl
    · have he : "".toList ++ u.toList = u.toList := rfl
      rw [he, hall.1, hall.2.2.2]
    · rw [hall.2.1, hall.2.2.2]
    · rw [hall.2.2.1, hall.2.2.2]

theorem normalizeGitHubURL_idempotent_iff_witness :
    HasPrefix "github.com/user/repo" "http://" = false
      ∧ HasPrefix "github.com/user/repo" "https://" = false
      ∧ normalizeGitHubURL (normalizeGitHubURL ("https://" ++ "github.com/user/repo"))
        = normalizeGitHubURL ("https://" ++ "github.com/user/repo") :=
  ⟨by decide, by decide,
    (normalizeGitHubURL_idempotent_iff "github.com/user/repo").2.2.2 (by decide) (by decide)
      "https://" (by decide)⟩

/-! ## Workspaces: stop and start -/

set_option maxRecDepth 100000 in
/-- C26 (evaluation at a failing input): a workspace is created with the flags
of `create` at their defaults and then stopped. `StartWorkspace` succeeds and
creates one pod, whose workspace container runs `justup/devcontainer:latest`,
while the pod built at creation runs the image of the options,
`ghcr.io/rahulvramesh/justup/devcontainer:latest`: the two pods differ. In
general, of the options that `buildPVC` was given, the options `StartWorkspace`
reconstructs keep the name, the git URL, the branch and the Docker-in-Docker
setting, and replace the image, the CPU and the memory by constants. -/
theorem StartWorkspace_does_not_restore_image :
    createdPVC.isSome = true ∧ createdPod.isSome = true
      ∧ (StartWorkspace sampleQuantities stoppedCluster "repo").map
          (fun r => (r.1, r.2.pods.map (fun p => p.Containers.map (fun c => c.Image))))
        = some (none, [["justup/devcontainer:latest"]])
      ∧ createdPod.map (fun p => p.Containers.map (fun c => c.Image))
        = some ["ghcr.io/rahulvramesh/justup/devcontainer:latest"]
      ∧ (StartWorkspace sampleQuantities stoppedCluster "repo").map (fun r => r.2.pods)
        ≠ some createdPod.toList
      ∧ (∀ (validQuantity : String → Bool) (o : WorkspaceOptions) (name : String)
          (pvc : PersistentVolumeClaim), buildPVC validQuantity name o = some pvc →
          restoredOptions o.Name pvc
            = { o with Image := "justup/devcontainer:latest", CPU := "1", Memory := "2Gi",
                       Storage := "", SSHPubKey := "" }) := by
  refine ⟨by decide, by decide, by decide, by decide, by decide, ?_⟩
  intro validQuantity o name pvc h
  unfold buildPVC MustParse at h
  by_cases hv : validQuantity o.Storage = true
  · simp only [hv, if_true, Option.some.injEq] at h
    subst h
    cases hd : o.EnableDinD <;>
      simp [restoredOptions, mapGet, hd, WorkspaceLabel, GitURLAnnotation, BranchAnnotation]
  · simp [hv] at h

end Justup
